import Mathlib

/-!
Verification of the dynamic AABB tree broad-phase
(`src/collision/b2_dynamic_tree.{hpp,cpp}`).

The tree is embedded shallowly: the node pool is a list of node records
(the backing array), handles are integers with `-1` as the sentinel, and
every operation of the source is a Lean function on an explicit state
record.  Loops of the source that walk parent pointers or an explicit
stack are written as fuel-indexed recursions; the fuel passed by the
public entry points is derived from the node capacity, which is shown
sufficient on well-formed states.

Scalars are rational numbers.  The source uses IEEE floats; all claims
under study are about comparisons, unions and translations of
rectangles, which the rationals model exactly.
-/

namespace DynTree

/-- Modelled from the spec: the 2D vector type of the primitive layer
(`math/vector.hpp` is not part of the repository). -/
structure Vec where
  x : ℚ
  y : ℚ
deriving DecidableEq, Repr, Inhabited

instance : Neg Vec := ⟨fun v => ⟨-v.x, -v.y⟩⟩
instance : Add Vec := ⟨fun a b => ⟨a.x + b.x, a.y + b.y⟩⟩
instance : Sub Vec := ⟨fun a b => ⟨a.x - b.x, a.y - b.y⟩⟩

/-- Scalar multiplication `s * v` on vectors. -/
def Vec.scale (s : ℚ) (v : Vec) : Vec := ⟨s * v.x, s * v.y⟩

/-- Dot product `b2Dot`. -/
def Vec.dot (a b : Vec) : ℚ := a.x * b.x + a.y * b.y

/-- Modelled from the spec: the rectangle type `Rectf` of the primitive
layer, stored by its four sides.  The spec lists the operations the core
assumes: perimeter, containment, overlap, union, translation and
grow-by-margin. -/
structure Rect where
  left : ℚ
  top : ℚ
  right : ℚ
  bottom : ℚ
deriving DecidableEq, Repr, Inhabited

attribute [ext] Rect Vec

namespace Rect

/-- Modelled from the spec: grow-by-margin (`Rectf::grown`): expand by
`d` on all four sides. -/
def grown (r : Rect) (d : ℚ) : Rect :=
  ⟨r.left - d, r.top - d, r.right + d, r.bottom + d⟩

/-- Modelled from the spec: translation (`Rectf::move`). -/
def move (r : Rect) (v : Vec) : Rect :=
  ⟨r.left + v.x, r.top + v.y, r.right + v.x, r.bottom + v.y⟩

/-- Modelled from the spec: containment (`Rectf::contains`), all four
sides inside. -/
def contains (r o : Rect) : Prop :=
  r.left ≤ o.left ∧ r.top ≤ o.top ∧ o.right ≤ r.right ∧ o.bottom ≤ r.bottom

instance (r o : Rect) : Decidable (r.contains o) := by
  unfold contains; infer_instance

/-- Modelled from the spec: overlap test (`Rectf::overlaps`); touching
rectangles count as overlapping, as in the Box2D `b2TestOverlap`. -/
def overlaps (r o : Rect) : Prop :=
  r.left ≤ o.right ∧ o.left ≤ r.right ∧ r.top ≤ o.bottom ∧ o.top ≤ r.bottom

instance (r o : Rect) : Decidable (r.overlaps o) := by
  unfold overlaps; infer_instance

/-- Modelled from the spec: union of two rectangles (`Rectf::combine`). -/
def combine (a b : Rect) : Rect :=
  ⟨min a.left b.left, min a.top b.top, max a.right b.right, max a.bottom b.bottom⟩

/-- Perimeter (`Rectf::get_perimeter`), the 2D surface-area heuristic. -/
def perimeter (r : Rect) : ℚ :=
  2 * ((r.right - r.left) + (r.bottom - r.top))

/-- Center of a rectangle (`Rectf::get_middle`). -/
def middle (r : Rect) : Vec :=
  ⟨(r.left + r.right) / 2, (r.top + r.bottom) / 2⟩

/-- Half-extents of a rectangle (`Rectf::get_extents`). -/
def extents (r : Rect) : Vec :=
  ⟨(r.right - r.left) / 2, (r.bottom - r.top) / 2⟩

/-- Degenerate rectangle at a point: `Rectf(p, Sizef(0,0))`. -/
def ofPoint (p : Vec) : Rect := ⟨p.x, p.y, p.x, p.y⟩

end Rect

/-- The sentinel handle `b2_nullNode`. -/
def nullNode : Int := -1

/-- Modelled from the spec: `b2_aabbExtension`, the fattening margin
(0.1 world units); the header defining it is not in the repository. -/
def b2_aabbExtension : ℚ := 1/10

/-- Modelled from the spec: `b2_aabbMultiplier`, the predicted-motion
factor (2.0); the header defining it is not in the repository. -/
def b2_aabbMultiplier : ℚ := 2

/-- A node record `b2TreeNode`.  `parentOrNext` is the
`union { int parent; int next; }` of the source; `userData` is the
opaque `void*`, modelled as an integer with `0` for `nullptr`. -/
structure TreeNode where
  aabb : Rect
  userData : Int
  parentOrNext : Int
  child1 : Int
  child2 : Int
  height : Int
  moved : Bool
deriving DecidableEq, Repr, Inhabited

/-- `b2TreeNode::IsLeaf`: `child1 == b2_nullNode`. -/
def TreeNode.IsLeaf (n : TreeNode) : Prop := n.child1 = nullNode

instance (n : TreeNode) : Decidable n.IsLeaf := by
  unfold TreeNode.IsLeaf; infer_instance

/-- The tree state `b2DynamicTree`: root handle, node pool (the backing
array, a list whose length is the allocated storage), counts, free-list
head and the insertion counter. -/
structure DTree where
  root : Int
  nodes : List TreeNode
  nodeCount : Int
  nodeCapacity : Int
  freeList : Int
  insertionCount : Int
deriving DecidableEq, Repr

/-- Read one slot of the node pool (`m_nodes[i]`); out-of-range reads,
undefined behaviour in the source, give the zeroed record. -/
def nd (s : DTree) (i : Int) : TreeNode :=
  if i < 0 then default else s.nodes.getD i.toNat default

/-- Write one slot of the node pool; out-of-range writes, undefined
behaviour in the source, are dropped. -/
def setNode (s : DTree) (i : Int) (n : TreeNode) : DTree :=
  { s with nodes := if i < 0 then s.nodes else s.nodes.set i.toNat n }

/-- Assign the root handle (`m_root = r`). -/
def setRoot (s : DTree) (r : Int) : DTree := { s with root := r }

/-- Assign the free-list head (`m_freeList = h`). -/
def setFreeList (s : DTree) (h : Int) : DTree := { s with freeList := h }

/-- Assign the allocated-node count (`m_nodeCount = c`). -/
def setCount (s : DTree) (c : Int) : DTree := { s with nodeCount := c }

/-- Bump the insertion counter (`++m_insertionCount`). -/
def bumpInsertions (s : DTree) : DTree :=
  { s with insertionCount := s.insertionCount + 1 }

/-- Fresh free-list storage for slots `[start, cap)`, as built by the
constructor loop and by the growth loop of `AllocateNode`: each slot
points to the next, the last to the sentinel, heights are `-1`. -/
def freshFree (start cap : Nat) : List TreeNode :=
  (List.range (cap - start)).map fun k =>
    { (default : TreeNode) with
      parentOrNext := if start + k = cap - 1 then nullNode else (start + k : Int) + 1
      height := -1 }

/-- The growth step of `AllocateNode`: double the capacity, copy the
first `m_nodeCount` records, thread the new tail into a free list
headed at the old count. -/
def growPool (s : DTree) : DTree :=
  { s with
    nodeCapacity := 2 * s.nodeCapacity
    nodes := s.nodes.take s.nodeCount.toNat
      ++ freshFree s.nodeCount.toNat (2 * s.nodeCapacity).toNat
    freeList := s.nodeCount }

/-- The constructor `b2DynamicTree::b2DynamicTree()`: capacity 16,
zeroed storage threaded into a free list. -/
def mkTree : DTree :=
  { root := nullNode
    nodes := freshFree 0 16
    nodeCount := 0
    nodeCapacity := 16
    freeList := 0
    insertionCount := 0 }

/-- `b2DynamicTree::AllocateNode`: grow (doubling) when the free list is
empty — copy the first `m_nodeCount` records and thread the new tail
into a free list — then pop the head and reset the popped node's
fields. -/
def allocateNode (s : DTree) : DTree × Int :=
  let s := if s.freeList = nullNode then growPool s else s
  let nodeId := s.freeList
  let s := setFreeList s (nd s nodeId).parentOrNext
  let s := setNode s nodeId
    { nd s nodeId with
      parentOrNext := nullNode
      child1 := nullNode
      child2 := nullNode
      height := 0
      userData := 0
      moved := false }
  (setCount s (s.nodeCount + 1), nodeId)

/-- `b2DynamicTree::FreeNode`: push onto the free-list head, mark the
slot free with height `-1`. -/
def freeNode (s : DTree) (nodeId : Int) : DTree :=
  let s := setNode s nodeId
    { nd s nodeId with parentOrNext := s.freeList, height := -1 }
  setCount (setFreeList s nodeId) (s.nodeCount - 1)

/-- The cost computation of one iteration of the sibling-search loop of
`b2DynamicTree::InsertLeaf` (cpp lines 209-256): returns
`(cost, cost1, cost2)` for the internal candidate `index`. -/
def insertCosts (s : DTree) (leafAABB : Rect) (index : Int) : ℚ × ℚ × ℚ :=
  let child1 := (nd s index).child1
  let child2 := (nd s index).child2
  let area := (nd s index).aabb.perimeter
  let combinedArea := ((nd s index).aabb.combine leafAABB).perimeter
  let cost := 2 * combinedArea
  let inheritanceCost := 2 * (combinedArea - area)
  let cost1 :=
    if (nd s child1).IsLeaf then
      (leafAABB.combine (nd s child1).aabb).perimeter + inheritanceCost
    else
      ((leafAABB.combine (nd s child1).aabb).perimeter
        - (nd s child1).aabb.perimeter) + inheritanceCost
  let cost2 :=
    if (nd s child2).IsLeaf then
      (leafAABB.combine (nd s child2).aabb).perimeter + inheritanceCost
    else
      ((leafAABB.combine (nd s child2).aabb).perimeter
        - (nd s child2).aabb.perimeter) + inheritanceCost
  (cost, cost1, cost2)

/-- The sibling-search descent loop of `b2DynamicTree::InsertLeaf`
(cpp lines 206-273), fuel-indexed. -/
def siblingSearch (s : DTree) (leafAABB : Rect) : Nat → Int → Int
  | 0, index => index
  | fuel + 1, index =>
    if (nd s index).IsLeaf then index
    else
      let (cost, cost1, cost2) := insertCosts s leafAABB index
      if cost < cost1 ∧ cost < cost2 then index
      else
        siblingSearch s leafAABB fuel
          (if cost1 < cost2 then (nd s index).child1 else (nd s index).child2)

/-- `b2DynamicTree::Balance` (cpp lines 394-535): one rotation step at
`iA`; returns the updated state and the new subtree root. -/
def balance (s : DTree) (iA : Int) : DTree × Int :=
  if (nd s iA).IsLeaf ∨ (nd s iA).height < 2 then (s, iA)
  else
    let iB := (nd s iA).child1
    let iC := (nd s iA).child2
    let bal := (nd s iC).height - (nd s iB).height
    if 1 < bal then
      -- rotate C up
      let iF := (nd s iC).child1
      let iG := (nd s iC).child2
      let s := setNode s iC
        { nd s iC with child1 := iA, parentOrNext := (nd s iA).parentOrNext }
      let s := setNode s iA { nd s iA with parentOrNext := iC }
      let cParent := (nd s iC).parentOrNext
      let s :=
        if cParent ≠ nullNode then
          if (nd s cParent).child1 = iA then
            setNode s cParent { nd s cParent with child1 := iC }
          else
            setNode s cParent { nd s cParent with child2 := iC }
        else setRoot s iC
      let s :=
        if (nd s iG).height < (nd s iF).height then
          let s := setNode s iC { nd s iC with child2 := iF }
          let s := setNode s iA { nd s iA with child2 := iG }
          let s := setNode s iG { nd s iG with parentOrNext := iA }
          let s := setNode s iA
            { nd s iA with
              aabb := ((nd s iB).aabb).combine ((nd s iG).aabb)
              height := 1 + max (nd s iB).height (nd s iG).height }
          setNode s iC
            { nd s iC with
              aabb := ((nd s iA).aabb).combine ((nd s iF).aabb)
              height := 1 + max (nd s iA).height (nd s iF).height }
        else
          let s := setNode s iC { nd s iC with child2 := iG }
          let s := setNode s iA { nd s iA with child2 := iF }
          let s := setNode s iF { nd s iF with parentOrNext := iA }
          let s := setNode s iA
            { nd s iA with
              aabb := ((nd s iB).aabb).combine ((nd s iF).aabb)
              height := 1 + max (nd s iB).height (nd s iF).height }
          setNode s iC
            { nd s iC with
              aabb := ((nd s iA).aabb).combine ((nd s iG).aabb)
              height := 1 + max (nd s iA).height (nd s iG).height }
      (s, iC)
    else if bal < -1 then
      -- rotate B up
      let iD := (nd s iB).child1
      let iE := (nd s iB).child2
      let s := setNode s iB
        { nd s iB with child1 := iA, parentOrNext := (nd s iA).parentOrNext }
      let s := setNode s iA { nd s iA with parentOrNext := iB }
      let bParent := (nd s iB).parentOrNext
      let s :=
        if bParent ≠ nullNode then
          if (nd s bParent).child1 = iA then
            setNode s bParent { nd s bParent with child1 := iB }
          else
            setNode s bParent { nd s bParent with child2 := iB }
        else setRoot s iB
      let s :=
        if (nd s iE).height < (nd s iD).height then
          let s := setNode s iB { nd s iB with child2 := iD }
          let s := setNode s iA { nd s iA with child1 := iE }
          let s := setNode s iE { nd s iE with parentOrNext := iA }
          let s := setNode s iA
            { nd s iA with
              aabb := ((nd s iC).aabb).combine ((nd s iE).aabb)
              height := 1 + max (nd s iC).height (nd s iE).height }
          setNode s iB
            { nd s iB with
              aabb := ((nd s iA).aabb).combine ((nd s iD).aabb)
              height := 1 + max (nd s iA).height (nd s iD).height }
        else
          let s := setNode s iB { nd s iB with child2 := iE }
          let s := setNode s iA { nd s iA with child1 := iD }
          let s := setNode s iD { nd s iD with parentOrNext := iA }
          let s := setNode s iA
            { nd s iA with
              aabb := ((nd s iC).aabb).combine ((nd s iD).aabb)
              height := 1 + max (nd s iC).height (nd s iD).height }
          setNode s iB
            { nd s iB with
              aabb := ((nd s iA).aabb).combine ((nd s iE).aabb)
              height := 1 + max (nd s iA).height (nd s iE).height }
      (s, iB)
    else (s, iA)

/-- The walk-up loops of `InsertLeaf` (cpp lines 313-328) and
`RemoveLeaf` (cpp lines 368-380): balance, refresh height and AABB from
the children, advance to the parent; fuel-indexed. -/
def fixUpward (s : DTree) : Nat → Int → DTree
  | 0, _ => s
  | fuel + 1, index =>
    if index = nullNode then s
    else
      let p := balance s index
      let s := p.1
      let index := p.2
      let child1 := (nd s index).child1
      let child2 := (nd s index).child2
      let s := setNode s index
        { nd s index with
          height := 1 + max (nd s child1).height (nd s child2).height
          aabb := ((nd s child1).aabb).combine ((nd s child2).aabb) }
      fixUpward s fuel ((nd s index).parentOrNext)

/-- `b2DynamicTree::InsertLeaf` (cpp lines 193-331). -/
def insertLeaf (s : DTree) (leaf : Int) : DTree :=
  let s := bumpInsertions s
  if s.root = nullNode then
    let s := setNode s leaf { nd s leaf with parentOrNext := nullNode }
    setRoot s leaf
  else
    let leafAABB := (nd s leaf).aabb
    let sibling := siblingSearch s leafAABB s.nodeCapacity.toNat s.root
    let oldParent := (nd s sibling).parentOrNext
    let p := allocateNode s
    let s := p.1
    let newParent := p.2
    let s := setNode s newParent
      { nd s newParent with
        parentOrNext := oldParent
        userData := 0
        aabb := leafAABB.combine ((nd s sibling).aabb)
        height := (nd s sibling).height + 1 }
    let s :=
      if oldParent ≠ nullNode then
        let s :=
          if (nd s oldParent).child1 = sibling then
            setNode s oldParent { nd s oldParent with child1 := newParent }
          else
            setNode s oldParent { nd s oldParent with child2 := newParent }
        let s := setNode s newParent
          { nd s newParent with child1 := sibling, child2 := leaf }
        let s := setNode s sibling { nd s sibling with parentOrNext := newParent }
        setNode s leaf { nd s leaf with parentOrNext := newParent }
      else
        let s := setNode s newParent
          { nd s newParent with child1 := sibling, child2 := leaf }
        let s := setNode s sibling { nd s sibling with parentOrNext := newParent }
        let s := setNode s leaf { nd s leaf with parentOrNext := newParent }
        setRoot s newParent
    fixUpward s s.nodeCapacity.toNat ((nd s leaf).parentOrNext)

/-- `b2DynamicTree::RemoveLeaf` (cpp lines 333-390). -/
def removeLeaf (s : DTree) (leaf : Int) : DTree :=
  if leaf = s.root then setRoot s nullNode
  else
    let parent := (nd s leaf).parentOrNext
    let grandParent := (nd s parent).parentOrNext
    let sibling :=
      if (nd s parent).child1 = leaf then (nd s parent).child2
      else (nd s parent).child1
    if grandParent ≠ nullNode then
      let s :=
        if (nd s grandParent).child1 = parent then
          setNode s grandParent { nd s grandParent with child1 := sibling }
        else
          setNode s grandParent { nd s grandParent with child2 := sibling }
      let s := setNode s sibling { nd s sibling with parentOrNext := grandParent }
      let s := freeNode s parent
      fixUpward s s.nodeCapacity.toNat grandParent
    else
      let s := setRoot s sibling
      let s := setNode s sibling { nd s sibling with parentOrNext := nullNode }
      freeNode s parent

/-- `b2DynamicTree::CreateProxy` (cpp lines 110-123): allocate, fatten,
insert; returns the new state and the proxy handle. -/
def createProxy (s : DTree) (aabb : Rect) (userData : Int) : DTree × Int :=
  let p := allocateNode s
  let s := p.1
  let proxyId := p.2
  let s := setNode s proxyId
    { nd s proxyId with
      aabb := aabb.grown b2_aabbExtension
      userData := userData
      height := 0
      moved := true }
  (insertLeaf s proxyId, proxyId)

/-- `b2DynamicTree::DestroyProxy` (cpp lines 125-132). -/
def destroyProxy (s : DTree) (proxyId : Int) : DTree :=
  freeNode (removeLeaf s proxyId) proxyId

/-- The displacement-adjusted fat AABB built by `MoveProxy` (cpp lines
140-162): fatten by the margin, then extend one-sided by the predicted
motion `b2_aabbMultiplier * displacement`. -/
def motionFat (aabb : Rect) (displacement : Vec) : Rect :=
  let fatAABB := aabb.grown b2_aabbExtension
  let d := Vec.scale b2_aabbMultiplier displacement
  let fatAABB :=
    if d.x < 0 then { fatAABB with left := fatAABB.left + d.x }
    else { fatAABB with right := fatAABB.right + d.x }
  if d.y < 0 then { fatAABB with top := fatAABB.top + d.y }
  else { fatAABB with bottom := fatAABB.bottom + d.y }

/-- `b2DynamicTree::MoveProxy` (cpp lines 134-191): hysteresis check
against the stored fat AABB, else remove/re-insert; returns the new
state and the `re-inserted` flag. -/
def moveProxy (s : DTree) (proxyId : Int) (aabb : Rect) (displacement : Vec) :
    DTree × Bool :=
  let fatAABB := motionFat aabb displacement
  let treeAABB := (nd s proxyId).aabb
  let reinsert : DTree → DTree × Bool := fun s =>
    let s := removeLeaf s proxyId
    let s := setNode s proxyId { nd s proxyId with aabb := fatAABB }
    let s := insertLeaf s proxyId
    let s := setNode s proxyId { nd s proxyId with moved := true }
    (s, true)
  if treeAABB.contains aabb then
    let hugeAABB := fatAABB.grown (4 * b2_aabbExtension)
    if hugeAABB.contains treeAABB then (s, false)
    else reinsert s
  else reinsert s

/-- `b2DynamicTree::GetUserData`. -/
def getUserData (s : DTree) (proxyId : Int) : Int := (nd s proxyId).userData

/-- `b2DynamicTree::WasMoved`. -/
def wasMoved (s : DTree) (proxyId : Int) : Bool := (nd s proxyId).moved

/-- `b2DynamicTree::ClearMoved`. -/
def clearMoved (s : DTree) (proxyId : Int) : DTree :=
  setNode s proxyId { nd s proxyId with moved := false }

/-- `b2DynamicTree::GetFatAABB`. -/
def getFatAABB (s : DTree) (proxyId : Int) : Rect := (nd s proxyId).aabb

/-- `b2DynamicTree::GetHeight` (cpp lines 537-545). -/
def getHeight (s : DTree) : Int :=
  if s.root = nullNode then 0 else (nd s s.root).height

/-- `b2DynamicTree::GetMaxBalance` (cpp lines 690-710): maximum height
difference of the two children over all nodes of height above 1. -/
def getMaxBalance (s : DTree) : Int :=
  (List.range s.nodeCapacity.toNat).foldl
    (fun maxBalance n =>
      let node := nd s (n : Int)
      if node.height ≤ 1 then maxBalance
      else
        max maxBalance
          |(nd s node.child2).height - (nd s node.child1).height|)
    0

/-- `b2DynamicTree::ShiftOrigin` (cpp lines 788-795): the loop moves
every slot's AABB by the negated new origin, over `[0, capacity)`. -/
def shiftOrigin (s : DTree) (newOrigin : Vec) : DTree :=
  { s with nodes := s.nodes.map fun n => { n with aabb := n.aabb.move (-newOrigin) } }

/-- The stack-driven loop of `b2DynamicTree::Query` (hpp lines 187-220),
fuel-indexed.  The callback is stateful, as the C++ callback object is;
the result records the trace of invocations as `(handle, returned)`
pairs together with the final callback state.  The list head is the
stack top (`push_back child1; push_back child2` puts `child2` on top). -/
def queryLoop {σ : Type} (s : DTree) (q : Rect) (cb : σ → Int → Bool × σ) :
    Nat → List Int → σ → List (Int × Bool) × σ
  | 0, _, st => ([], st)
  | _ + 1, [], st => ([], st)
  | fuel + 1, nodeId :: rest, st =>
    if nodeId = nullNode then queryLoop s q cb fuel rest st
    else
      let node := nd s nodeId
      if node.aabb.overlaps q then
        if node.IsLeaf then
          let r := cb st nodeId
          if r.1 then
            let t := queryLoop s q cb fuel rest r.2
            ((nodeId, true) :: t.1, t.2)
          else ([(nodeId, false)], r.2)
        else queryLoop s q cb fuel (node.child2 :: node.child1 :: rest) st
      else queryLoop s q cb fuel rest st

/-- `b2DynamicTree::Query`: run the stack walk from the root.  The fuel
`2 * capacity + 1` covers every pop a well-formed tree can produce
(each of at most `capacity` tree nodes is popped once and pushes at
most two entries). -/
def query {σ : Type} (s : DTree) (cb : σ → Int → Bool × σ) (q : Rect) (st : σ) :
    List (Int × Bool) × σ :=
  queryLoop s q cb (2 * s.nodeCapacity.toNat + 1) [s.root] st

/-- `b2RayCastInput`: the ray from `p1` to `p2`, clipped to
`maxFraction`. -/
structure RayCastInput where
  p1 : Vec
  p2 : Vec
  maxFraction : ℚ
deriving DecidableEq, Repr, Inhabited

/-- The stack-driven loop of `b2DynamicTree::RayCast` (hpp lines
251-305), fuel-indexed.  The trace records, for every callback
invocation, the `maxFraction` given to it in `subInput`, the handle,
and the value it returned. -/
def rayCastLoop {σ : Type} (s : DTree) (p1 p2 v absV : Vec)
    (cb : σ → RayCastInput → Int → ℚ × σ) :
    Nat → List Int → ℚ → Rect → σ → List (ℚ × Int × ℚ) × σ
  | 0, _, _, _, st => ([], st)
  | _ + 1, [], _, _, st => ([], st)
  | fuel + 1, nodeId :: rest, maxFraction, segmentAABB, st =>
    if nodeId = nullNode then
      rayCastLoop s p1 p2 v absV cb fuel rest maxFraction segmentAABB st
    else
      let node := nd s nodeId
      if ¬ node.aabb.overlaps segmentAABB then
        rayCastLoop s p1 p2 v absV cb fuel rest maxFraction segmentAABB st
      else
        let c := node.aabb.middle
        let h := node.aabb.extents
        let separation := |Vec.dot v (p1 - c)| - Vec.dot absV h
        if 0 < separation then
          rayCastLoop s p1 p2 v absV cb fuel rest maxFraction segmentAABB st
        else
          if node.IsLeaf then
            let subInput : RayCastInput := ⟨p1, p2, maxFraction⟩
            let r := cb st subInput nodeId
            let value := r.1
            if value = 0 then ([(maxFraction, nodeId, value)], r.2)
            else
              if 0 < value then
                let t := p1 + Vec.scale value (p2 - p1)
                let seg := (Rect.ofPoint p1).combine (Rect.ofPoint t)
                let tr := rayCastLoop s p1 p2 v absV cb fuel rest value seg r.2
                ((maxFraction, nodeId, value) :: tr.1, tr.2)
              else
                let tr :=
                  rayCastLoop s p1 p2 v absV cb fuel rest maxFraction segmentAABB r.2
                ((maxFraction, nodeId, value) :: tr.1, tr.2)
          else
            rayCastLoop s p1 p2 v absV cb fuel
              (node.child2 :: node.child1 :: rest) maxFraction segmentAABB st

/-- `b2DynamicTree::RayCast` (hpp lines 222-306).  The source
normalises `r = p2 - p1` before building the perpendicular `v`;
normalisation scales `v`, hence `separation`, by the positive constant
`1 / |r|` and cannot change the sign tested against zero, so the model
keeps the unnormalised perpendicular to stay inside the rationals. -/
def rayCast {σ : Type} (s : DTree) (cb : σ → RayCastInput → Int → ℚ × σ)
    (input : RayCastInput) (st : σ) : List (ℚ × Int × ℚ) × σ :=
  let p1 := input.p1
  let p2 := input.p2
  let r := p2 - p1
  let v : Vec := ⟨-r.y, r.x⟩
  let absV : Vec := ⟨|v.x|, |v.y|⟩
  let maxFraction := input.maxFraction
  let t := p1 + Vec.scale maxFraction (p2 - p1)
  let segmentAABB := (Rect.ofPoint p1).combine (Rect.ofPoint t)
  rayCastLoop s p1 p2 v absV cb (2 * s.nodeCapacity.toNat + 1) [s.root]
    maxFraction segmentAABB st

/-!  Well-formedness of a tree state.  A `TView` is the shape of the
index graph hanging off a root handle; `Rep` states that the stored
child pointers, heights and AABBs realise that shape, `Par` that the
stored parent pointers do.  `Pool` ties the root, the free list and the
node pool together the way `b2DynamicTree::Validate` checks them.  -/

/-- The shape of a subtree of handles. -/
inductive TView : Type where
  | leaf : Int → TView
  | node : Int → TView → TView → TView
deriving DecidableEq, Repr

/-- The handle at the root of a shape. -/
def TView.rootIdx : TView → Int
  | .leaf i => i
  | .node i _ _ => i

/-- All handles of a shape, root first. -/
def TView.idxs : TView → List Int
  | .leaf i => [i]
  | .node i l r => i :: (l.idxs ++ r.idxs)

/-- The handles at the leaves of a shape. -/
def TView.leafIdxs : TView → List Int
  | .leaf i => [i]
  | .node _ l r => l.leafIdxs ++ r.leafIdxs

/-- The stored records realise the shape `t`: leaves have sentinel
children and height `0`; an inner node points at the roots of its
sub-shapes, its height is one above the maximum of theirs, and its AABB
is their union. -/
def Rep (s : DTree) : TView → Prop
  | .leaf i => 0 ≤ i ∧ (nd s i).child1 = nullNode ∧ (nd s i).child2 = nullNode ∧
      (nd s i).height = 0
  | .node i l r => 0 ≤ i ∧ (nd s i).child1 = l.rootIdx ∧ (nd s i).child2 = r.rootIdx ∧
      (nd s i).height = 1 + max (nd s l.rootIdx).height (nd s r.rootIdx).height ∧
      (nd s i).aabb = ((nd s l.rootIdx).aabb).combine ((nd s r.rootIdx).aabb) ∧
      Rep s l ∧ Rep s r

/-- The stored parent pointers realise the shape: each sub-shape root
points back at its inner node. -/
def Par (s : DTree) : TView → Prop
  | .leaf _ => True
  | .node i l r => (nd s l.rootIdx).parentOrNext = i ∧
      (nd s r.rootIdx).parentOrNext = i ∧ Par s l ∧ Par s r

/-- One level of context above a subtree: the parent handle `p`, which
child slot the subtree occupies (`dir = true` for `child1`), and the
shape hanging off the other slot. -/
structure Crumb where
  p : Int
  dir : Bool
  other : TView
deriving DecidableEq, Repr

/-- The handles of a context, parents and other-subtree handles. -/
def ctxIdxs (ctx : List Crumb) : List Int :=
  ctx.flatMap fun cr => cr.p :: cr.other.idxs

/-- `CtxOk s c ctx` -- the handle `c` sits in the context `ctx`
(innermost crumb first): its stored parent is the innermost crumb's
node, whose child pointers hold `c` and the other sub-shape, and so on
up to the root of the state. -/
def CtxOk (s : DTree) : Int → List Crumb → Prop
  | c, [] => s.root = c ∧ (nd s c).parentOrNext = nullNode
  | c, cr :: ctx =>
      0 ≤ cr.p ∧ (nd s c).parentOrNext = cr.p ∧
      (if cr.dir then
        (nd s cr.p).child1 = c ∧ (nd s cr.p).child2 = cr.other.rootIdx
       else
        (nd s cr.p).child1 = cr.other.rootIdx ∧ (nd s cr.p).child2 = c) ∧
      (nd s cr.other.rootIdx).parentOrNext = cr.p ∧
      Rep s cr.other ∧ Par s cr.other ∧
      CtxOk s cr.p ctx

/-- The free list starting at `head` consists exactly of the slots `fl`
chained through `parentOrNext`. -/
def FreeRep (s : DTree) : Int → List Int → Prop
  | head, [] => head = nullNode
  | head, i :: rest => head = i ∧ FreeRep s (nd s i).parentOrNext rest

/-- The handles of an optional tree shape. -/
def tidxs : Option TView → List Int
  | none => []
  | some t => t.idxs

/-- The pool invariant: the whole state is a tree shape `ot` (empty or
rooted at `s.root`), a free list `fl`, and a few detached-but-allocated
slots `ex` (empty outside of mid-operation states); together they
partition the capacity, the counts agree, free slots carry height
`-1`. -/
structure Pool (s : DTree) (ot : Option TView) (fl : List Int) (ex : List Int) : Prop where
  len_nodes : s.nodes.length = s.nodeCapacity.toNat
  cap_pos : 0 < s.nodeCapacity
  root_ok :
    match ot with
    | none => s.root = nullNode
    | some t => s.root = t.rootIdx ∧ (nd s t.rootIdx).parentOrNext = nullNode ∧
        Rep s t ∧ Par s t
  bounds : ∀ i ∈ tidxs ot ++ ex ++ fl, 0 ≤ i ∧ i < s.nodeCapacity
  nodup : (tidxs ot ++ ex ++ fl).Nodup
  free_rep : FreeRep s s.freeList fl
  free_h : ∀ i ∈ fl, (nd s i).height = -1
  cover : ∀ i : Int, 0 ≤ i → i < s.nodeCapacity → i ∈ tidxs ot ++ ex ++ fl
  count : s.nodeCount = ((tidxs ot).length : Int) + ex.length
  len : ((tidxs ot).length : Int) + ex.length + fl.length = s.nodeCapacity

/-- A state is well-formed when it is a tree, a free list and nothing
else. -/
def Wf (s : DTree) : Prop := ∃ ot fl, Pool s ot fl []

/-- The states reachable from the freshly constructed tree by the
public mutating operations, applied with their documented
preconditions (`destroy_proxy` and `move_proxy` take a valid leaf
handle). -/
inductive Reachable : DTree → Prop where
  | init : Reachable mkTree
  | create : ∀ {s} (aabb : Rect) (ud : Int), Reachable s →
      Reachable (createProxy s aabb ud).1
  | destroy : ∀ {s} (h : Int), Reachable s → 0 ≤ h → h < s.nodeCapacity →
      (nd s h).IsLeaf → 0 ≤ (nd s h).height → Reachable (destroyProxy s h)
  | move : ∀ {s} (h : Int) (aabb : Rect) (disp : Vec), Reachable s →
      0 ≤ h → h < s.nodeCapacity → (nd s h).IsLeaf → 0 ≤ (nd s h).height →
      Reachable (moveProxy s h aabb disp).1
  | shift : ∀ {s} (v : Vec), Reachable s → Reachable (shiftOrigin s v)
  | clear : ∀ {s} (h : Int), Reachable s → Reachable (clearMoved s h)

/-- A handle that is a live leaf of the state: in range, allocated
(nonnegative height) and a leaf. -/
def isAllocatedLeaf (s : DTree) (h : Int) : Prop :=
  0 ≤ h ∧ h < s.nodeCapacity ∧ 0 ≤ (nd s h).height ∧ (nd s h).IsLeaf

instance (s : DTree) (h : Int) : Decidable (isAllocatedLeaf s h) := by
  unfold isAllocatedLeaf; infer_instance

/-- The height difference of the two children of a node, as
`GetMaxBalance` computes it. -/
def localBal (s : DTree) (i : Int) : Int :=
  |(nd s (nd s i).child2).height - (nd s (nd s i).child1).height|

/-- The stored height of a node agrees with its children, as
`ValidateMetrics` checks it. -/
def heightOk (s : DTree) (i : Int) : Prop :=
  (nd s i).height = 1 + max (nd s (nd s i).child1).height (nd s (nd s i).child2).height

/-- A handle denoting a live slot of the pool. -/
def inPool (s : DTree) (i : Int) : Prop := 0 ≤ i ∧ i.toNat < s.nodes.length

instance (s : DTree) (i : Int) : Decidable (inPool s i) := by
  unfold inPool; infer_instance

instance (s : DTree) (i : Int) : Decidable (heightOk s i) := by
  unfold heightOk; infer_instance

/-- A seven-node pool whose root has a consistent stored height but an
imbalance of exactly two (child heights 0 and 2), used to exercise the
local `Balance` guarantee. -/
def balWitState : DTree :=
  { root := 0
    nodes :=
      [ ⟨⟨0, 0, 0, 0⟩, 0, -1, 1, 2, 3, false⟩
      , ⟨⟨0, 0, 0, 0⟩, 0, 0, -1, -1, 0, false⟩
      , ⟨⟨0, 0, 0, 0⟩, 0, 0, 3, 4, 2, false⟩
      , ⟨⟨0, 0, 0, 0⟩, 0, 2, -1, -1, 0, false⟩
      , ⟨⟨0, 0, 0, 0⟩, 0, 2, 5, 6, 1, false⟩
      , ⟨⟨0, 0, 0, 0⟩, 0, 4, -1, -1, 0, false⟩
      , ⟨⟨0, 0, 0, 0⟩, 0, 4, -1, -1, 0, false⟩ ]
    nodeCount := 7
    nodeCapacity := 7
    freeList := -1
    insertionCount := 0 }

/-- A reachable two-proxy state (two unit squares at `x = 0` and
`x = 4`) used to exhibit the tie-break of the sibling search. -/
def tieState : DTree :=
  (createProxy (createProxy mkTree ⟨0, 0, 1, 1⟩ 0).1 ⟨4, 0, 5, 1⟩ 0).1

/-- The fat AABB of a third proxy equidistant from both leaves of
`tieState`, which makes the two descent costs equal. -/
def tieLeafAABB : Rect := Rect.grown ⟨2, 0, 3, 1⟩ b2_aabbExtension

/-- Agreement of two node records on the fields `Rep` reads. -/
def agreeCh (m mp : TreeNode) : Prop :=
  mp.child1 = m.child1 ∧ mp.child2 = m.child2 ∧ mp.height = m.height ∧ mp.aabb = m.aabb

/-- The integers `[a, b)` as a list. -/
def intRange (a b : Int) : List Int :=
  (List.range (b - a).toNat).map fun (k : Nat) => a + (k : Int)

/-- The functional trace of the region query on a tree shape: the
leaves the stack walk reports, in the walk's order (the stack pops
`child2` first). -/
def qtrace (s : DTree) (q : Rect) : TView → List Int
  | .leaf i => if (nd s i).aabb.overlaps q then [i] else []
  | .node i l r =>
      if (nd s i).aabb.overlaps q then qtrace s q r ++ qtrace s q l else []

attribute [local semireducible] Rat.inv Rat.add Rat.mul Rat.sub

/-!  Basic lemmas about the pool. -/

@[simp] theorem Vec.neg_x (v : Vec) : (-v).x = -v.x := rfl

@[simp] theorem Vec.neg_y (v : Vec) : (-v).y = -v.y := rfl

@[simp] theorem Vec.add_x (a b : Vec) : (a + b).x = a.x + b.x := rfl

@[simp] theorem Vec.add_y (a b : Vec) : (a + b).y = a.y + b.y := rfl

@[simp] theorem Vec.sub_x (a b : Vec) : (a - b).x = a.x - b.x := rfl

@[simp] theorem Vec.sub_y (a b : Vec) : (a - b).y = a.y - b.y := rfl

@[simp] theorem setNode_root (s : DTree) (i : Int) (n : TreeNode) :
    (setNode s i n).root = s.root := rfl

@[simp] theorem setNode_freeList (s : DTree) (i : Int) (n : TreeNode) :
    (setNode s i n).freeList = s.freeList := rfl

@[simp] theorem setNode_nodeCount (s : DTree) (i : Int) (n : TreeNode) :
    (setNode s i n).nodeCount = s.nodeCount := rfl

@[simp] theorem setNode_nodeCapacity (s : DTree) (i : Int) (n : TreeNode) :
    (setNode s i n).nodeCapacity = s.nodeCapacity := rfl

@[simp] theorem setNode_length (s : DTree) (i : Int) (n : TreeNode) :
    (setNode s i n).nodes.length = s.nodes.length := by
  unfold setNode; dsimp only; split <;> simp

theorem nd_setNode_self (s : DTree) (i : Int) (n : TreeNode) (h : inPool s i) :
    nd (setNode s i n) i = n := by
  obtain ⟨h0, hlen⟩ := h
  unfold nd setNode
  dsimp only
  rw [if_neg (by omega), if_neg (by omega)]
  rw [List.getD_eq_getElem?_getD, List.getElem?_set_self (by simpa using hlen)]
  rfl

theorem nd_setNode_other (s : DTree) (i : Int) (n : TreeNode) (j : Int) (hij : j ≠ i) :
    nd (setNode s i n) j = nd s j := by
  unfold nd setNode
  dsimp only
  by_cases hj : j < 0
  · rw [if_pos hj, if_pos hj]
  · rw [if_neg hj, if_neg hj]
    by_cases hi : i < 0
    · rw [if_pos hi]
    · rw [if_neg hi]
      rw [List.getD_eq_getElem?_getD, List.getD_eq_getElem?_getD,
        List.getElem?_set_ne (by omega)]

theorem nd_neg (s : DTree) (i : Int) (h : i < 0) : nd s i = default := by
  unfold nd; rw [if_pos h]

/-- Claim C9 helper: a fresh single-proxy tree.  (The run is fully
definitional, so `rfl`-style reasoning applies.) -/
theorem getHeight_mkTree : getHeight mkTree = 0 := rfl

/-!  Claim theorems. -/

/-- Claim C9: `get_height()` returns `0` both on the empty tree and on
a tree holding exactly one proxy (whatever rectangle and user data the
proxy carries), so callers cannot distinguish the two states through
`get_height` alone. -/
theorem c9_height_empty_equals_single :
    getHeight mkTree = 0 ∧
    ∀ (aabb : Rect) (ud : Int), getHeight (createProxy mkTree aabb ud).1 = 0 := by
  exact ⟨rfl, fun aabb ud => rfl⟩

/-- The balance pass never touches the free-list head. -/
theorem balance_freeList (s : DTree) (i : Int) : (balance s i).1.freeList = s.freeList := by
  unfold balance
  dsimp only
  split_ifs <;> rfl

/-- The walk-up pass never touches the free-list head. -/
theorem fixUpward_freeList (fuel : Nat) (s : DTree) (i : Int) :
    (fixUpward s fuel i).freeList = s.freeList := by
  induction fuel generalizing s i with
  | zero => rfl
  | succ fuel ih =>
    unfold fixUpward
    dsimp only
    split
    · rfl
    · rw [ih, setNode_freeList, balance_freeList]

/-- Claim C10: handle reuse is last-in-first-out: destroying a proxy
pushes its handle on the free-list head, and the next allocation pops
that head, so the next `create_proxy` returns the same handle. -/
theorem c10_lifo_reuse (s : DTree) (h : Int) (aabb : Rect) (ud : Int)
    (hh : h ≠ nullNode) :
    (createProxy (destroyProxy s h) aabb ud).2 = h := by
  have hfree : (destroyProxy s h).freeList = h := rfl
  show (allocateNode (destroyProxy s h)).2 = h
  unfold allocateNode
  dsimp only
  rw [if_neg (by rw [hfree]; exact hh)]
  exact hfree

/-- Claim C8: shifting the origin by `v` and then by `-v` restores the
whole state exactly (every slot's AABB, and nothing else ever
changed). -/
theorem c8_shift_isometry (s : DTree) (v : Vec) :
    shiftOrigin (shiftOrigin s v) (-v) = s := by
  unfold shiftOrigin
  dsimp only
  have : ∀ l : List TreeNode,
      ((l.map fun n => { n with aabb := n.aabb.move (-v) }).map
        fun n => { n with aabb := n.aabb.move (- -v) }) = l := by
    intro l
    rw [List.map_map]
    have h2 : ∀ n ∈ l,
        ((fun n => { n with aabb := n.aabb.move (- -v) }) ∘
          fun n => { n with aabb := n.aabb.move (-v) }) n = id n := by
      intro n _
      show { n with aabb := (n.aabb.move (-v)).move (- -v) } = id n
      have h3 : (n.aabb.move (-v)).move (- -v) = n.aabb := by
        unfold Rect.move
        ext <;> simp <;> ring
      rw [h3]
      rfl
    rw [List.map_congr_left h2, List.map_id]
  rw [this]

/-- Claim C5: when the stored fat AABB still contains the new tight
AABB and the grown (`huge`) box around the new motion-adjusted fat AABB
contains the stored one, `move_proxy` returns `false` and the state is
returned untouched, every field included. -/
theorem c5_move_noop (s : DTree) (h : Int) (aabb : Rect) (disp : Vec)
    (h0 : 0 ≤ h) (hcap : h < s.nodeCapacity) (hleaf : (nd s h).IsLeaf)
    (hcontains : (getFatAABB s h).contains aabb)
    (hhuge : ((motionFat aabb disp).grown (4 * b2_aabbExtension)).contains
      (getFatAABB s h)) :
    moveProxy s h aabb disp = (s, false) := by
  unfold getFatAABB at hcontains hhuge
  unfold moveProxy
  dsimp only
  rw [if_pos hcontains, if_pos hhuge]

theorem nd_setRoot (s : DTree) (r j : Int) : nd (setRoot s r) j = nd s j := rfl

theorem inPool_setRoot (s : DTree) (r j : Int) : inPool (setRoot s r) j ↔ inPool s j :=
  Iff.rfl

theorem inPool_setNode (s : DTree) (i : Int) (n : TreeNode) (j : Int) :
    inPool (setNode s i n) j ↔ inPool s j := by simp [inPool]

set_option maxHeartbeats 2000000 in
/-- Claim C2 (amended): `get_max_balance() ≤ 1` is not an invariant of
the public operations (see the counterexample); what the rebalancer
does guarantee is local: if a node's stored height is consistent and
the height difference of its children is exactly two, with the taller
child's stored metrics consistent and its own children within one of
each other, then `Balance` rotates the taller child up and leaves both
rewritten nodes with child height differences of at most one and
consistent stored heights.  Both rotation directions are covered. -/
theorem c2_balance_local (s : DTree) (iA iB iC : Int)
    (hc1 : (nd s iA).child1 = iB) (hc2 : (nd s iA).child2 = iC)
    (hA : inPool s iA) (hB : inPool s iB) (hC : inPool s iC)
    (hhA : heightOk s iA)
    (hB0 : 0 ≤ (nd s iB).height) (hC0 : 0 ≤ (nd s iC).height) :
    ((nd s iC).height - (nd s iB).height = 2 →
      ∀ iF iG : Int, (nd s iC).child1 = iF → (nd s iC).child2 = iG →
      inPool s iF → inPool s iG → heightOk s iC →
      |(nd s iG).height - (nd s iF).height| ≤ 1 →
      [iA, iB, iC, iF, iG].Nodup →
      (nd s iA).parentOrNext ∉ [iA, iB, iC, iF, iG] →
      (balance s iA).2 = iC ∧
      localBal (balance s iA).1 iA ≤ 1 ∧ localBal (balance s iA).1 iC ≤ 1 ∧
      heightOk (balance s iA).1 iA ∧ heightOk (balance s iA).1 iC) ∧
    ((nd s iB).height - (nd s iC).height = 2 →
      ∀ iD iE : Int, (nd s iB).child1 = iD → (nd s iB).child2 = iE →
      inPool s iD → inPool s iE → heightOk s iB →
      |(nd s iE).height - (nd s iD).height| ≤ 1 →
      [iA, iB, iC, iD, iE].Nodup →
      (nd s iA).parentOrNext ∉ [iA, iB, iC, iD, iE] →
      (balance s iA).2 = iB ∧
      localBal (balance s iA).1 iA ≤ 1 ∧ localBal (balance s iA).1 iB ≤ 1 ∧
      heightOk (balance s iA).1 iA ∧ heightOk (balance s iA).1 iB) := by
  constructor
  · intro hbal iF iG hf hg hF hG hhC hbalC hdist hq
    simp only [List.nodup_cons, List.mem_cons, List.not_mem_nil, List.mem_singleton,
      not_or, or_false] at hdist
    obtain ⟨⟨hAB, hAC, hAF, hAG⟩, ⟨hBC, hBF, hBG⟩, ⟨hCF, hCG⟩, hFG', _⟩ := hdist
    simp only [List.mem_cons, List.not_mem_nil, List.mem_singleton, not_or, or_false] at hq
    obtain ⟨hqA, hqB, hqC, hqF, hqG⟩ := hq
    have hgate : ¬((nd s iA).IsLeaf ∨ (nd s iA).height < 2) := by
      unfold TreeNode.IsLeaf nullNode
      push_neg
      refine ⟨?_, ?_⟩
      · rw [hc1]
        have := hB.1
        omega
      · rw [hhA, hc1, hc2]
        rcases max_cases (nd s iB).height (nd s iC).height with ⟨h1, _⟩ | ⟨h1, _⟩ <;> omega
    unfold balance
    rw [if_neg hgate]
    dsimp only
    simp only [hc1, hc2, hf, hg]
    rw [if_pos (by omega : 1 < (nd s iC).height - (nd s iB).height)]
    simp only [nd_setNode_self, nd_setNode_other, inPool_setNode, nd_setRoot, inPool_setRoot,
      hA, hB, hC, hF, hG, hc1, hc2, hf, hg,
      hAB, hAC, hAF, hAG, hBC, hBF, hBG, hCF, hCG, hFG',
      Ne.symm hAB, Ne.symm hAC, Ne.symm hAF, Ne.symm hAG, Ne.symm hBC,
      Ne.symm hBF, Ne.symm hBG, Ne.symm hCF, Ne.symm hCG, Ne.symm hFG',
      hqA, hqB, hqC, hqF, hqG,
      Ne.symm hqA, Ne.symm hqB, Ne.symm hqC, Ne.symm hqF, Ne.symm hqG,
      ne_eq, not_false_iff]
    refine ⟨trivial, ?_⟩
    rw [abs_le] at hbalC
    rw [hhC] at hbal
    split_ifs with h1 h2 h3 h4 h5 h6
    all_goals simp only [localBal, heightOk, nd_setNode_self, nd_setNode_other, nd_setRoot,
      inPool_setNode, inPool_setRoot, hA, hB, hC, hF, hG, hc1, hc2, hf, hg,
      hAB, hAC, hAF, hAG, hBC, hBF, hBG, hCF, hCG, hFG',
      Ne.symm hAB, Ne.symm hAC, Ne.symm hAF, Ne.symm hAG, Ne.symm hBC,
      Ne.symm hBF, Ne.symm hBG, Ne.symm hCF, Ne.symm hCG, Ne.symm hFG',
      hqA, hqB, hqC, hqF, hqG,
      Ne.symm hqA, Ne.symm hqB, Ne.symm hqC, Ne.symm hqF, Ne.symm hqG,
      ne_eq, not_false_iff] at *
    all_goals refine ⟨?_, ?_, ?_, ?_⟩
    all_goals first
      | trivial
      | (rw [abs_le]; omega)
      | omega
  · intro hbal iD iE hd he hD hE hhB hbalB hdist hq
    simp only [List.nodup_cons, List.mem_cons, List.not_mem_nil, List.mem_singleton,
      not_or, or_false] at hdist
    obtain ⟨⟨hAB, hAC, hAD, hAE⟩, ⟨hBC, hBD, hBE⟩, ⟨hCD, hCE⟩, hDE', _⟩ := hdist
    simp only [List.mem_cons, List.not_mem_nil, List.mem_singleton, not_or, or_false] at hq
    obtain ⟨hqA, hqB, hqC, hqD, hqE⟩ := hq
    have hgate : ¬((nd s iA).IsLeaf ∨ (nd s iA).height < 2) := by
      unfold TreeNode.IsLeaf nullNode
      push_neg
      refine ⟨?_, ?_⟩
      · rw [hc1]
        have := hB.1
        omega
      · rw [hhA, hc1, hc2]
        rcases max_cases (nd s iB).height (nd s iC).height with ⟨h1, _⟩ | ⟨h1, _⟩ <;> omega
    unfold balance
    rw [if_neg hgate]
    dsimp only
    simp only [hc1, hc2, hd, he]
    rw [if_neg (by omega : ¬(1 < (nd s iC).height - (nd s iB).height)),
      if_pos (by omega : (nd s iC).height - (nd s iB).height < -1)]
    simp only [nd_setNode_self, nd_setNode_other, inPool_setNode, nd_setRoot, inPool_setRoot,
      hA, hB, hC, hD, hE, hc1, hc2, hd, he,
      hAB, hAC, hAD, hAE, hBC, hBD, hBE, hCD, hCE, hDE',
      Ne.symm hAB, Ne.symm hAC, Ne.symm hAD, Ne.symm hAE, Ne.symm hBC,
      Ne.symm hBD, Ne.symm hBE, Ne.symm hCD, Ne.symm hCE, Ne.symm hDE',
      hqA, hqB, hqC, hqD, hqE,
      Ne.symm hqA, Ne.symm hqB, Ne.symm hqC, Ne.symm hqD, Ne.symm hqE,
      ne_eq, not_false_iff]
    refine ⟨trivial, ?_⟩
    rw [abs_le] at hbalB
    rw [hhB] at hbal
    split_ifs with h1 h2 h3 h4 h5 h6
    all_goals simp only [localBal, heightOk, nd_setNode_self, nd_setNode_other, nd_setRoot,
      inPool_setNode, inPool_setRoot, hA, hB, hC, hD, hE, hc1, hc2, hd, he,
      hAB, hAC, hAD, hAE, hBC, hBD, hBE, hCD, hCE, hDE',
      Ne.symm hAB, Ne.symm hAC, Ne.symm hAD, Ne.symm hAE, Ne.symm hBC,
      Ne.symm hBD, Ne.symm hBE, Ne.symm hCD, Ne.symm hCE, Ne.symm hDE',
      hqA, hqB, hqC, hqD, hqE,
      Ne.symm hqA, Ne.symm hqB, Ne.symm hqC, Ne.symm hqD, Ne.symm hqE,
      ne_eq, not_false_iff] at *
    all_goals refine ⟨?_, ?_, ?_, ?_⟩
    all_goals first
      | trivial
      | (rw [abs_le]; omega)
      | omega

/-- Witness: the local balance guarantee applied to the concrete
seven-node pool `balWitState`, whose root has child heights 0 and 2. -/
theorem c2_balance_local_witness :
    (balance balWitState 0).2 = 2 ∧
    localBal (balance balWitState 0).1 0 ≤ 1 ∧
    localBal (balance balWitState 0).1 2 ≤ 1 ∧
    heightOk (balance balWitState 0).1 0 ∧
    heightOk (balance balWitState 0).1 2 :=
  (c2_balance_local balWitState 0 1 2 (by decide) (by decide) (by decide) (by decide)
      (by decide) (by decide) (by decide) (by decide)).1 (by decide) 3 4 (by decide)
      (by decide) (by decide) (by decide) (by decide) (by decide) (by decide) (by decide)

/-- Claim C3, counterexample: in the reachable two-proxy state
`tieState`, inserting an equidistant third leaf makes `cost1 = cost2`
at the root with no stop (`cost` is not below them), and the descent
moves into `child2`, not `child1` as the claim's tie-break states. -/
theorem c3_tie_cx :
    (insertCosts tieState tieLeafAABB tieState.root).2.1
      = (insertCosts tieState tieLeafAABB tieState.root).2.2 ∧
    ¬((insertCosts tieState tieLeafAABB tieState.root).1
        < (insertCosts tieState tieLeafAABB tieState.root).2.1 ∧
      (insertCosts tieState tieLeafAABB tieState.root).1
        < (insertCosts tieState tieLeafAABB tieState.root).2.2) ∧
    ¬ (nd tieState tieState.root).IsLeaf ∧
    siblingSearch tieState tieLeafAABB tieState.nodeCapacity.toNat tieState.root
      = (nd tieState tieState.root).child2 ∧
    (nd tieState tieState.root).child2 ≠ (nd tieState tieState.root).child1 := by
  decide

/-- Claim C3 (amended): at an internal candidate the descent stops
exactly when `cost < cost1` and `cost < cost2`; otherwise it descends
into the child of smaller cost, and on ties (`cost1 = cost2`) it
descends into `child2` — the source comparison `cost1 < cost2` is
strict. -/
theorem c3_descend_rule (s : DTree) (la : Rect) (fuel : Nat) (idx : Int)
    (c c1 c2 : ℚ) (hnl : ¬ (nd s idx).IsLeaf)
    (hic : insertCosts s la idx = (c, c1, c2)) :
    (c < c1 ∧ c < c2 → siblingSearch s la (fuel + 1) idx = idx) ∧
    (¬(c < c1 ∧ c < c2) → c1 < c2 →
      siblingSearch s la (fuel + 1) idx = siblingSearch s la fuel (nd s idx).child1) ∧
    (¬(c < c1 ∧ c < c2) → c2 ≤ c1 →
      siblingSearch s la (fuel + 1) idx = siblingSearch s la fuel (nd s idx).child2) := by
  refine ⟨fun hstop => ?_, fun hns hlt => ?_, fun hns hle => ?_⟩ <;>
    · show (if (nd s idx).IsLeaf then idx else _) = _
      rw [if_neg hnl, hic]
      dsimp only
      first
      | rw [if_pos ‹_›]
      | (rw [if_neg ‹¬(c < c1 ∧ c < c2)›]
         first
         | rw [if_pos ‹c1 < c2›]
         | rw [if_neg (not_lt.mpr ‹c2 ≤ c1›)])

/-- Witness for the amended descent rule: in `tieState` the costs tie
(`cost1 = cost2 = 44/5`, `cost = 128/5`), and one step of the search
from the root moves to `child2`. -/
theorem c3_descend_rule_witness :
    siblingSearch tieState tieLeafAABB (31 + 1) tieState.root
      = siblingSearch tieState tieLeafAABB 31 (nd tieState tieState.root).child2 :=
  (c3_descend_rule tieState tieLeafAABB 31 tieState.root
    (128/5) (44/5) (44/5) (by decide) (by decide)).2.2 (by decide) (by decide)

/-- Claim C2, counterexample: seven `create_proxy` calls from the fresh
tree (six clustered unit squares, then one giant rectangle whose
insertion stops the sibling search at the root) leave the tree with
`get_max_balance() = 2`: the single bottom-up `Balance` pass does not
repair the imbalance the new root-level parent introduces. -/
theorem c2_balance_cx :
    1 < getMaxBalance (createProxy (createProxy (createProxy (createProxy (createProxy
      (createProxy (createProxy mkTree ⟨0, 0, 1, 1⟩ 0).1 ⟨10, 0, 11, 1⟩ 0).1
      ⟨0, 2, 1, 3⟩ 0).1 ⟨10, 2, 11, 3⟩ 0).1 ⟨0, 4, 1, 5⟩ 0).1 ⟨10, 4, 11, 5⟩ 0).1
      ⟨-1000, -1000, 1000, 1000⟩ 0).1 := by
  decide

theorem queryLoop_stop_last {σ : Type} (s : DTree) (q : Rect) (cb : σ → Int → Bool × σ) :
    ∀ (fuel : Nat) (stack : List Int) (st : σ) (pre post : List (Int × Bool)) (h : Int),
      (queryLoop s q cb fuel stack st).1 = pre ++ (h, false) :: post → post = [] := by
  intro fuel
  induction fuel with
  | zero =>
    intro stack st pre post h heq
    simp [queryLoop] at heq
  | succ fuel ih =>
    intro stack st pre post h heq
    match stack with
    | [] => simp [queryLoop] at heq
    | nodeId :: rest =>
      rw [queryLoop] at heq
      by_cases h0 : nodeId = nullNode
      · rw [if_pos h0] at heq
        exact ih _ _ _ _ _ heq
      · rw [if_neg h0] at heq
        dsimp only at heq
        by_cases hov : (nd s nodeId).aabb.overlaps q
        · rw [if_pos hov] at heq
          by_cases hlf : (nd s nodeId).IsLeaf
          · rw [if_pos hlf] at heq
            by_cases hcb : (cb st nodeId).1
            · rw [if_pos hcb] at heq
              dsimp only at heq
              cases pre with
              | nil =>
                rw [List.nil_append] at heq
                have := (List.cons.injEq _ _ _ _).mp heq
                exact absurd this.1 (by simp)
              | cons p pre' =>
                rw [List.cons_append] at heq
                have := (List.cons.injEq _ _ _ _).mp heq
                exact ih _ _ _ _ _ this.2
            · rw [if_neg hcb] at heq
              cases pre with
              | nil =>
                rw [List.nil_append] at heq
                exact ((List.cons.injEq _ _ _ _).mp heq).2.symm
              | cons p pre' =>
                rw [List.cons_append] at heq
                have := ((List.cons.injEq _ _ _ _).mp heq).2
                exact absurd this.symm (by simp)
          · rw [if_neg hlf] at heq
            exact ih _ _ _ _ _ heq
        · rw [if_neg hov] at heq
          exact ih _ _ _ _ _ heq

theorem rayCastLoop_zero_last {σ : Type} (s : DTree) (p1 p2 v absV : Vec)
    (cb : σ → RayCastInput → Int → ℚ × σ) :
    ∀ (fuel : Nat) (stack : List Int) (mf : ℚ) (seg : Rect) (st : σ)
      (pre post : List (ℚ × Int × ℚ)) (m : ℚ) (h : Int),
      (rayCastLoop s p1 p2 v absV cb fuel stack mf seg st).1 = pre ++ (m, h, 0) :: post →
      post = [] := by
  intro fuel
  induction fuel with
  | zero =>
    intro stack mf seg st pre post m h heq
    simp [rayCastLoop] at heq
  | succ fuel ih =>
    intro stack mf seg st pre post m h heq
    match stack with
    | [] => simp [rayCastLoop] at heq
    | nodeId :: rest =>
      rw [rayCastLoop] at heq
      by_cases h0 : nodeId = nullNode
      · rw [if_pos h0] at heq
        exact ih _ _ _ _ _ _ _ _ heq
      · rw [if_neg h0] at heq
        dsimp only at heq
        by_cases hov : ¬ (nd s nodeId).aabb.overlaps seg
        · rw [if_pos hov] at heq
          exact ih _ _ _ _ _ _ _ _ heq
        · rw [if_neg hov] at heq
          by_cases hsep : 0 < |Vec.dot v (p1 - (nd s nodeId).aabb.middle)|
              - Vec.dot absV (nd s nodeId).aabb.extents
          · rw [if_pos hsep] at heq
            exact ih _ _ _ _ _ _ _ _ heq
          · rw [if_neg hsep] at heq
            by_cases hlf : (nd s nodeId).IsLeaf
            · rw [if_pos hlf] at heq
              by_cases hz : (cb st ⟨p1, p2, mf⟩ nodeId).1 = 0
              · rw [if_pos hz] at heq
                cases pre with
                | nil =>
                  rw [List.nil_append] at heq
                  exact ((List.cons.injEq _ _ _ _).mp heq).2.symm
                | cons p pre' =>
                  rw [List.cons_append] at heq
                  have := ((List.cons.injEq _ _ _ _).mp heq).2
                  exact absurd this.symm (by simp)
              · rw [if_neg hz] at heq
                by_cases hpos : 0 < (cb st ⟨p1, p2, mf⟩ nodeId).1
                · rw [if_pos hpos] at heq
                  dsimp only at heq
                  cases pre with
                  | nil =>
                    rw [List.nil_append] at heq
                    have h1 := ((List.cons.injEq _ _ _ _).mp heq).1
                    exact absurd ((Prod.mk.injEq _ _ _ _).mp
                      ((Prod.mk.injEq _ _ _ _).mp h1).2).2 hz
                  | cons p pre' =>
                    rw [List.cons_append] at heq
                    exact ih _ _ _ _ _ _ _ _ ((List.cons.injEq _ _ _ _).mp heq).2
                · rw [if_neg hpos] at heq
                  dsimp only at heq
                  cases pre with
                  | nil =>
                    rw [List.nil_append] at heq
                    have h1 := ((List.cons.injEq _ _ _ _).mp heq).1
                    exact absurd ((Prod.mk.injEq _ _ _ _).mp
                      ((Prod.mk.injEq _ _ _ _).mp h1).2).2 hz
                  | cons p pre' =>
                    rw [List.cons_append] at heq
                    exact ih _ _ _ _ _ _ _ _ ((List.cons.injEq _ _ _ _).mp heq).2
            · rw [if_neg hlf] at heq
              exact ih _ _ _ _ _ _ _ _ heq

theorem rayCastLoop_monotone {σ : Type} (s : DTree) (p1 p2 v absV : Vec)
    (cb : σ → RayCastInput → Int → ℚ × σ)
    (hcb : ∀ (st : σ) (inp : RayCastInput) (i : Int),
      0 < (cb st inp i).1 → (cb st inp i).1 ≤ inp.maxFraction) :
    ∀ (fuel : Nat) (stack : List Int) (mf : ℚ) (seg : Rect) (st : σ),
      (∀ e ∈ (rayCastLoop s p1 p2 v absV cb fuel stack mf seg st).1, e.1 ≤ mf) ∧
      ((rayCastLoop s p1 p2 v absV cb fuel stack mf seg st).1).Chain'
        (fun a b => b.1 ≤ a.1) := by
  intro fuel
  induction fuel with
  | zero =>
    intro stack mf seg st
    simp [rayCastLoop]
  | succ fuel ih =>
    intro stack mf seg st
    match stack with
    | [] => simp [rayCastLoop]
    | nodeId :: rest =>
      rw [rayCastLoop]
      by_cases h0 : nodeId = nullNode
      · rw [if_pos h0]
        exact ih _ _ _ _
      · rw [if_neg h0]
        dsimp only
        by_cases hov : ¬ (nd s nodeId).aabb.overlaps seg
        · rw [if_pos hov]
          exact ih _ _ _ _
        · rw [if_neg hov]
          by_cases hsep : 0 < |Vec.dot v (p1 - (nd s nodeId).aabb.middle)|
              - Vec.dot absV (nd s nodeId).aabb.extents
          · rw [if_pos hsep]
            exact ih _ _ _ _
          · rw [if_neg hsep]
            by_cases hlf : (nd s nodeId).IsLeaf
            · rw [if_pos hlf]
              by_cases hz : (cb st ⟨p1, p2, mf⟩ nodeId).1 = 0
              · rw [if_pos hz]
                simp
              · rw [if_neg hz]
                by_cases hpos : 0 < (cb st ⟨p1, p2, mf⟩ nodeId).1
                · rw [if_pos hpos]
                  dsimp only
                  have hle : (cb st ⟨p1, p2, mf⟩ nodeId).1 ≤ mf := hcb st _ nodeId hpos
                  obtain ⟨ihm, ihc⟩ := ih rest (cb st ⟨p1, p2, mf⟩ nodeId).1
                    ((Rect.ofPoint p1).combine
                      (Rect.ofPoint (p1 + Vec.scale (cb st ⟨p1, p2, mf⟩ nodeId).1 (p2 - p1))))
                    (cb st ⟨p1, p2, mf⟩ nodeId).2
                  constructor
                  · intro e he
                    rcases List.mem_cons.mp he with rfl | he'
                    · exact le_refl mf
                    · exact le_trans (ihm e he') hle
                  · refine List.chain'_cons'.mpr ⟨?_, ihc⟩
                    intro b hb
                    have : b ∈ _ := List.mem_of_mem_head? hb
                    exact le_trans (ihm b this) hle
                · rw [if_neg hpos]
                  dsimp only
                  obtain ⟨ihm, ihc⟩ := ih rest mf seg (cb st ⟨p1, p2, mf⟩ nodeId).2
                  constructor
                  · intro e he
                    rcases List.mem_cons.mp he with rfl | he'
                    · exact le_refl mf
                    · exact ihm e he'
                  · refine List.chain'_cons'.mpr ⟨?_, ihc⟩
                    intro b hb
                    exact ihm b (List.mem_of_mem_head? hb)
            · rw [if_neg hlf]
              exact ih _ _ _ _

/-- Claim C7: callback sentinels short-circuit the walks.  A query
callback invocation that returns `false` is the last invocation of that
call; a ray callback invocation that returns `0` is the last invocation
of that call; and a ray callback returning a negative value leaves both
`maxFraction` and the segment AABB unchanged while the walk continues
with the rest of the stack. -/
theorem c7_callback_sentinels :
    (∀ (σ : Type) (s : DTree) (q : Rect) (cb : σ → Int → Bool × σ) (st : σ)
      (pre post : List (Int × Bool)) (h : Int),
      (query s cb q st).1 = pre ++ (h, false) :: post → post = []) ∧
    (∀ (σ : Type) (s : DTree) (cb : σ → RayCastInput → Int → ℚ × σ)
      (input : RayCastInput) (st : σ) (pre post : List (ℚ × Int × ℚ)) (m : ℚ) (h : Int),
      (rayCast s cb input st).1 = pre ++ (m, h, 0) :: post → post = []) ∧
    (∀ (σ : Type) (s : DTree) (p1 p2 v absV : Vec) (cb : σ → RayCastInput → Int → ℚ × σ)
      (fuel : Nat) (nodeId : Int) (rest : List Int) (mf : ℚ) (seg : Rect) (st st' : σ)
      (value : ℚ),
      nodeId ≠ nullNode →
      (nd s nodeId).aabb.overlaps seg →
      ¬ 0 < |Vec.dot v (p1 - (nd s nodeId).aabb.middle)|
          - Vec.dot absV (nd s nodeId).aabb.extents →
      (nd s nodeId).IsLeaf →
      cb st ⟨p1, p2, mf⟩ nodeId = (value, st') →
      value < 0 →
      rayCastLoop s p1 p2 v absV cb (fuel + 1) (nodeId :: rest) mf seg st
        = ((mf, nodeId, value) ::
            (rayCastLoop s p1 p2 v absV cb fuel rest mf seg st').1,
          (rayCastLoop s p1 p2 v absV cb fuel rest mf seg st').2)) := by
  refine ⟨?_, ?_, ?_⟩
  · intro σ s q cb st pre post h heq
    exact queryLoop_stop_last s q cb _ _ _ _ _ _ heq
  · intro σ s cb input st pre post m h heq
    exact rayCastLoop_zero_last s _ _ _ _ cb _ _ _ _ _ _ _ _ _ heq
  · intro σ s p1 p2 v absV cb fuel nodeId rest mf seg st st' value
      h0 hov hsep hlf hcb hneg
    rw [rayCastLoop, if_neg h0]
    dsimp only
    rw [if_neg (by simpa using hov), if_neg hsep, if_pos hlf, hcb]
    dsimp only
    rw [if_neg (by exact ne_of_lt hneg), if_neg (by exact not_lt.mpr (le_of_lt hneg))]

/-- Claim C4 (amended): within a single `ray_cast` call the sequence of
`max_fraction` values passed to successive callback invocations is
non-increasing, provided every positive value the callback returns is
at most the `max_fraction` it was handed (the source assigns
`maxFraction = value` without clamping, so an overshooting callback can
enlarge it — see the counterexample). -/
theorem c4_narrowing_monotone {σ : Type} (s : DTree)
    (cb : σ → RayCastInput → Int → ℚ × σ) (input : RayCastInput) (st : σ)
    (hcb : ∀ (st : σ) (inp : RayCastInput) (i : Int),
      0 < (cb st inp i).1 → (cb st inp i).1 ≤ inp.maxFraction) :
    ((rayCast s cb input st).1).Chain' (fun a b => b.1 ≤ a.1) := by
  exact (rayCastLoop_monotone s _ _ _ _ cb hcb _ _ _ _ _).2


/-- Claim C4, counterexample: a callback that always returns `9` makes
the observed `max_fraction` sequence increase (`[1/2, 9]`) in a
reachable two-proxy state: the walk adopts the returned value without
comparing it to the current one. -/
theorem c4_overshoot_cx :
    ¬ ((rayCast tieState (fun (st : Unit) _ _ => ((9 : ℚ), st))
        ⟨⟨-1, 1/2⟩, ⟨10, 1/2⟩, 1/2⟩ ()).1).Chain' (fun a b => b.1 ≤ a.1) := by
  intro hch
  rw [(by decide : (rayCast tieState (fun (st : Unit) _ _ => ((9 : ℚ), st))
      ⟨⟨-1, 1/2⟩, ⟨10, 1/2⟩, 1/2⟩ ()).1 = [(1/2, 1, 9), (9, 0, 9)])] at hch
  rcases List.chain'_cons.mp hch with ⟨hle, _⟩
  norm_num at hle

/-- Witness for the amended narrowing claim: a callback returning
exactly the handed `max_fraction` yields a non-increasing observed
sequence on the two-proxy state. -/
theorem c4_narrowing_monotone_witness :
    ((rayCast tieState (fun (st : Unit) inp _ => (inp.maxFraction, st))
        ⟨⟨-1, 1/2⟩, ⟨10, 1/2⟩, 1/2⟩ ()).1).Chain' (fun a b => b.1 ≤ a.1) :=
  c4_narrowing_monotone tieState _ _ () (fun _ _ _ _ => le_refl _)

/-- Witness for the sentinel claim: concrete runs on the two-proxy
state — a `false`-returning query callback is invoked exactly once, a
`0`-returning ray callback is invoked exactly once, and one step of the
walk at a leaf with a `-1`-returning callback keeps `max_fraction` and
the segment box. -/
theorem c7_callback_sentinels_witness :
    (([] : List (Int × Bool)) = []) ∧
    (([] : List (ℚ × Int × ℚ)) = []) ∧
    rayCastLoop tieState ⟨0, 0⟩ ⟨1, 1⟩ ⟨0, 0⟩ ⟨0, 0⟩
        (fun (st : Unit) _ _ => ((-1 : ℚ), st)) (5 + 1) (1 :: [0]) (1/2)
        ⟨-1, -1, 20, 20⟩ ()
      = ((1/2, 1, -1) ::
          (rayCastLoop tieState ⟨0, 0⟩ ⟨1, 1⟩ ⟨0, 0⟩ ⟨0, 0⟩
            (fun (st : Unit) _ _ => ((-1 : ℚ), st)) 5 [0] (1/2) ⟨-1, -1, 20, 20⟩ ()).1,
        (rayCastLoop tieState ⟨0, 0⟩ ⟨1, 1⟩ ⟨0, 0⟩ ⟨0, 0⟩
            (fun (st : Unit) _ _ => ((-1 : ℚ), st)) 5 [0] (1/2) ⟨-1, -1, 20, 20⟩ ()).2) :=
  ⟨c7_callback_sentinels.1 Unit tieState ⟨0, 0, 20, 20⟩ (fun st _ => (false, st)) ()
      [] [] 1 (by decide),
   c7_callback_sentinels.2.1 Unit tieState (fun st _ _ => ((0 : ℚ), st))
      ⟨⟨-1, 1/2⟩, ⟨10, 1/2⟩, 1/2⟩ () [(1/2, 1, 0)].dropLast [] (1/2) 1 (by decide),
   c7_callback_sentinels.2.2 Unit tieState ⟨0, 0⟩ ⟨1, 1⟩ ⟨0, 0⟩ ⟨0, 0⟩
      (fun (st : Unit) _ _ => ((-1 : ℚ), st)) 5 1 [0] (1/2) ⟨-1, -1, 20, 20⟩ () () (-1)
      (by decide) (by decide) (by decide) (by decide) rfl (by decide)⟩


/-- Witness for the move no-op claim: a fresh single-proxy tree, moved
to the same rectangle with zero displacement, is returned untouched. -/
theorem c5_move_noop_witness :
    moveProxy (createProxy mkTree ⟨0, 0, 1, 1⟩ 5).1 0 ⟨0, 0, 1, 1⟩ ⟨0, 0⟩
      = ((createProxy mkTree ⟨0, 0, 1, 1⟩ 5).1, false) :=
  c5_move_noop (createProxy mkTree ⟨0, 0, 1, 1⟩ 5).1 0 ⟨0, 0, 1, 1⟩ ⟨0, 0⟩
    (by decide) (by decide) (by decide) (by decide) (by decide)

/-- Witness for the LIFO-reuse claim: destroying the only proxy of a
fresh single-proxy tree and creating another returns handle `0`
again. -/
theorem c10_lifo_reuse_witness :
    (createProxy (destroyProxy (createProxy mkTree ⟨0, 0, 1, 1⟩ 5).1 0) ⟨2, 2, 3, 3⟩ 7).2
      = 0 :=
  c10_lifo_reuse (createProxy mkTree ⟨0, 0, 1, 1⟩ 5).1 0 ⟨2, 2, 3, 3⟩ 7 (by decide)

@[simp] theorem nd_setFreeList (s : DTree) (h j : Int) :
    nd (setFreeList s h) j = nd s j := rfl

@[simp] theorem nd_setCount (s : DTree) (c j : Int) : nd (setCount s c) j = nd s j := rfl

@[simp] theorem nd_bumpInsertions (s : DTree) (j : Int) :
    nd (bumpInsertions s) j = nd s j := rfl

@[simp] theorem setFreeList_freeList (s : DTree) (h : Int) :
    (setFreeList s h).freeList = h := rfl

@[simp] theorem setFreeList_root (s : DTree) (h : Int) : (setFreeList s h).root = s.root := rfl

@[simp] theorem setFreeList_nodeCapacity (s : DTree) (h : Int) :
    (setFreeList s h).nodeCapacity = s.nodeCapacity := rfl

@[simp] theorem setFreeList_nodeCount (s : DTree) (h : Int) :
    (setFreeList s h).nodeCount = s.nodeCount := rfl

@[simp] theorem setFreeList_nodes (s : DTree) (h : Int) :
    (setFreeList s h).nodes = s.nodes := rfl

@[simp] theorem setCount_nodeCount (s : DTree) (c : Int) :
    (setCount s c).nodeCount = c := rfl

@[simp] theorem setCount_root (s : DTree) (c : Int) : (setCount s c).root = s.root := rfl

@[simp] theorem setCount_freeList (s : DTree) (c : Int) :
    (setCount s c).freeList = s.freeList := rfl

@[simp] theorem setCount_nodeCapacity (s : DTree) (c : Int) :
    (setCount s c).nodeCapacity = s.nodeCapacity := rfl

@[simp] theorem setCount_nodes (s : DTree) (c : Int) : (setCount s c).nodes = s.nodes := rfl

@[simp] theorem bumpInsertions_root (s : DTree) : (bumpInsertions s).root = s.root := rfl

@[simp] theorem bumpInsertions_freeList (s : DTree) :
    (bumpInsertions s).freeList = s.freeList := rfl

@[simp] theorem bumpInsertions_nodeCount (s : DTree) :
    (bumpInsertions s).nodeCount = s.nodeCount := rfl

@[simp] theorem bumpInsertions_nodeCapacity (s : DTree) :
    (bumpInsertions s).nodeCapacity = s.nodeCapacity := rfl

@[simp] theorem bumpInsertions_nodes (s : DTree) : (bumpInsertions s).nodes = s.nodes := rfl

@[simp] theorem setRoot_nodes (s : DTree) (r : Int) : (setRoot s r).nodes = s.nodes := rfl

@[simp] theorem setRoot_root (s : DTree) (r : Int) : (setRoot s r).root = r := rfl

@[simp] theorem setRoot_freeList (s : DTree) (r : Int) :
    (setRoot s r).freeList = s.freeList := rfl

@[simp] theorem setRoot_nodeCount (s : DTree) (r : Int) :
    (setRoot s r).nodeCount = s.nodeCount := rfl

@[simp] theorem setRoot_nodeCapacity (s : DTree) (r : Int) :
    (setRoot s r).nodeCapacity = s.nodeCapacity := rfl

@[simp] theorem setNode_nodes_length (s : DTree) (i : Int) (n : TreeNode) :
    (setNode s i n).nodes.length = s.nodes.length := setNode_length s i n

theorem rootIdx_mem (t : TView) : t.rootIdx ∈ t.idxs := by
  cases t <;> simp [TView.rootIdx, TView.idxs]

theorem Rep_rootIdx_nonneg {s : DTree} {t : TView} (h : Rep s t) : 0 ≤ t.rootIdx := by
  cases t with
  | leaf i => exact h.1
  | node i l r => exact h.1

theorem Rep_height_nonneg {s : DTree} {t : TView} (h : Rep s t) :
    0 ≤ (nd s t.rootIdx).height := by
  induction t with
  | leaf i => simp [TView.rootIdx, h.2.2.2]
  | node i l r ihl ihr =>
    obtain ⟨-, -, -, hh, -, hl, hr⟩ := h
    show 0 ≤ (nd s (TView.node i l r).rootIdx).height
    rw [show (TView.node i l r).rootIdx = i from rfl, hh]
    have := ihl hl
    have := ihr hr
    rcases max_cases (nd s l.rootIdx).height (nd s r.rootIdx).height with ⟨h1, _⟩ | ⟨h1, _⟩ <;>
      omega

theorem Rep_frame {s sp : DTree} {t : TView}
    (h : ∀ i ∈ t.idxs, agreeCh (nd s i) (nd sp i)) (hr : Rep s t) : Rep sp t := by
  induction t with
  | leaf i =>
    obtain ⟨h0, h1, h2, h3⟩ := hr
    obtain ⟨a1, a2, a3, a4⟩ := h i (by simp [TView.idxs])
    exact ⟨h0, by rw [a1, h1], by rw [a2, h2], by rw [a3, h3]⟩
  | node i l r ihl ihr =>
    obtain ⟨h0, h1, h2, h3, h4, hl, hr'⟩ := hr
    have hmem : i ∈ (TView.node i l r).idxs := by simp [TView.idxs]
    obtain ⟨a1, a2, a3, a4⟩ := h i hmem
    have hml : ∀ j ∈ l.idxs, agreeCh (nd s j) (nd sp j) := fun j hj =>
      h j (by simp [TView.idxs, hj])
    have hmr : ∀ j ∈ r.idxs, agreeCh (nd s j) (nd sp j) := fun j hj =>
      h j (by simp [TView.idxs, hj])
    have bl := hml l.rootIdx (rootIdx_mem l)
    have br := hmr r.rootIdx (rootIdx_mem r)
    refine ⟨h0, by rw [a1, h1], by rw [a2, h2], ?_, ?_, ihl hml hl, ihr hmr hr'⟩
    · rw [a3, h3, bl.2.2.1, br.2.2.1]
    · rw [a4, h4, bl.2.2.2, br.2.2.2]

theorem Par_frame {s sp : DTree} {t : TView}
    (hnd : t.idxs.Nodup)
    (h : ∀ i ∈ t.idxs, i ≠ t.rootIdx → (nd sp i).parentOrNext = (nd s i).parentOrNext)
    (hp : Par s t) : Par sp t := by
  induction t with
  | leaf i => trivial
  | node i l r ihl ihr =>
    obtain ⟨h1, h2, hl, hr⟩ := hp
    have hidxs : (TView.node i l r).idxs = i :: (l.idxs ++ r.idxs) := rfl
    rw [hidxs, List.nodup_cons] at hnd
    obtain ⟨hni, hnd'⟩ := hnd
    have hroot : (TView.node i l r).rootIdx = i := rfl
    have hsub : ∀ j ∈ l.idxs ++ r.idxs, (nd sp j).parentOrNext = (nd s j).parentOrNext := by
      intro j hj
      refine h j (by rw [hidxs]; exact List.mem_cons_of_mem _ hj) ?_
      rw [hroot]
      rintro rfl
      exact hni hj
    have hndl := (List.nodup_append.mp hnd').1
    have hndr := (List.nodup_append.mp hnd').2.1
    refine ⟨?_, ?_, ?_, ?_⟩
    · rw [hsub l.rootIdx (List.mem_append_left _ (rootIdx_mem l)), h1]
    · rw [hsub r.rootIdx (List.mem_append_right _ (rootIdx_mem r)), h2]
    · refine ihl hndl ?_ hl
      intro j hj hjr
      exact hsub j (List.mem_append_left _ hj)
    · refine ihr hndr ?_ hr
      intro j hj hjr
      exact hsub j (List.mem_append_right _ hj)



theorem freshFree_length (a b : Nat) : (freshFree a b).length = b - a := by
  simp [freshFree]

theorem freshFree_getD (a b k : Nat) (hk : k < b - a) :
    (freshFree a b).getD k default =
      { (default : TreeNode) with
        parentOrNext := if a + k = b - 1 then nullNode else (a + k : Int) + 1
        height := -1 } := by
  unfold freshFree
  rw [List.getD_eq_getElem?_getD, List.getElem?_map, List.getElem?_range hk]
  rfl

theorem length_intRange (a b : Int) : (intRange a b).length = (b - a).toNat := by
  simp [intRange]

theorem mem_intRange {a b j : Int} : j ∈ intRange a b ↔ a ≤ j ∧ j < b := by
  unfold intRange
  simp only [List.mem_map, List.mem_range]
  constructor
  · rintro ⟨k, hk, rfl⟩
    omega
  · intro ⟨h1, h2⟩
    exact ⟨(j - a).toNat, by omega, by omega⟩

theorem nodup_intRange (a b : Int) : (intRange a b).Nodup := by
  unfold intRange
  refine List.Nodup.map ?_ (List.nodup_range _)
  intro x y h
  have h2 : a + (x : Int) = a + (y : Int) := h
  omega

theorem intRange_succ {a b : Int} (h : a < b) : intRange a b = a :: intRange (a + 1) b := by
  unfold intRange
  have h1 : (b - a).toNat = (b - (a + 1)).toNat + 1 := by omega
  rw [h1, List.range_succ_eq_map]
  simp only [List.map_cons, List.map_map]
  congr 1
  · push_cast
    ring
  · apply List.map_congr_left
    intro k _
    simp only [Function.comp_apply, Nat.succ_eq_add_one]
    push_cast
    ring

theorem FreeRep_frame {s sp : DTree} {fl : List Int}
    (h : ∀ i ∈ fl, nd sp i = nd s i) :
    ∀ {head : Int}, FreeRep s head fl → FreeRep sp head fl := by
  induction fl with
  | nil => intro head hr; exact hr
  | cons a rest ih =>
    intro head hr
    obtain ⟨he, hr2⟩ := hr
    refine ⟨he, ?_⟩
    rw [h a (List.mem_cons_self _ _)]
    exact ih (fun i hi => h i (List.mem_cons_of_mem _ hi)) hr2

theorem FreeRep_chain (s : DTree) :
    ∀ (n : Nat) (a : Int),
      (∀ j, a ≤ j → j < a + n →
        (nd s j).parentOrNext = if j = a + n - 1 then nullNode else j + 1) →
      FreeRep s (if n = 0 then nullNode else a) (intRange a (a + n)) := by
  intro n
  induction n with
  | zero =>
    intro a h
    have he : intRange a (a + ((0 : Nat) : Int)) = [] := by
      unfold intRange
      simp
    rw [he]
    rfl
  | succ n ih =>
    intro a h
    rw [if_neg (by omega), intRange_succ (by omega : a < a + (n + 1 : Nat))]
    refine ⟨rfl, ?_⟩
    have ha := h a (le_refl a) (by omega)
    by_cases hn : n = 0
    · subst hn
      rw [if_pos (by omega)] at ha
      rw [ha]
      have he : intRange (a + 1) (a + ((1 : Nat) : Int)) = [] := by
        unfold intRange
        simp
      rw [he]
      rfl
    · rw [if_neg (by omega)] at ha
      rw [ha]
      have := ih (a + 1) (fun j hj1 hj2 => by
        have hj := h j (by omega) (by omega)
        rw [hj]
        congr 1
        simp only [eq_iff_iff]
        constructor <;> intro <;> omega)
      rw [if_neg hn] at this
      convert this using 2
      push_cast
      omega



theorem nodup_three {α : Type} {l1 l2 l3 : List α} (h : (l1 ++ l2 ++ l3).Nodup) :
    l1.Nodup ∧ l2.Nodup ∧ l3.Nodup ∧
    (∀ a ∈ l1, a ∉ l2) ∧ (∀ a ∈ l1, a ∉ l3) ∧ (∀ a ∈ l2, a ∉ l3) := by
  rw [List.append_assoc, List.nodup_append, List.nodup_append] at h
  obtain ⟨h1, ⟨h2, h3, d23⟩, d1⟩ := h
  refine ⟨h1, h2, h3, ?_, ?_, ?_⟩
  · intro a ha hb
    exact d1 ha (List.mem_append_left _ hb)
  · intro a ha hb
    exact d1 ha (List.mem_append_right _ hb)
  · intro a ha hb
    exact d23 ha hb

@[simp] theorem growPool_root (s : DTree) : (growPool s).root = s.root := rfl

@[simp] theorem growPool_nodeCount (s : DTree) : (growPool s).nodeCount = s.nodeCount := rfl

@[simp] theorem growPool_nodeCapacity (s : DTree) :
    (growPool s).nodeCapacity = 2 * s.nodeCapacity := rfl

@[simp] theorem growPool_freeList (s : DTree) : (growPool s).freeList = s.nodeCount := rfl

theorem nd_growPool_low {s : DTree} (hlen : s.nodes.length = s.nodeCapacity.toNat)
    (hcnt : s.nodeCount = s.nodeCapacity) {j : Int} (hj : j < s.nodeCapacity) :
    nd (growPool s) j = nd s j := by
  unfold nd growPool
  by_cases h0 : j < 0
  · rw [if_pos h0, if_pos h0]
  · rw [if_neg h0, if_neg h0]
    dsimp only
    rw [List.take_of_length_le (by omega), List.getD_append]
    omega

theorem nd_growPool_high {s : DTree} (hlen : s.nodes.length = s.nodeCapacity.toNat)
    (hcnt : s.nodeCount = s.nodeCapacity) (hcap : 0 < s.nodeCapacity) {j : Int}
    (hj1 : s.nodeCapacity ≤ j) (hj2 : j < 2 * s.nodeCapacity) :
    nd (growPool s) j =
      { (default : TreeNode) with
        parentOrNext := if j = 2 * s.nodeCapacity - 1 then nullNode else j + 1
        height := -1 } := by
  unfold nd growPool
  rw [if_neg (by omega)]
  dsimp only
  rw [hcnt, List.take_of_length_le (by omega), List.getD_append_right _ _ _ _ (by omega),
    hlen, freshFree_getD _ _ _ (by omega)]
  by_cases hlast : j = 2 * s.nodeCapacity - 1
  · rw [if_pos (show s.nodeCapacity.toNat + (j.toNat - s.nodeCapacity.toNat) =
      (2 * s.nodeCapacity).toNat - 1 by omega), if_pos hlast]
  · rw [if_neg (show ¬ s.nodeCapacity.toNat + (j.toNat - s.nodeCapacity.toNat) =
      (2 * s.nodeCapacity).toNat - 1 by omega), if_neg hlast]
    rw [show (s.nodeCapacity.toNat : Int) + ((j.toNat - s.nodeCapacity.toNat : Nat) : Int) = j
      by omega]

theorem growPool_pool {s : DTree} {ot : Option TView} {ex : List Int}
    (hp : Pool s ot [] ex) :
    Pool (growPool s) ot (intRange s.nodeCapacity (2 * s.nodeCapacity)) ex := by
  obtain ⟨hlen, hcap, hroot, hbounds, hnodup, hfree, hfh, hcover, hcount, hlentot⟩ := hp
  simp only [List.length_nil, Nat.cast_zero, add_zero] at hcount hlentot
  have hcnt : s.nodeCount = s.nodeCapacity := by omega
  have hlow : ∀ j : Int, j < s.nodeCapacity → nd (growPool s) j = nd s j :=
    fun j hj => nd_growPool_low hlen hcnt hj
  have hhigh : ∀ j : Int, s.nodeCapacity ≤ j → j < 2 * s.nodeCapacity →
      nd (growPool s) j =
        { (default : TreeNode) with
          parentOrNext := if j = 2 * s.nodeCapacity - 1 then nullNode else j + 1
          height := -1 } :=
    fun j h1 h2 => nd_growPool_high hlen hcnt hcap h1 h2
  have htidx : ∀ i ∈ tidxs ot ++ ex, 0 ≤ i ∧ i < s.nodeCapacity := by
    intro i hi
    refine hbounds i ?_
    simp only [List.mem_append] at hi ⊢
    tauto
  have hp_nodup : (tidxs ot ++ ex ++ ([] : List Int)).Nodup := hnodup
  refine ⟨?_, ?_, ?_, ?_, ?_, ?_, ?_, ?_, ?_, ?_⟩
  · show (growPool s).nodes.length = (growPool s).nodeCapacity.toNat
    unfold growPool
    dsimp only
    rw [List.length_append, List.take_of_length_le (by omega), freshFree_length]
    omega
  · show 0 < 2 * s.nodeCapacity
    omega
  · cases ot with
    | none => exact hroot
    | some t =>
      obtain ⟨hr1, hr2, hrep, hpar⟩ := hroot
      have htidx' : ∀ i ∈ t.idxs, 0 ≤ i ∧ i < s.nodeCapacity := by
        intro i hi
        exact htidx i (by simp [tidxs, hi])
      clear hnodup
      refine ⟨hr1, ?_, ?_, ?_⟩
      · rw [hlow t.rootIdx (htidx' _ (rootIdx_mem t)).2]
        exact hr2
      · refine Rep_frame (fun i hi => ?_) hrep
        rw [hlow i (htidx' i hi).2]
        exact ⟨rfl, rfl, rfl, rfl⟩
      · refine Par_frame ?_ (fun i hi hir => ?_) hpar
        · exact (nodup_three hp_nodup).1
        · rw [hlow i (htidx' i hi).2]
  · intro a ha
    simp only [List.mem_append, mem_intRange] at ha
    simp only [growPool_nodeCapacity]
    rcases ha with (ha | ha) | ha
    · have := htidx a (List.mem_append_left _ ha)
      omega
    · have := htidx a (List.mem_append_right _ ha)
      omega
    · omega
  · rw [List.nodup_append]
    have h0 : (tidxs ot ++ ex).Nodup := by
      have := hp_nodup
      simpa using this
    refine ⟨h0, nodup_intRange _ _, ?_⟩
    intro a ha hb
    rw [mem_intRange] at hb
    have := htidx a ha
    omega
  · show FreeRep (growPool s) (growPool s).freeList (intRange s.nodeCapacity (2 * s.nodeCapacity))
    have hchain := FreeRep_chain (growPool s) s.nodeCapacity.toNat s.nodeCapacity ?_
    · rw [if_neg (by omega)] at hchain
      have hb : s.nodeCapacity + (s.nodeCapacity.toNat : Int) = 2 * s.nodeCapacity := by omega
      rw [hb] at hchain
      simp only [growPool_freeList, hcnt]
      exact hchain
    · intro j hj1 hj2
      rw [hhigh j hj1 (by omega)]
      dsimp only
      congr 1
      simp only [eq_iff_iff]
      constructor <;> intro <;> omega
  · intro i hi
    rw [mem_intRange] at hi
    rw [hhigh i hi.1 hi.2]
  · intro i h1 h2
    simp only [growPool_nodeCapacity] at h2
    simp only [List.mem_append, mem_intRange]
    by_cases hlo : i < s.nodeCapacity
    · have := hcover i h1 hlo
      simp only [List.append_nil, List.mem_append] at this
      tauto
    · right
      omega
  · simp only [growPool_nodeCount]
    omega
  · simp only [length_intRange, growPool_nodeCapacity]
    push_cast
    omega

theorem allocateNode_grow {s : DTree} (h : s.freeList = nullNode)
    (h2 : ¬ (growPool s).freeList = nullNode) :
    allocateNode s = allocateNode (growPool s) := by
  conv_lhs => unfold allocateNode
  conv_rhs => unfold allocateNode
  rw [if_pos h, if_neg h2]

theorem allocateNode_eq_no_grow {s : DTree} (h : ¬ s.freeList = nullNode) :
    allocateNode s =
      (setCount (setNode (setFreeList s (nd s s.freeList).parentOrNext) s.freeList
        { nd s s.freeList with
          parentOrNext := nullNode
          child1 := nullNode
          child2 := nullNode
          height := 0
          userData := 0
          moved := false })
        (s.nodeCount + 1), s.freeList) := by
  unfold allocateNode
  rw [if_neg h]
  rfl

theorem Pool_pop {s : DTree} {ot : Option TView} {i : Int} {rest ex : List Int}
    (hp : Pool s ot (i :: rest) ex) :
    Pool (setCount (setNode (setFreeList s (nd s i).parentOrNext) i
      { nd s i with
        parentOrNext := nullNode
        child1 := nullNode
        child2 := nullNode
        height := 0
        userData := 0
        moved := false })
      (s.nodeCount + 1)) ot rest (i :: ex) := by
  obtain ⟨hlen, hcap, hroot, hbounds, hnodup, hfree, hfh, hcover, hcount, hlentot⟩ := hp
  obtain ⟨-, -, hn3, hd12, hd13, hd23⟩ := nodup_three hnodup
  have hifl : i ∉ tidxs ot := by
    intro hi
    exact hd13 i hi (List.mem_cons_self _ _)
  have hirest : i ∉ rest := by
    rw [List.nodup_cons] at hn3
    exact hn3.1
  have hother : ∀ j : Int, j ≠ i →
      nd (setCount (setNode (setFreeList s (nd s i).parentOrNext) i
        { nd s i with
          parentOrNext := nullNode
          child1 := nullNode
          child2 := nullNode
          height := 0
          userData := 0
          moved := false }) (s.nodeCount + 1)) j = nd s j := by
    intro j hj
    rw [nd_setCount, nd_setNode_other _ _ _ _ hj, nd_setFreeList]
  refine ⟨?_, hcap, ?_, ?_, ?_, ?_, ?_, ?_, ?_, ?_⟩
  · simpa using hlen
  · cases ot with
    | none => exact hroot
    | some t =>
      obtain ⟨hr1, hr2, hrep, hpar⟩ := hroot
      have htne : ∀ j ∈ t.idxs, j ≠ i := by
        intro j hj
        intro hji
        exact hifl (hji ▸ hj)
      refine ⟨hr1, ?_, ?_, ?_⟩
      · rw [hother t.rootIdx (htne _ (rootIdx_mem t))]
        exact hr2
      · refine Rep_frame (fun j hj => ?_) hrep
        rw [hother j (htne j hj)]
        exact ⟨rfl, rfl, rfl, rfl⟩
      · refine Par_frame ?_ (fun j hj hjr => ?_) hpar
        · have := nodup_three hnodup
          exact this.1
        · rw [hother j (htne j hj)]
  · intro a ha
    have hmem : a ∈ tidxs ot ++ ex ++ i :: rest := by
      simp only [List.mem_append, List.mem_cons]
      simp only [List.mem_append, List.mem_cons] at ha
      tauto
    have := hbounds a hmem
    simpa using this
  · have hperm : (tidxs ot ++ ex ++ i :: rest).Perm (tidxs ot ++ (i :: ex) ++ rest) := by
      rw [List.append_assoc, List.append_assoc, List.cons_append]
      exact List.Perm.append_left _ List.perm_middle
    exact hnodup.perm hperm
  · show FreeRep _ (nd s i).parentOrNext rest
    obtain ⟨-, hfr⟩ := hfree
    refine FreeRep_frame (fun j hj => ?_) hfr
    exact hother j (fun hji => hirest (hji ▸ hj))
  · intro j hj
    rw [hother j (fun hji => hirest (hji ▸ hj))]
    exact hfh j (List.mem_cons_of_mem _ hj)
  · intro a h1 h2
    simp only [setCount_nodeCapacity, setNode_nodeCapacity, setFreeList_nodeCapacity] at h2
    have := hcover a h1 h2
    simp only [List.mem_append, List.mem_cons] at this ⊢
    tauto
  · simp only [setCount_nodeCount, List.length_cons] at hcount ⊢
    push_cast at hcount ⊢
    omega
  · simp only [List.length_cons, setCount_nodeCapacity, setNode_nodeCapacity,
      setFreeList_nodeCapacity] at hlentot ⊢
    push_cast at hlentot ⊢
    omega

theorem alloc_pop_spec {s : DTree} {ot : Option TView} {i : Int} {rest ex : List Int}
    (hp : Pool s ot (i :: rest) ex) :
    ∃ fl2, Pool (allocateNode s).1 ot fl2 ((allocateNode s).2 :: ex) ∧
      0 ≤ (allocateNode s).2 ∧ (allocateNode s).2 < (allocateNode s).1.nodeCapacity ∧
      (nd (allocateNode s).1 (allocateNode s).2).parentOrNext = nullNode ∧
      (nd (allocateNode s).1 (allocateNode s).2).child1 = nullNode ∧
      (nd (allocateNode s).1 (allocateNode s).2).child2 = nullNode ∧
      (nd (allocateNode s).1 (allocateNode s).2).height = 0 ∧
      (allocateNode s).1.root = s.root ∧
      s.nodeCapacity ≤ (allocateNode s).1.nodeCapacity ∧
      (∀ j : Int, j ≠ (allocateNode s).2 → nd (allocateNode s).1 j = nd s j) := by
  have hfl : s.freeList = i := hp.free_rep.1
  have hib : 0 ≤ i ∧ i < s.nodeCapacity := by
    refine hp.bounds i ?_
    simp
  have hne : ¬ s.freeList = nullNode := by
    rw [hfl]
    unfold nullNode
    omega
  rw [allocateNode_eq_no_grow hne, hfl]
  have hin : inPool (setFreeList s (nd s i).parentOrNext) i := by
    refine ⟨hib.1, ?_⟩
    have := hp.len_nodes
    simp only [setFreeList_nodes]
    omega
  have hself : nd (setCount (setNode (setFreeList s (nd s i).parentOrNext) i
      { nd s i with
        parentOrNext := nullNode
        child1 := nullNode
        child2 := nullNode
        height := 0
        userData := 0
        moved := false }) (s.nodeCount + 1)) i =
      { nd s i with
        parentOrNext := nullNode
        child1 := nullNode
        child2 := nullNode
        height := 0
        userData := 0
        moved := false } := by
    rw [nd_setCount, nd_setNode_self _ _ _ hin]
  refine ⟨rest, Pool_pop hp, hib.1, ?_, ?_, ?_, ?_, ?_, rfl, le_refl _, ?_⟩
  · simpa using hib.2
  · rw [hself]
  · rw [hself]
  · rw [hself]
  · rw [hself]
  · intro j hj
    rw [nd_setCount, nd_setNode_other _ _ _ _ hj, nd_setFreeList]

theorem allocateNode_spec {s : DTree} {ot : Option TView} {fl ex : List Int}
    (hp : Pool s ot fl ex) :
    ∃ fl2, Pool (allocateNode s).1 ot fl2 ((allocateNode s).2 :: ex) ∧
      0 ≤ (allocateNode s).2 ∧ (allocateNode s).2 < (allocateNode s).1.nodeCapacity ∧
      (nd (allocateNode s).1 (allocateNode s).2).parentOrNext = nullNode ∧
      (nd (allocateNode s).1 (allocateNode s).2).child1 = nullNode ∧
      (nd (allocateNode s).1 (allocateNode s).2).child2 = nullNode ∧
      (nd (allocateNode s).1 (allocateNode s).2).height = 0 ∧
      (allocateNode s).1.root = s.root ∧
      s.nodeCapacity ≤ (allocateNode s).1.nodeCapacity ∧
      (∀ j : Int, j < s.nodeCapacity → j ≠ (allocateNode s).2 →
        nd (allocateNode s).1 j = nd s j) := by
  cases fl with
  | cons i rest =>
    obtain ⟨fl2, w1, w2, w3, w4, w5, w6, w7, w8, w9, w10⟩ := alloc_pop_spec hp
    exact ⟨fl2, w1, w2, w3, w4, w5, w6, w7, w8, w9, fun j _ hj => w10 j hj⟩
  | nil =>
    have hfl : s.freeList = nullNode := hp.free_rep
    have hcap := hp.cap_pos
    have hcnt : s.nodeCount = s.nodeCapacity := by
      have h1 := hp.count
      have h2 := hp.len
      simp only [List.length_nil, Nat.cast_zero, add_zero] at h1 h2
      omega
    have h2 : ¬ (growPool s).freeList = nullNode := by
      simp only [growPool_freeList, hcnt]
      unfold nullNode
      omega
    have hlen := hp.len_nodes
    rw [allocateNode_grow hfl h2]
    have hg := growPool_pool hp
    rw [intRange_succ (by omega : s.nodeCapacity < 2 * s.nodeCapacity)] at hg
    obtain ⟨fl2, w1, w2, w3, w4, w5, w6, w7, w8, w9, w10⟩ := alloc_pop_spec hg
    refine ⟨fl2, w1, w2, w3, w4, w5, w6, w7, ?_, ?_, ?_⟩
    · rw [w8, growPool_root]
    · refine le_trans ?_ w9
      simp only [growPool_nodeCapacity]
      omega
    · intro j hjc hj
      rw [w10 j hj, nd_growPool_low hlen hcnt hjc]

theorem Pool_setNode_ex {s : DTree} {ot : Option TView} {fl ex : List Int}
    (hp : Pool s ot fl ex) {i : Int} (hi : i ∈ ex) (n : TreeNode) :
    Pool (setNode s i n) ot fl ex := by
  obtain ⟨hlen, hcap, hroot, hbounds, hnodup, hfree, hfh, hcover, hcount, hlentot⟩ := hp
  obtain ⟨hn1, -, -, hd12, -, hd23⟩ := nodup_three hnodup
  have hother : ∀ j : Int, j ≠ i → nd (setNode s i n) j = nd s j :=
    fun j hj => nd_setNode_other _ _ _ _ hj
  refine ⟨by simpa using hlen, hcap, ?_, by simpa using hbounds, hnodup, ?_, ?_,
    by simpa using hcover, by simpa using hcount, by simpa using hlentot⟩
  · cases ot with
    | none => exact hroot
    | some t =>
      obtain ⟨hr1, hr2, hrep, hpar⟩ := hroot
      have htne : ∀ j ∈ t.idxs, j ≠ i := by
        intro j hj hji
        exact hd12 j (by simpa [tidxs] using hj) (hji ▸ hi)
      refine ⟨hr1, ?_, ?_, ?_⟩
      · rw [hother t.rootIdx (htne _ (rootIdx_mem t))]
        exact hr2
      · refine Rep_frame (fun j hj => ?_) hrep
        rw [hother j (htne j hj)]
        exact ⟨rfl, rfl, rfl, rfl⟩
      · refine Par_frame (by simpa [tidxs] using hn1) (fun j hj hjr => ?_) hpar
        rw [hother j (htne j hj)]
  · show FreeRep _ s.freeList fl
    refine FreeRep_frame (fun j hj => ?_) hfree
    exact hother j (fun hji => hd23 i hi (hji ▸ hj))
  · intro j hj
    rw [hother j (fun hji => hd23 i hi (hji ▸ hj))]
    exact hfh j hj



theorem Rect.combine_comm (a b : Rect) : a.combine b = b.combine a := by
  unfold Rect.combine
  rw [min_comm, max_comm, min_comm a.top, max_comm a.bottom]

/-- Parent-pointer realisation is stable under any state change that
keeps the `parentOrNext` field of every handle of the shape. -/
theorem Par_frame2 {s sp : DTree} {t : TView}
    (h : ∀ i ∈ t.idxs, (nd sp i).parentOrNext = (nd s i).parentOrNext)
    (hp : Par s t) : Par sp t := by
  induction t with
  | leaf i => trivial
  | node i l r ihl ihr =>
    obtain ⟨h1, h2, hl, hr⟩ := hp
    have hsub : ∀ j ∈ l.idxs ++ r.idxs, (nd sp j).parentOrNext = (nd s j).parentOrNext := by
      intro j hj
      refine h j ?_
      simp only [TView.idxs, List.mem_cons]
      right
      exact hj
    refine ⟨?_, ?_, ?_, ?_⟩
    · rw [hsub l.rootIdx (List.mem_append_left _ (rootIdx_mem l)), h1]
    · rw [hsub r.rootIdx (List.mem_append_right _ (rootIdx_mem r)), h2]
    · exact ihl (fun j hj => hsub j (List.mem_append_left _ hj)) hl
    · exact ihr (fun j hj => hsub j (List.mem_append_right _ hj)) hr

/-- A context survives any state change that keeps the root handle, the
subject's parent pointer and every context slot. -/
theorem CtxOk_frame {s sp : DTree} (hroot : sp.root = s.root) :
    ∀ {ctx : List Crumb} {c : Int},
      (nd sp c).parentOrNext = (nd s c).parentOrNext →
      (∀ j ∈ ctxIdxs ctx, nd sp j = nd s j) →
      CtxOk s c ctx → CtxOk sp c ctx := by
  intro ctx
  induction ctx with
  | nil =>
    intro c hc hk
    intro h
    exact ⟨hroot.trans h.1, hc.trans h.2⟩
  | cons cr ctx ih =>
    intro c hc h hk
    obtain ⟨k0, k1, k2, k3, k4, k5, k6⟩ := hk
    have hpmem : cr.p ∈ ctxIdxs (cr :: ctx) := by
      simp [ctxIdxs]
    have homem : cr.other.rootIdx ∈ ctxIdxs (cr :: ctx) := by
      simp only [ctxIdxs, List.flatMap_cons, List.mem_append, List.mem_cons]
      left
      right
      exact rootIdx_mem cr.other
    have hsub : ∀ j ∈ cr.other.idxs, nd sp j = nd s j := by
      intro j hj
      refine h j ?_
      simp only [ctxIdxs, List.flatMap_cons, List.mem_append, List.mem_cons]
      left
      right
      exact hj
    have htail : ∀ j ∈ ctxIdxs ctx, nd sp j = nd s j := by
      intro j hj
      refine h j ?_
      simp only [ctxIdxs, List.flatMap_cons, List.mem_append]
      right
      exact hj
    refine ⟨k0, hc.trans k1, ?_, ?_, ?_, ?_, ?_⟩
    · rw [h cr.p hpmem]
      exact k2
    · rw [h cr.other.rootIdx homem]
      exact k3
    · exact Rep_frame (fun j hj => by rw [hsub j hj]; exact ⟨rfl, rfl, rfl, rfl⟩) k4
    · exact Par_frame2 (fun j hj => by rw [hsub j hj]) k5
    · exact ih (by rw [h cr.p hpmem]) htail k6

@[simp] theorem freeNode_root (s : DTree) (i : Int) : (freeNode s i).root = s.root := rfl

@[simp] theorem freeNode_freeList (s : DTree) (i : Int) : (freeNode s i).freeList = i := rfl

@[simp] theorem freeNode_nodeCapacity (s : DTree) (i : Int) :
    (freeNode s i).nodeCapacity = s.nodeCapacity := rfl

@[simp] theorem freeNode_nodeCount (s : DTree) (i : Int) :
    (freeNode s i).nodeCount = s.nodeCount - 1 := rfl

theorem freeNode_length (s : DTree) (i : Int) :
    (freeNode s i).nodes.length = s.nodes.length := by
  unfold freeNode
  rw [setCount_nodes, setFreeList_nodes, setNode_length]

theorem nd_freeNode_other (s : DTree) (i j : Int) (hj : j ≠ i) :
    nd (freeNode s i) j = nd s j := by
  unfold freeNode
  rw [nd_setCount, nd_setFreeList, nd_setNode_other _ _ _ _ hj]

theorem nd_freeNode_self (s : DTree) (i : Int) (h : inPool s i) :
    nd (freeNode s i) i = { nd s i with parentOrNext := s.freeList, height := -1 } := by
  unfold freeNode
  rw [nd_setCount, nd_setFreeList, nd_setNode_self _ _ _ h]

theorem freeNode_spec {s : DTree} {ot : Option TView} {fl ex : List Int} {i : Int}
    (hp : Pool s ot fl (i :: ex)) :
    Pool (freeNode s i) ot (i :: fl) ex := by
  obtain ⟨hlen, hcap, hroot, hbounds, hnodup, hfree, hfh, hcover, hcount, hlentot⟩ := hp
  obtain ⟨-, hn2, -, hd12, hd13, hd23⟩ := nodup_three hnodup
  have hib : 0 ≤ i ∧ i < s.nodeCapacity := by
    refine hbounds i ?_
    simp
  have hin : inPool s i := ⟨hib.1, by omega⟩
  have hifl : i ∉ fl := hd23 i (List.mem_cons_self _ _)
  have hit : i ∉ tidxs ot := fun hi => hd12 i hi (List.mem_cons_self _ _)
  refine ⟨by rw [freeNode_length]; simpa using hlen, hcap, ?_, ?_, ?_, ?_, ?_, ?_, ?_, ?_⟩
  · cases ot with
    | none => exact hroot
    | some t =>
      obtain ⟨hr1, hr2, hrep, hpar⟩ := hroot
      have htne : ∀ j ∈ t.idxs, j ≠ i := by
        intro j hj hji
        exact hit (hji ▸ hj)
      refine ⟨hr1, ?_, ?_, ?_⟩
      · rw [nd_freeNode_other _ _ _ (htne _ (rootIdx_mem t))]
        exact hr2
      · refine Rep_frame (fun j hj => ?_) hrep
        rw [nd_freeNode_other _ _ _ (htne j hj)]
        exact ⟨rfl, rfl, rfl, rfl⟩
      · refine Par_frame2 (fun j hj => ?_) hpar
        rw [nd_freeNode_other _ _ _ (htne j hj)]
  · intro a ha
    have hmem : a ∈ tidxs ot ++ (i :: ex) ++ fl := by
      simp only [List.mem_append, List.mem_cons] at ha ⊢
      tauto
    have := hbounds a hmem
    simpa using this
  · have hperm : (tidxs ot ++ (i :: ex) ++ fl).Perm (tidxs ot ++ ex ++ i :: fl) := by
      rw [List.append_assoc, List.append_assoc, List.cons_append]
      exact List.Perm.append_left _ List.perm_middle.symm
    exact hnodup.perm hperm
  · show FreeRep _ i (i :: fl)
    refine ⟨rfl, ?_⟩
    rw [nd_freeNode_self _ _ hin]
    show FreeRep _ s.freeList fl
    refine FreeRep_frame (fun j hj => ?_) hfree
    exact nd_freeNode_other s i j (fun hji => hifl (hji ▸ hj))
  · intro j hj
    rcases List.mem_cons.mp hj with rfl | hj2
    · rw [nd_freeNode_self _ _ hin]
    · rw [nd_freeNode_other s i j (fun hji => hifl (hji ▸ hj2))]
      exact hfh j hj2
  · intro a h1 h2
    simp only [freeNode_nodeCapacity] at h2
    have := hcover a h1 h2
    simp only [List.mem_append, List.mem_cons] at this ⊢
    tauto
  · simp only [freeNode_nodeCount, List.length_cons] at hcount ⊢
    push_cast at hcount ⊢
    omega
  · simp only [List.length_cons, freeNode_nodeCapacity] at hlentot ⊢
    push_cast at hlentot ⊢
    omega

theorem Pool_bump {s : DTree} {ot : Option TView} {fl ex : List Int}
    (hp : Pool s ot fl ex) : Pool (bumpInsertions s) ot fl ex := by
  obtain ⟨hlen, hcap, hroot, hbounds, hnodup, hfree, hfh, hcover, hcount, hlentot⟩ := hp
  refine ⟨hlen, hcap, ?_, hbounds, hnodup, ?_, hfh, hcover, hcount, hlentot⟩
  · cases ot with
    | none => exact hroot
    | some t =>
      obtain ⟨hr1, hr2, hrep, hpar⟩ := hroot
      exact ⟨hr1, hr2, @Rep_frame s (bumpInsertions s) t (fun j _ => ⟨rfl, rfl, rfl, rfl⟩) hrep,
        @Par_frame2 s (bumpInsertions s) t (fun j _ => rfl) hpar⟩
  · exact @FreeRep_frame s (bumpInsertions s) fl (fun j _ => rfl) s.freeList hfree



theorem idxs_node (i : Int) (l r : TView) :
    (TView.node i l r).idxs = i :: (l.idxs ++ r.idxs) := rfl

theorem ctxIdxs_cons (cr : Crumb) (ctx : List Crumb) :
    ctxIdxs (cr :: ctx) = cr.p :: (cr.other.idxs ++ ctxIdxs ctx) := by
  simp [ctxIdxs]

theorem idxs_len_pos (t : TView) : 1 ≤ t.idxs.length := by
  cases t <;> simp [TView.idxs]

theorem Rep_not_isLeaf {s : DTree} {i : Int} {l r : TView}
    (hR : Rep s (.node i l r)) : ¬ (nd s i).IsLeaf := by
  obtain ⟨-, hc1, -, -, -, hRl, -⟩ := hR
  unfold TreeNode.IsLeaf nullNode
  rw [hc1]
  have := Rep_rootIdx_nonneg hRl
  omega

/-- The sibling-search descent: starting from a represented subtree it
lands on a represented subtree in an extended context, preserving the
handle partition. -/
theorem siblingSearch_spec (s : DTree) (aabb : Rect) :
    ∀ (t : TView) (ctx : List Crumb) (fuel : Nat),
      Rep s t → Par s t → CtxOk s t.rootIdx ctx → t.idxs.length ≤ fuel →
      ∃ (u : TView) (ctx2 : List Crumb),
        siblingSearch s aabb fuel t.rootIdx = u.rootIdx ∧
        Rep s u ∧ Par s u ∧ CtxOk s u.rootIdx ctx2 ∧
        (u.idxs ++ ctxIdxs ctx2).Perm (t.idxs ++ ctxIdxs ctx) := by
  intro t
  induction t with
  | leaf i =>
    intro ctx fuel hR hP hC hf
    cases fuel with
    | zero =>
      simp [TView.idxs] at hf
    | succ f =>
      refine ⟨.leaf i, ctx, ?_, hR, hP, hC, List.Perm.refl _⟩
      show (if (nd s i).IsLeaf then i else _) = i
      rw [if_pos (show (nd s i).IsLeaf from hR.2.1)]
  | node i l r ihl ihr =>
    intro ctx fuel hR hP hC hf
    have hRn := hR
    obtain ⟨h0, hc1, hc2, hh, ha, hRl, hRr⟩ := hR
    obtain ⟨hpl, hpr, hPl, hPr⟩ := hP
    have hll := idxs_len_pos l
    have hrl := idxs_len_pos r
    have hlen : (TView.node i l r).idxs.length = 1 + l.idxs.length + r.idxs.length := by
      simp [TView.idxs]
      omega
    cases fuel with
    | zero => omega
    | succ f =>
      rw [show (TView.node i l r).rootIdx = i from rfl]
      show ∃ u ctx2, (if (nd s i).IsLeaf then i else _) = u.rootIdx ∧ _
      rw [if_neg (Rep_not_isLeaf hRn)]
      obtain ⟨c, c1, c2, hic⟩ : ∃ c c1 c2, insertCosts s aabb i = (c, c1, c2) :=
        ⟨_, _, _, rfl⟩
      rw [hic]
      dsimp only
      by_cases hstop : c < c1 ∧ c < c2
      · rw [if_pos hstop]
        exact ⟨.node i l r, ctx, rfl, hRn, ⟨hpl, hpr, hPl, hPr⟩, hC, List.Perm.refl _⟩
      · rw [if_neg hstop]
        by_cases hdir : c1 < c2
        · rw [if_pos hdir, hc1]
          have hC' : CtxOk s l.rootIdx (Crumb.mk i true r :: ctx) := by
            refine ⟨h0, hpl, ?_, hpr, hRr, hPr, hC⟩
            show if true = true then _ ∧ _ else _ ∧ _
            rw [if_pos rfl]
            exact ⟨hc1, hc2⟩
          obtain ⟨u, ctx2, he, hu1, hu2, hu3, hperm⟩ :=
            ihl (Crumb.mk i true r :: ctx) f hRl hPl hC' (by omega)
          refine ⟨u, ctx2, he, hu1, hu2, hu3, ?_⟩
          refine hperm.trans ?_
          rw [ctxIdxs_cons, idxs_node]
          show (l.idxs ++ i :: (r.idxs ++ ctxIdxs ctx)).Perm _
          refine List.perm_middle.trans ?_
          rw [List.cons_append, List.append_assoc]
        · rw [if_neg hdir, hc2]
          have hC' : CtxOk s r.rootIdx (Crumb.mk i false l :: ctx) := by
            refine ⟨h0, hpr, ?_, hpl, hRl, hPl, hC⟩
            show if false = true then _ ∧ _ else _ ∧ _
            rw [if_neg (by simp)]
            exact ⟨hc1, hc2⟩
          obtain ⟨u, ctx2, he, hu1, hu2, hu3, hperm⟩ :=
            ihr (Crumb.mk i false l :: ctx) f hRr hPr hC' (by omega)
          refine ⟨u, ctx2, he, hu1, hu2, hu3, ?_⟩
          refine hperm.trans ?_
          rw [ctxIdxs_cons, idxs_node]
          show (r.idxs ++ i :: (l.idxs ++ ctxIdxs ctx)).Perm _
          refine List.perm_middle.trans ?_
          rw [List.cons_append, List.append_assoc]
          refine List.Perm.cons _ ?_
          rw [← List.append_assoc, ← List.append_assoc]
          exact List.Perm.append_right _ List.perm_append_comm

/-- A stored leaf handle inside a represented subtree is a leaf of the
shape; it can be split off with its context. -/
theorem leafDecomp (s : DTree) :
    ∀ (t : TView) (ctx : List Crumb) (lf : Int),
      Rep s t → Par s t → CtxOk s t.rootIdx ctx → lf ∈ t.idxs →
      (nd s lf).child1 = nullNode →
      ∃ ctx2, Rep s (.leaf lf) ∧ CtxOk s lf ctx2 ∧
        (lf :: ctxIdxs ctx2).Perm (t.idxs ++ ctxIdxs ctx) := by
  intro t
  induction t with
  | leaf i =>
    intro ctx lf hR hP hC hmem hlf
    have : lf = i := by simpa [TView.idxs] using hmem
    subst this
    exact ⟨ctx, hR, hC, List.Perm.refl _⟩
  | node i l r ihl ihr =>
    intro ctx lf hR hP hC hmem hlf
    have hRn := hR
    obtain ⟨h0, hc1, hc2, hh, ha, hRl, hRr⟩ := hR
    obtain ⟨hpl, hpr, hPl, hPr⟩ := hP
    rw [idxs_node, List.mem_cons, List.mem_append] at hmem
    rcases hmem with rfl | hmem | hmem
    · exfalso
      exact Rep_not_isLeaf hRn hlf
    · have hC' : CtxOk s l.rootIdx (Crumb.mk i true r :: ctx) := by
        refine ⟨h0, hpl, ?_, hpr, hRr, hPr, hC⟩
        show if true = true then _ ∧ _ else _ ∧ _
        rw [if_pos rfl]
        exact ⟨hc1, hc2⟩
      obtain ⟨ctx2, hu1, hu2, hperm⟩ := ihl (Crumb.mk i true r :: ctx) lf hRl hPl hC' hmem hlf
      refine ⟨ctx2, hu1, hu2, ?_⟩
      refine hperm.trans ?_
      rw [ctxIdxs_cons, idxs_node]
      show (l.idxs ++ i :: (r.idxs ++ ctxIdxs ctx)).Perm _
      refine List.perm_middle.trans ?_
      rw [List.cons_append, List.append_assoc]
    · have hC' : CtxOk s r.rootIdx (Crumb.mk i false l :: ctx) := by
        refine ⟨h0, hpr, ?_, hpl, hRl, hPl, hC⟩
        show if false = true then _ ∧ _ else _ ∧ _
        rw [if_neg (by simp)]
        exact ⟨hc1, hc2⟩
      obtain ⟨ctx2, hu1, hu2, hperm⟩ := ihr (Crumb.mk i false l :: ctx) lf hRr hPr hC' hmem hlf
      refine ⟨ctx2, hu1, hu2, ?_⟩
      refine hperm.trans ?_
      rw [ctxIdxs_cons, idxs_node]
      show (r.idxs ++ i :: (l.idxs ++ ctxIdxs ctx)).Perm _
      refine List.perm_middle.trans ?_
      rw [List.cons_append, List.append_assoc]
      refine List.Perm.cons _ ?_
      rw [← List.append_assoc, ← List.append_assoc]
      exact List.Perm.append_right _ List.perm_append_comm



theorem rotC_key_nil_T {s : DTree} {iA iC : Int} {l f g : TView}
    (hc1 : (nd s iA).child1 = l.rootIdx)
    (hc2 : (nd s iA).child2 = iC)
    (hcC1 : (nd s iC).child1 = f.rootIdx)
    (hcC2 : (nd s iC).child2 = g.rootIdx)
    (hpa : (nd s iA).parentOrNext = nullNode)
    (hAin : inPool s iA) (hBin : inPool s l.rootIdx) (hCin : inPool s iC)
    (hFin : inPool s f.rootIdx) (hGin : inPool s g.rootIdx)
    (hAB : iA ≠ l.rootIdx) (hAC : iA ≠ iC) (hAF : iA ≠ f.rootIdx) (hAG : iA ≠ g.rootIdx)
    (hCB : iC ≠ l.rootIdx) (hCF : iC ≠ f.rootIdx) (hCG : iC ≠ g.rootIdx)
    (hBF : l.rootIdx ≠ f.rootIdx) (hBG : l.rootIdx ≠ g.rootIdx)
    (hFG : f.rootIdx ≠ g.rootIdx)
    (hgate : ¬ ((nd s iA).IsLeaf ∨ (nd s iA).height < 2))
    (hbal : 1 < (nd s iC).height - (nd s l.rootIdx).height)
    (hGF : (nd s g.rootIdx).height < (nd s f.rootIdx).height) :
    (balance s iA).2 = iC ∧
    nd (balance s iA).1 iA = { nd s iA with
      parentOrNext := iC
      child2 := g.rootIdx
      aabb := ((nd s l.rootIdx).aabb).combine ((nd s g.rootIdx).aabb)
      height := 1 + max (nd s l.rootIdx).height (nd s g.rootIdx).height } ∧
    nd (balance s iA).1 iC = { nd s iC with
      parentOrNext := nullNode
      child1 := iA
      child2 := f.rootIdx
      aabb := (((nd s l.rootIdx).aabb).combine ((nd s g.rootIdx).aabb)).combine
        ((nd s f.rootIdx).aabb)
      height := 1 + max (1 + max (nd s l.rootIdx).height (nd s g.rootIdx).height)
        ((nd s f.rootIdx).height) } ∧
    nd (balance s iA).1 g.rootIdx = { nd s g.rootIdx with parentOrNext := iA } ∧
    (balance s iA).1.root = iC ∧
    (balance s iA).1.freeList = s.freeList ∧
    (balance s iA).1.nodeCount = s.nodeCount ∧
    (balance s iA).1.nodeCapacity = s.nodeCapacity ∧
    (balance s iA).1.nodes.length = s.nodes.length := by
  unfold balance
  rw [if_neg hgate]
  dsimp only
  simp only [hc1, hc2, hcC1, hcC2]
  rw [if_pos hbal]
  simp only [nd_setNode_self, nd_setNode_other, inPool_setNode, nd_setRoot, inPool_setRoot,
    setNode_root, setRoot_root, setNode_freeList, setRoot_freeList, setNode_nodeCount,
    setRoot_nodeCount, setNode_nodeCapacity, setRoot_nodeCapacity, setNode_length,
    setRoot_nodes,
    hAin, hBin, hCin, hFin, hGin,
    hc1, hc2, hcC1, hcC2, hpa,
    hAB, hAC, hAF, hAG, hCB, hCF, hCG, hBF, hBG, hFG,
    Ne.symm hAB, Ne.symm hAC, Ne.symm hAF, Ne.symm hAG, Ne.symm hCB, Ne.symm hCF,
    Ne.symm hCG, Ne.symm hBF, Ne.symm hBG, Ne.symm hFG,
    hGF,
    eq_self_iff_true, ne_eq, not_true, not_false_iff, ite_true, ite_false, and_true,
    true_and]

theorem rotC_frame_nil_T {s : DTree} {iA iC : Int} {l f g : TView}
    (hc1 : (nd s iA).child1 = l.rootIdx)
    (hc2 : (nd s iA).child2 = iC)
    (hcC1 : (nd s iC).child1 = f.rootIdx)
    (hcC2 : (nd s iC).child2 = g.rootIdx)
    (hpa : (nd s iA).parentOrNext = nullNode)
    (hAin : inPool s iA) (hBin : inPool s l.rootIdx) (hCin : inPool s iC)
    (hFin : inPool s f.rootIdx) (hGin : inPool s g.rootIdx)
    (hAB : iA ≠ l.rootIdx) (hAC : iA ≠ iC) (hAF : iA ≠ f.rootIdx) (hAG : iA ≠ g.rootIdx)
    (hCB : iC ≠ l.rootIdx) (hCF : iC ≠ f.rootIdx) (hCG : iC ≠ g.rootIdx)
    (hBF : l.rootIdx ≠ f.rootIdx) (hBG : l.rootIdx ≠ g.rootIdx)
    (hFG : f.rootIdx ≠ g.rootIdx)
    (hgate : ¬ ((nd s iA).IsLeaf ∨ (nd s iA).height < 2))
    (hbal : 1 < (nd s iC).height - (nd s l.rootIdx).height)
    (hGF : (nd s g.rootIdx).height < (nd s f.rootIdx).height)
    (j : Int) (n1 : j ≠ iA) (n2 : j ≠ iC) (n3 : j ≠ g.rootIdx) :
    nd (balance s iA).1 j = nd s j := by
  unfold balance
  rw [if_neg hgate]
  dsimp only
  simp only [hc1, hc2, hcC1, hcC2]
  rw [if_pos hbal]
  simp only [nd_setNode_self, nd_setNode_other, inPool_setNode, nd_setRoot, inPool_setRoot,
    setNode_root, setRoot_root, setNode_freeList, setRoot_freeList, setNode_nodeCount,
    setRoot_nodeCount, setNode_nodeCapacity, setRoot_nodeCapacity, setNode_length,
    setRoot_nodes,
    hAin, hBin, hCin, hFin, hGin,
    hc1, hc2, hcC1, hcC2, hpa,
    hAB, hAC, hAF, hAG, hCB, hCF, hCG, hBF, hBG, hFG,
    Ne.symm hAB, Ne.symm hAC, Ne.symm hAF, Ne.symm hAG, Ne.symm hCB, Ne.symm hCF,
    Ne.symm hCG, Ne.symm hBF, Ne.symm hBG, Ne.symm hFG,
    hGF,
    eq_self_iff_true, ne_eq, not_true, not_false_iff, ite_true, ite_false, and_true,
    true_and,
    n1, n2, n3, Ne.symm n1, Ne.symm n2, Ne.symm n3]

theorem rotC_key_nil_F {s : DTree} {iA iC : Int} {l f g : TView}
    (hc1 : (nd s iA).child1 = l.rootIdx)
    (hc2 : (nd s iA).child2 = iC)
    (hcC1 : (nd s iC).child1 = f.rootIdx)
    (hcC2 : (nd s iC).child2 = g.rootIdx)
    (hpa : (nd s iA).parentOrNext = nullNode)
    (hAin : inPool s iA) (hBin : inPool s l.rootIdx) (hCin : inPool s iC)
    (hFin : inPool s f.rootIdx) (hGin : inPool s g.rootIdx)
    (hAB : iA ≠ l.rootIdx) (hAC : iA ≠ iC) (hAF : iA ≠ f.rootIdx) (hAG : iA ≠ g.rootIdx)
    (hCB : iC ≠ l.rootIdx) (hCF : iC ≠ f.rootIdx) (hCG : iC ≠ g.rootIdx)
    (hBF : l.rootIdx ≠ f.rootIdx) (hBG : l.rootIdx ≠ g.rootIdx)
    (hFG : f.rootIdx ≠ g.rootIdx)
    (hgate : ¬ ((nd s iA).IsLeaf ∨ (nd s iA).height < 2))
    (hbal : 1 < (nd s iC).height - (nd s l.rootIdx).height)
    (hGF : ¬ (nd s g.rootIdx).height < (nd s f.rootIdx).height) :
    (balance s iA).2 = iC ∧
    nd (balance s iA).1 iA = { nd s iA with
      parentOrNext := iC
      child2 := f.rootIdx
      aabb := ((nd s l.rootIdx).aabb).combine ((nd s f.rootIdx).aabb)
      height := 1 + max (nd s l.rootIdx).height (nd s f.rootIdx).height } ∧
    nd (balance s iA).1 iC = { nd s iC with
      parentOrNext := nullNode
      child1 := iA
      child2 := g.rootIdx
      aabb := (((nd s l.rootIdx).aabb).combine ((nd s f.rootIdx).aabb)).combine
        ((nd s g.rootIdx).aabb)
      height := 1 + max (1 + max (nd s l.rootIdx).height (nd s f.rootIdx).height)
        ((nd s g.rootIdx).height) } ∧
    nd (balance s iA).1 f.rootIdx = { nd s f.rootIdx with parentOrNext := iA } ∧
    (balance s iA).1.root = iC ∧
    (balance s iA).1.freeList = s.freeList ∧
    (balance s iA).1.nodeCount = s.nodeCount ∧
    (balance s iA).1.nodeCapacity = s.nodeCapacity ∧
    (balance s iA).1.nodes.length = s.nodes.length := by
  unfold balance
  rw [if_neg hgate]
  dsimp only
  simp only [hc1, hc2, hcC1, hcC2]
  rw [if_pos hbal]
  simp only [nd_setNode_self, nd_setNode_other, inPool_setNode, nd_setRoot, inPool_setRoot,
    setNode_root, setRoot_root, setNode_freeList, setRoot_freeList, setNode_nodeCount,
    setRoot_nodeCount, setNode_nodeCapacity, setRoot_nodeCapacity, setNode_length,
    setRoot_nodes,
    hAin, hBin, hCin, hFin, hGin,
    hc1, hc2, hcC1, hcC2, hpa,
    hAB, hAC, hAF, hAG, hCB, hCF, hCG, hBF, hBG, hFG,
    Ne.symm hAB, Ne.symm hAC, Ne.symm hAF, Ne.symm hAG, Ne.symm hCB, Ne.symm hCF,
    Ne.symm hCG, Ne.symm hBF, Ne.symm hBG, Ne.symm hFG,
    hGF,
    eq_self_iff_true, ne_eq, not_true, not_false_iff, ite_true, ite_false, and_true,
    true_and]

theorem rotC_frame_nil_F {s : DTree} {iA iC : Int} {l f g : TView}
    (hc1 : (nd s iA).child1 = l.rootIdx)
    (hc2 : (nd s iA).child2 = iC)
    (hcC1 : (nd s iC).child1 = f.rootIdx)
    (hcC2 : (nd s iC).child2 = g.rootIdx)
    (hpa : (nd s iA).parentOrNext = nullNode)
    (hAin : inPool s iA) (hBin : inPool s l.rootIdx) (hCin : inPool s iC)
    (hFin : inPool s f.rootIdx) (hGin : inPool s g.rootIdx)
    (hAB : iA ≠ l.rootIdx) (hAC : iA ≠ iC) (hAF : iA ≠ f.rootIdx) (hAG : iA ≠ g.rootIdx)
    (hCB : iC ≠ l.rootIdx) (hCF : iC ≠ f.rootIdx) (hCG : iC ≠ g.rootIdx)
    (hBF : l.rootIdx ≠ f.rootIdx) (hBG : l.rootIdx ≠ g.rootIdx)
    (hFG : f.rootIdx ≠ g.rootIdx)
    (hgate : ¬ ((nd s iA).IsLeaf ∨ (nd s iA).height < 2))
    (hbal : 1 < (nd s iC).height - (nd s l.rootIdx).height)
    (hGF : ¬ (nd s g.rootIdx).height < (nd s f.rootIdx).height)
    (j : Int) (n1 : j ≠ iA) (n2 : j ≠ iC) (n3 : j ≠ f.rootIdx) :
    nd (balance s iA).1 j = nd s j := by
  unfold balance
  rw [if_neg hgate]
  dsimp only
  simp only [hc1, hc2, hcC1, hcC2]
  rw [if_pos hbal]
  simp only [nd_setNode_self, nd_setNode_other, inPool_setNode, nd_setRoot, inPool_setRoot,
    setNode_root, setRoot_root, setNode_freeList, setRoot_freeList, setNode_nodeCount,
    setRoot_nodeCount, setNode_nodeCapacity, setRoot_nodeCapacity, setNode_length,
    setRoot_nodes,
    hAin, hBin, hCin, hFin, hGin,
    hc1, hc2, hcC1, hcC2, hpa,
    hAB, hAC, hAF, hAG, hCB, hCF, hCG, hBF, hBG, hFG,
    Ne.symm hAB, Ne.symm hAC, Ne.symm hAF, Ne.symm hAG, Ne.symm hCB, Ne.symm hCF,
    Ne.symm hCG, Ne.symm hBF, Ne.symm hBG, Ne.symm hFG,
    hGF,
    eq_self_iff_true, ne_eq, not_true, not_false_iff, ite_true, ite_false, and_true,
    true_and,
    n1, n2, n3, Ne.symm n1, Ne.symm n2, Ne.symm n3]

theorem rotC_key_cons_T_T {s : DTree} {iA iC P : Int} {l f g : TView}
    (hc1 : (nd s iA).child1 = l.rootIdx)
    (hc2 : (nd s iA).child2 = iC)
    (hcC1 : (nd s iC).child1 = f.rootIdx)
    (hcC2 : (nd s iC).child2 = g.rootIdx)
    (hpa : (nd s iA).parentOrNext = P)
    (hPnn : ¬ P = nullNode)
    (hPin : inPool s P)
    (hPA : P ≠ iA) (hPB : P ≠ l.rootIdx) (hPC : P ≠ iC)
    (hPF : P ≠ f.rootIdx) (hPG : P ≠ g.rootIdx)
    (htest : (nd s P).child1 = iA)
    (hAin : inPool s iA) (hBin : inPool s l.rootIdx) (hCin : inPool s iC)
    (hFin : inPool s f.rootIdx) (hGin : inPool s g.rootIdx)
    (hAB : iA ≠ l.rootIdx) (hAC : iA ≠ iC) (hAF : iA ≠ f.rootIdx) (hAG : iA ≠ g.rootIdx)
    (hCB : iC ≠ l.rootIdx) (hCF : iC ≠ f.rootIdx) (hCG : iC ≠ g.rootIdx)
    (hBF : l.rootIdx ≠ f.rootIdx) (hBG : l.rootIdx ≠ g.rootIdx)
    (hFG : f.rootIdx ≠ g.rootIdx)
    (hgate : ¬ ((nd s iA).IsLeaf ∨ (nd s iA).height < 2))
    (hbal : 1 < (nd s iC).height - (nd s l.rootIdx).height)
    (hGF : (nd s g.rootIdx).height < (nd s f.rootIdx).height) :
    (balance s iA).2 = iC ∧
    nd (balance s iA).1 iA = { nd s iA with
      parentOrNext := iC
      child2 := g.rootIdx
      aabb := ((nd s l.rootIdx).aabb).combine ((nd s g.rootIdx).aabb)
      height := 1 + max (nd s l.rootIdx).height (nd s g.rootIdx).height } ∧
    nd (balance s iA).1 iC = { nd s iC with
      parentOrNext := P
      child1 := iA
      child2 := f.rootIdx
      aabb := (((nd s l.rootIdx).aabb).combine ((nd s g.rootIdx).aabb)).combine
        ((nd s f.rootIdx).aabb)
      height := 1 + max (1 + max (nd s l.rootIdx).height (nd s g.rootIdx).height)
        ((nd s f.rootIdx).height) } ∧
    nd (balance s iA).1 g.rootIdx = { nd s g.rootIdx with parentOrNext := iA } ∧
    (balance s iA).1.root = s.root ∧
    nd (balance s iA).1 P = { nd s P with child1 := iC } ∧
    (balance s iA).1.freeList = s.freeList ∧
    (balance s iA).1.nodeCount = s.nodeCount ∧
    (balance s iA).1.nodeCapacity = s.nodeCapacity ∧
    (balance s iA).1.nodes.length = s.nodes.length := by
  unfold balance
  rw [if_neg hgate]
  dsimp only
  simp only [hc1, hc2, hcC1, hcC2]
  rw [if_pos hbal]
  simp only [nd_setNode_self, nd_setNode_other, inPool_setNode, nd_setRoot, inPool_setRoot,
    setNode_root, setRoot_root, setNode_freeList, setRoot_freeList, setNode_nodeCount,
    setRoot_nodeCount, setNode_nodeCapacity, setRoot_nodeCapacity, setNode_length,
    setRoot_nodes,
    hAin, hBin, hCin, hFin, hGin,
    hc1, hc2, hcC1, hcC2, hpa,
    hPnn, htest, hPA, hPB, hPC, hPF, hPG,
    Ne.symm hPA, Ne.symm hPB, Ne.symm hPC, Ne.symm hPF, Ne.symm hPG, hPin,
    hAB, hAC, hAF, hAG, hCB, hCF, hCG, hBF, hBG, hFG,
    Ne.symm hAB, Ne.symm hAC, Ne.symm hAF, Ne.symm hAG, Ne.symm hCB, Ne.symm hCF,
    Ne.symm hCG, Ne.symm hBF, Ne.symm hBG, Ne.symm hFG,
    hGF,
    eq_self_iff_true, ne_eq, not_true, not_false_iff, ite_true, ite_false, and_true,
    true_and]

theorem rotC_frame_cons_T_T {s : DTree} {iA iC P : Int} {l f g : TView}
    (hc1 : (nd s iA).child1 = l.rootIdx)
    (hc2 : (nd s iA).child2 = iC)
    (hcC1 : (nd s iC).child1 = f.rootIdx)
    (hcC2 : (nd s iC).child2 = g.rootIdx)
    (hpa : (nd s iA).parentOrNext = P)
    (hPnn : ¬ P = nullNode)
    (hPin : inPool s P)
    (hPA : P ≠ iA) (hPB : P ≠ l.rootIdx) (hPC : P ≠ iC)
    (hPF : P ≠ f.rootIdx) (hPG : P ≠ g.rootIdx)
    (htest : (nd s P).child1 = iA)
    (hAin : inPool s iA) (hBin : inPool s l.rootIdx) (hCin : inPool s iC)
    (hFin : inPool s f.rootIdx) (hGin : inPool s g.rootIdx)
    (hAB : iA ≠ l.rootIdx) (hAC : iA ≠ iC) (hAF : iA ≠ f.rootIdx) (hAG : iA ≠ g.rootIdx)
    (hCB : iC ≠ l.rootIdx) (hCF : iC ≠ f.rootIdx) (hCG : iC ≠ g.rootIdx)
    (hBF : l.rootIdx ≠ f.rootIdx) (hBG : l.rootIdx ≠ g.rootIdx)
    (hFG : f.rootIdx ≠ g.rootIdx)
    (hgate : ¬ ((nd s iA).IsLeaf ∨ (nd s iA).height < 2))
    (hbal : 1 < (nd s iC).height - (nd s l.rootIdx).height)
    (hGF : (nd s g.rootIdx).height < (nd s f.rootIdx).height)
    (j : Int) (n1 : j ≠ iA) (n2 : j ≠ iC) (n3 : j ≠ g.rootIdx) (nP : j ≠ P) :
    nd (balance s iA).1 j = nd s j := by
  unfold balance
  rw [if_neg hgate]
  dsimp only
  simp only [hc1, hc2, hcC1, hcC2]
  rw [if_pos hbal]
  simp only [nd_setNode_self, nd_setNode_other, inPool_setNode, nd_setRoot, inPool_setRoot,
    setNode_root, setRoot_root, setNode_freeList, setRoot_freeList, setNode_nodeCount,
    setRoot_nodeCount, setNode_nodeCapacity, setRoot_nodeCapacity, setNode_length,
    setRoot_nodes,
    hAin, hBin, hCin, hFin, hGin,
    hc1, hc2, hcC1, hcC2, hpa,
    hPnn, htest, hPA, hPB, hPC, hPF, hPG,
    Ne.symm hPA, Ne.symm hPB, Ne.symm hPC, Ne.symm hPF, Ne.symm hPG, hPin,
    hAB, hAC, hAF, hAG, hCB, hCF, hCG, hBF, hBG, hFG,
    Ne.symm hAB, Ne.symm hAC, Ne.symm hAF, Ne.symm hAG, Ne.symm hCB, Ne.symm hCF,
    Ne.symm hCG, Ne.symm hBF, Ne.symm hBG, Ne.symm hFG,
    hGF,
    eq_self_iff_true, ne_eq, not_true, not_false_iff, ite_true, ite_false, and_true,
    true_and,
    n1, n2, n3, Ne.symm n1, Ne.symm n2, Ne.symm n3, nP, Ne.symm nP]

theorem rotC_key_cons_T_F {s : DTree} {iA iC P : Int} {l f g : TView}
    (hc1 : (nd s iA).child1 = l.rootIdx)
    (hc2 : (nd s iA).child2 = iC)
    (hcC1 : (nd s iC).child1 = f.rootIdx)
    (hcC2 : (nd s iC).child2 = g.rootIdx)
    (hpa : (nd s iA).parentOrNext = P)
    (hPnn : ¬ P = nullNode)
    (hPin : inPool s P)
    (hPA : P ≠ iA) (hPB : P ≠ l.rootIdx) (hPC : P ≠ iC)
    (hPF : P ≠ f.rootIdx) (hPG : P ≠ g.rootIdx)
    (htest : ¬ (nd s P).child1 = iA)
    (hAin : inPool s iA) (hBin : inPool s l.rootIdx) (hCin : inPool s iC)
    (hFin : inPool s f.rootIdx) (hGin : inPool s g.rootIdx)
    (hAB : iA ≠ l.rootIdx) (hAC : iA ≠ iC) (hAF : iA ≠ f.rootIdx) (hAG : iA ≠ g.rootIdx)
    (hCB : iC ≠ l.rootIdx) (hCF : iC ≠ f.rootIdx) (hCG : iC ≠ g.rootIdx)
    (hBF : l.rootIdx ≠ f.rootIdx) (hBG : l.rootIdx ≠ g.rootIdx)
    (hFG : f.rootIdx ≠ g.rootIdx)
    (hgate : ¬ ((nd s iA).IsLeaf ∨ (nd s iA).height < 2))
    (hbal : 1 < (nd s iC).height - (nd s l.rootIdx).height)
    (hGF : (nd s g.rootIdx).height < (nd s f.rootIdx).height) :
    (balance s iA).2 = iC ∧
    nd (balance s iA).1 iA = { nd s iA with
      parentOrNext := iC
      child2 := g.rootIdx
      aabb := ((nd s l.rootIdx).aabb).combine ((nd s g.rootIdx).aabb)
      height := 1 + max (nd s l.rootIdx).height (nd s g.rootIdx).height } ∧
    nd (balance s iA).1 iC = { nd s iC with
      parentOrNext := P
      child1 := iA
      child2 := f.rootIdx
      aabb := (((nd s l.rootIdx).aabb).combine ((nd s g.rootIdx).aabb)).combine
        ((nd s f.rootIdx).aabb)
      height := 1 + max (1 + max (nd s l.rootIdx).height (nd s g.rootIdx).height)
        ((nd s f.rootIdx).height) } ∧
    nd (balance s iA).1 g.rootIdx = { nd s g.rootIdx with parentOrNext := iA } ∧
    (balance s iA).1.root = s.root ∧
    nd (balance s iA).1 P = { nd s P with child2 := iC } ∧
    (balance s iA).1.freeList = s.freeList ∧
    (balance s iA).1.nodeCount = s.nodeCount ∧
    (balance s iA).1.nodeCapacity = s.nodeCapacity ∧
    (balance s iA).1.nodes.length = s.nodes.length := by
  unfold balance
  rw [if_neg hgate]
  dsimp only
  simp only [hc1, hc2, hcC1, hcC2]
  rw [if_pos hbal]
  simp only [nd_setNode_self, nd_setNode_other, inPool_setNode, nd_setRoot, inPool_setRoot,
    setNode_root, setRoot_root, setNode_freeList, setRoot_freeList, setNode_nodeCount,
    setRoot_nodeCount, setNode_nodeCapacity, setRoot_nodeCapacity, setNode_length,
    setRoot_nodes,
    hAin, hBin, hCin, hFin, hGin,
    hc1, hc2, hcC1, hcC2, hpa,
    hPnn, htest, hPA, hPB, hPC, hPF, hPG,
    Ne.symm hPA, Ne.symm hPB, Ne.symm hPC, Ne.symm hPF, Ne.symm hPG, hPin,
    hAB, hAC, hAF, hAG, hCB, hCF, hCG, hBF, hBG, hFG,
    Ne.symm hAB, Ne.symm hAC, Ne.symm hAF, Ne.symm hAG, Ne.symm hCB, Ne.symm hCF,
    Ne.symm hCG, Ne.symm hBF, Ne.symm hBG, Ne.symm hFG,
    hGF,
    eq_self_iff_true, ne_eq, not_true, not_false_iff, ite_true, ite_false, and_true,
    true_and]

theorem rotC_frame_cons_T_F {s : DTree} {iA iC P : Int} {l f g : TView}
    (hc1 : (nd s iA).child1 = l.rootIdx)
    (hc2 : (nd s iA).child2 = iC)
    (hcC1 : (nd s iC).child1 = f.rootIdx)
    (hcC2 : (nd s iC).child2 = g.rootIdx)
    (hpa : (nd s iA).parentOrNext = P)
    (hPnn : ¬ P = nullNode)
    (hPin : inPool s P)
    (hPA : P ≠ iA) (hPB : P ≠ l.rootIdx) (hPC : P ≠ iC)
    (hPF : P ≠ f.rootIdx) (hPG : P ≠ g.rootIdx)
    (htest : ¬ (nd s P).child1 = iA)
    (hAin : inPool s iA) (hBin : inPool s l.rootIdx) (hCin : inPool s iC)
    (hFin : inPool s f.rootIdx) (hGin : inPool s g.rootIdx)
    (hAB : iA ≠ l.rootIdx) (hAC : iA ≠ iC) (hAF : iA ≠ f.rootIdx) (hAG : iA ≠ g.rootIdx)
    (hCB : iC ≠ l.rootIdx) (hCF : iC ≠ f.rootIdx) (hCG : iC ≠ g.rootIdx)
    (hBF : l.rootIdx ≠ f.rootIdx) (hBG : l.rootIdx ≠ g.rootIdx)
    (hFG : f.rootIdx ≠ g.rootIdx)
    (hgate : ¬ ((nd s iA).IsLeaf ∨ (nd s iA).height < 2))
    (hbal : 1 < (nd s iC).height - (nd s l.rootIdx).height)
    (hGF : (nd s g.rootIdx).height < (nd s f.rootIdx).height)
    (j : Int) (n1 : j ≠ iA) (n2 : j ≠ iC) (n3 : j ≠ g.rootIdx) (nP : j ≠ P) :
    nd (balance s iA).1 j = nd s j := by
  unfold balance
  rw [if_neg hgate]
  dsimp only
  simp only [hc1, hc2, hcC1, hcC2]
  rw [if_pos hbal]
  simp only [nd_setNode_self, nd_setNode_other, inPool_setNode, nd_setRoot, inPool_setRoot,
    setNode_root, setRoot_root, setNode_freeList, setRoot_freeList, setNode_nodeCount,
    setRoot_nodeCount, setNode_nodeCapacity, setRoot_nodeCapacity, setNode_length,
    setRoot_nodes,
    hAin, hBin, hCin, hFin, hGin,
    hc1, hc2, hcC1, hcC2, hpa,
    hPnn, htest, hPA, hPB, hPC, hPF, hPG,
    Ne.symm hPA, Ne.symm hPB, Ne.symm hPC, Ne.symm hPF, Ne.symm hPG, hPin,
    hAB, hAC, hAF, hAG, hCB, hCF, hCG, hBF, hBG, hFG,
    Ne.symm hAB, Ne.symm hAC, Ne.symm hAF, Ne.symm hAG, Ne.symm hCB, Ne.symm hCF,
    Ne.symm hCG, Ne.symm hBF, Ne.symm hBG, Ne.symm hFG,
    hGF,
    eq_self_iff_true, ne_eq, not_true, not_false_iff, ite_true, ite_false, and_true,
    true_and,
    n1, n2, n3, Ne.symm n1, Ne.symm n2, Ne.symm n3, nP, Ne.symm nP]

theorem rotC_key_cons_F_T {s : DTree} {iA iC P : Int} {l f g : TView}
    (hc1 : (nd s iA).child1 = l.rootIdx)
    (hc2 : (nd s iA).child2 = iC)
    (hcC1 : (nd s iC).child1 = f.rootIdx)
    (hcC2 : (nd s iC).child2 = g.rootIdx)
    (hpa : (nd s iA).parentOrNext = P)
    (hPnn : ¬ P = nullNode)
    (hPin : inPool s P)
    (hPA : P ≠ iA) (hPB : P ≠ l.rootIdx) (hPC : P ≠ iC)
    (hPF : P ≠ f.rootIdx) (hPG : P ≠ g.rootIdx)
    (htest : (nd s P).child1 = iA)
    (hAin : inPool s iA) (hBin : inPool s l.rootIdx) (hCin : inPool s iC)
    (hFin : inPool s f.rootIdx) (hGin : inPool s g.rootIdx)
    (hAB : iA ≠ l.rootIdx) (hAC : iA ≠ iC) (hAF : iA ≠ f.rootIdx) (hAG : iA ≠ g.rootIdx)
    (hCB : iC ≠ l.rootIdx) (hCF : iC ≠ f.rootIdx) (hCG : iC ≠ g.rootIdx)
    (hBF : l.rootIdx ≠ f.rootIdx) (hBG : l.rootIdx ≠ g.rootIdx)
    (hFG : f.rootIdx ≠ g.rootIdx)
    (hgate : ¬ ((nd s iA).IsLeaf ∨ (nd s iA).height < 2))
    (hbal : 1 < (nd s iC).height - (nd s l.rootIdx).height)
    (hGF : ¬ (nd s g.rootIdx).height < (nd s f.rootIdx).height) :
    (balance s iA).2 = iC ∧
    nd (balance s iA).1 iA = { nd s iA with
      parentOrNext := iC
      child2 := f.rootIdx
      aabb := ((nd s l.rootIdx).aabb).combine ((nd s f.rootIdx).aabb)
      height := 1 + max (nd s l.rootIdx).height (nd s f.rootIdx).height } ∧
    nd (balance s iA).1 iC = { nd s iC with
      parentOrNext := P
      child1 := iA
      child2 := g.rootIdx
      aabb := (((nd s l.rootIdx).aabb).combine ((nd s f.rootIdx).aabb)).combine
        ((nd s g.rootIdx).aabb)
      height := 1 + max (1 + max (nd s l.rootIdx).height (nd s f.rootIdx).height)
        ((nd s g.rootIdx).height) } ∧
    nd (balance s iA).1 f.rootIdx = { nd s f.rootIdx with parentOrNext := iA } ∧
    (balance s iA).1.root = s.root ∧
    nd (balance s iA).1 P = { nd s P with child1 := iC } ∧
    (balance s iA).1.freeList = s.freeList ∧
    (balance s iA).1.nodeCount = s.nodeCount ∧
    (balance s iA).1.nodeCapacity = s.nodeCapacity ∧
    (balance s iA).1.nodes.length = s.nodes.length := by
  unfold balance
  rw [if_neg hgate]
  dsimp only
  simp only [hc1, hc2, hcC1, hcC2]
  rw [if_pos hbal]
  simp only [nd_setNode_self, nd_setNode_other, inPool_setNode, nd_setRoot, inPool_setRoot,
    setNode_root, setRoot_root, setNode_freeList, setRoot_freeList, setNode_nodeCount,
    setRoot_nodeCount, setNode_nodeCapacity, setRoot_nodeCapacity, setNode_length,
    setRoot_nodes,
    hAin, hBin, hCin, hFin, hGin,
    hc1, hc2, hcC1, hcC2, hpa,
    hPnn, htest, hPA, hPB, hPC, hPF, hPG,
    Ne.symm hPA, Ne.symm hPB, Ne.symm hPC, Ne.symm hPF, Ne.symm hPG, hPin,
    hAB, hAC, hAF, hAG, hCB, hCF, hCG, hBF, hBG, hFG,
    Ne.symm hAB, Ne.symm hAC, Ne.symm hAF, Ne.symm hAG, Ne.symm hCB, Ne.symm hCF,
    Ne.symm hCG, Ne.symm hBF, Ne.symm hBG, Ne.symm hFG,
    hGF,
    eq_self_iff_true, ne_eq, not_true, not_false_iff, ite_true, ite_false, and_true,
    true_and]

theorem rotC_frame_cons_F_T {s : DTree} {iA iC P : Int} {l f g : TView}
    (hc1 : (nd s iA).child1 = l.rootIdx)
    (hc2 : (nd s iA).child2 = iC)
    (hcC1 : (nd s iC).child1 = f.rootIdx)
    (hcC2 : (nd s iC).child2 = g.rootIdx)
    (hpa : (nd s iA).parentOrNext = P)
    (hPnn : ¬ P = nullNode)
    (hPin : inPool s P)
    (hPA : P ≠ iA) (hPB : P ≠ l.rootIdx) (hPC : P ≠ iC)
    (hPF : P ≠ f.rootIdx) (hPG : P ≠ g.rootIdx)
    (htest : (nd s P).child1 = iA)
    (hAin : inPool s iA) (hBin : inPool s l.rootIdx) (hCin : inPool s iC)
    (hFin : inPool s f.rootIdx) (hGin : inPool s g.rootIdx)
    (hAB : iA ≠ l.rootIdx) (hAC : iA ≠ iC) (hAF : iA ≠ f.rootIdx) (hAG : iA ≠ g.rootIdx)
    (hCB : iC ≠ l.rootIdx) (hCF : iC ≠ f.rootIdx) (hCG : iC ≠ g.rootIdx)
    (hBF : l.rootIdx ≠ f.rootIdx) (hBG : l.rootIdx ≠ g.rootIdx)
    (hFG : f.rootIdx ≠ g.rootIdx)
    (hgate : ¬ ((nd s iA).IsLeaf ∨ (nd s iA).height < 2))
    (hbal : 1 < (nd s iC).height - (nd s l.rootIdx).height)
    (hGF : ¬ (nd s g.rootIdx).height < (nd s f.rootIdx).height)
    (j : Int) (n1 : j ≠ iA) (n2 : j ≠ iC) (n3 : j ≠ f.rootIdx) (nP : j ≠ P) :
    nd (balance s iA).1 j = nd s j := by
  unfold balance
  rw [if_neg hgate]
  dsimp only
  simp only [hc1, hc2, hcC1, hcC2]
  rw [if_pos hbal]
  simp only [nd_setNode_self, nd_setNode_other, inPool_setNode, nd_setRoot, inPool_setRoot,
    setNode_root, setRoot_root, setNode_freeList, setRoot_freeList, setNode_nodeCount,
    setRoot_nodeCount, setNode_nodeCapacity, setRoot_nodeCapacity, setNode_length,
    setRoot_nodes,
    hAin, hBin, hCin, hFin, hGin,
    hc1, hc2, hcC1, hcC2, hpa,
    hPnn, htest, hPA, hPB, hPC, hPF, hPG,
    Ne.symm hPA, Ne.symm hPB, Ne.symm hPC, Ne.symm hPF, Ne.symm hPG, hPin,
    hAB, hAC, hAF, hAG, hCB, hCF, hCG, hBF, hBG, hFG,
    Ne.symm hAB, Ne.symm hAC, Ne.symm hAF, Ne.symm hAG, Ne.symm hCB, Ne.symm hCF,
    Ne.symm hCG, Ne.symm hBF, Ne.symm hBG, Ne.symm hFG,
    hGF,
    eq_self_iff_true, ne_eq, not_true, not_false_iff, ite_true, ite_false, and_true,
    true_and,
    n1, n2, n3, Ne.symm n1, Ne.symm n2, Ne.symm n3, nP, Ne.symm nP]

theorem rotC_key_cons_F_F {s : DTree} {iA iC P : Int} {l f g : TView}
    (hc1 : (nd s iA).child1 = l.rootIdx)
    (hc2 : (nd s iA).child2 = iC)
    (hcC1 : (nd s iC).child1 = f.rootIdx)
    (hcC2 : (nd s iC).child2 = g.rootIdx)
    (hpa : (nd s iA).parentOrNext = P)
    (hPnn : ¬ P = nullNode)
    (hPin : inPool s P)
    (hPA : P ≠ iA) (hPB : P ≠ l.rootIdx) (hPC : P ≠ iC)
    (hPF : P ≠ f.rootIdx) (hPG : P ≠ g.rootIdx)
    (htest : ¬ (nd s P).child1 = iA)
    (hAin : inPool s iA) (hBin : inPool s l.rootIdx) (hCin : inPool s iC)
    (hFin : inPool s f.rootIdx) (hGin : inPool s g.rootIdx)
    (hAB : iA ≠ l.rootIdx) (hAC : iA ≠ iC) (hAF : iA ≠ f.rootIdx) (hAG : iA ≠ g.rootIdx)
    (hCB : iC ≠ l.rootIdx) (hCF : iC ≠ f.rootIdx) (hCG : iC ≠ g.rootIdx)
    (hBF : l.rootIdx ≠ f.rootIdx) (hBG : l.rootIdx ≠ g.rootIdx)
    (hFG : f.rootIdx ≠ g.rootIdx)
    (hgate : ¬ ((nd s iA).IsLeaf ∨ (nd s iA).height < 2))
    (hbal : 1 < (nd s iC).height - (nd s l.rootIdx).height)
    (hGF : ¬ (nd s g.rootIdx).height < (nd s f.rootIdx).height) :
    (balance s iA).2 = iC ∧
    nd (balance s iA).1 iA = { nd s iA with
      parentOrNext := iC
      child2 := f.rootIdx
      aabb := ((nd s l.rootIdx).aabb).combine ((nd s f.rootIdx).aabb)
      height := 1 + max (nd s l.rootIdx).height (nd s f.rootIdx).height } ∧
    nd (balance s iA).1 iC = { nd s iC with
      parentOrNext := P
      child1 := iA
      child2 := g.rootIdx
      aabb := (((nd s l.rootIdx).aabb).combine ((nd s f.rootIdx).aabb)).combine
        ((nd s g.rootIdx).aabb)
      height := 1 + max (1 + max (nd s l.rootIdx).height (nd s f.rootIdx).height)
        ((nd s g.rootIdx).height) } ∧
    nd (balance s iA).1 f.rootIdx = { nd s f.rootIdx with parentOrNext := iA } ∧
    (balance s iA).1.root = s.root ∧
    nd (balance s iA).1 P = { nd s P with child2 := iC } ∧
    (balance s iA).1.freeList = s.freeList ∧
    (balance s iA).1.nodeCount = s.nodeCount ∧
    (balance s iA).1.nodeCapacity = s.nodeCapacity ∧
    (balance s iA).1.nodes.length = s.nodes.length := by
  unfold balance
  rw [if_neg hgate]
  dsimp only
  simp only [hc1, hc2, hcC1, hcC2]
  rw [if_pos hbal]
  simp only [nd_setNode_self, nd_setNode_other, inPool_setNode, nd_setRoot, inPool_setRoot,
    setNode_root, setRoot_root, setNode_freeList, setRoot_freeList, setNode_nodeCount,
    setRoot_nodeCount, setNode_nodeCapacity, setRoot_nodeCapacity, setNode_length,
    setRoot_nodes,
    hAin, hBin, hCin, hFin, hGin,
    hc1, hc2, hcC1, hcC2, hpa,
    hPnn, htest, hPA, hPB, hPC, hPF, hPG,
    Ne.symm hPA, Ne.symm hPB, Ne.symm hPC, Ne.symm hPF, Ne.symm hPG, hPin,
    hAB, hAC, hAF, hAG, hCB, hCF, hCG, hBF, hBG, hFG,
    Ne.symm hAB, Ne.symm hAC, Ne.symm hAF, Ne.symm hAG, Ne.symm hCB, Ne.symm hCF,
    Ne.symm hCG, Ne.symm hBF, Ne.symm hBG, Ne.symm hFG,
    hGF,
    eq_self_iff_true, ne_eq, not_true, not_false_iff, ite_true, ite_false, and_true,
    true_and]

theorem rotC_frame_cons_F_F {s : DTree} {iA iC P : Int} {l f g : TView}
    (hc1 : (nd s iA).child1 = l.rootIdx)
    (hc2 : (nd s iA).child2 = iC)
    (hcC1 : (nd s iC).child1 = f.rootIdx)
    (hcC2 : (nd s iC).child2 = g.rootIdx)
    (hpa : (nd s iA).parentOrNext = P)
    (hPnn : ¬ P = nullNode)
    (hPin : inPool s P)
    (hPA : P ≠ iA) (hPB : P ≠ l.rootIdx) (hPC : P ≠ iC)
    (hPF : P ≠ f.rootIdx) (hPG : P ≠ g.rootIdx)
    (htest : ¬ (nd s P).child1 = iA)
    (hAin : inPool s iA) (hBin : inPool s l.rootIdx) (hCin : inPool s iC)
    (hFin : inPool s f.rootIdx) (hGin : inPool s g.rootIdx)
    (hAB : iA ≠ l.rootIdx) (hAC : iA ≠ iC) (hAF : iA ≠ f.rootIdx) (hAG : iA ≠ g.rootIdx)
    (hCB : iC ≠ l.rootIdx) (hCF : iC ≠ f.rootIdx) (hCG : iC ≠ g.rootIdx)
    (hBF : l.rootIdx ≠ f.rootIdx) (hBG : l.rootIdx ≠ g.rootIdx)
    (hFG : f.rootIdx ≠ g.rootIdx)
    (hgate : ¬ ((nd s iA).IsLeaf ∨ (nd s iA).height < 2))
    (hbal : 1 < (nd s iC).height - (nd s l.rootIdx).height)
    (hGF : ¬ (nd s g.rootIdx).height < (nd s f.rootIdx).height)
    (j : Int) (n1 : j ≠ iA) (n2 : j ≠ iC) (n3 : j ≠ f.rootIdx) (nP : j ≠ P) :
    nd (balance s iA).1 j = nd s j := by
  unfold balance
  rw [if_neg hgate]
  dsimp only
  simp only [hc1, hc2, hcC1, hcC2]
  rw [if_pos hbal]
  simp only [nd_setNode_self, nd_setNode_other, inPool_setNode, nd_setRoot, inPool_setRoot,
    setNode_root, setRoot_root, setNode_freeList, setRoot_freeList, setNode_nodeCount,
    setRoot_nodeCount, setNode_nodeCapacity, setRoot_nodeCapacity, setNode_length,
    setRoot_nodes,
    hAin, hBin, hCin, hFin, hGin,
    hc1, hc2, hcC1, hcC2, hpa,
    hPnn, htest, hPA, hPB, hPC, hPF, hPG,
    Ne.symm hPA, Ne.symm hPB, Ne.symm hPC, Ne.symm hPF, Ne.symm hPG, hPin,
    hAB, hAC, hAF, hAG, hCB, hCF, hCG, hBF, hBG, hFG,
    Ne.symm hAB, Ne.symm hAC, Ne.symm hAF, Ne.symm hAG, Ne.symm hCB, Ne.symm hCF,
    Ne.symm hCG, Ne.symm hBF, Ne.symm hBG, Ne.symm hFG,
    hGF,
    eq_self_iff_true, ne_eq, not_true, not_false_iff, ite_true, ite_false, and_true,
    true_and,
    n1, n2, n3, Ne.symm n1, Ne.symm n2, Ne.symm n3, nP, Ne.symm nP]



theorem crackR {iA iC : Int} {L F G K : List Int}
    (h : ((iA :: (L ++ (iC :: (F ++ G)))) ++ K).Nodup) :
    (iA ∉ L ∧ iA ≠ iC ∧ iA ∉ F ∧ iA ∉ G ∧ iA ∉ K) ∧
    (iC ∉ L ∧ iC ∉ F ∧ iC ∉ G ∧ iC ∉ K) ∧
    (∀ a ∈ L, a ∉ F) ∧ (∀ a ∈ L, a ∉ G) ∧ (∀ a ∈ L, a ∉ K) ∧
    (∀ a ∈ F, a ∉ G) ∧ (∀ a ∈ F, a ∉ K) ∧ (∀ a ∈ G, a ∉ K) ∧
    L.Nodup ∧ F.Nodup ∧ G.Nodup ∧ K.Nodup := by
  rw [List.cons_append, List.nodup_cons] at h
  obtain ⟨hA, h⟩ := h
  rw [List.nodup_append] at h
  obtain ⟨hM, hK, hdMK⟩ := h
  rw [List.nodup_append] at hM
  obtain ⟨hL, hCfg, hdLC⟩ := hM
  rw [List.nodup_cons] at hCfg
  obtain ⟨hCm, hFGn⟩ := hCfg
  rw [List.nodup_append] at hFGn
  obtain ⟨hF, hG, hdFG⟩ := hFGn
  simp only [List.mem_append, List.mem_cons, not_or] at hA hCm
  obtain ⟨⟨hAL, hAC, hAF, hAG⟩, hAK⟩ := hA
  obtain ⟨hCF, hCG⟩ := hCm
  have hCinM : iC ∈ L ++ iC :: (F ++ G) := by
    simp
  refine ⟨⟨hAL, hAC, hAF, hAG, hAK⟩,
    ⟨?_, hCF, hCG, fun hk => hdMK hCinM hk⟩, ?_, ?_, ?_, ?_, ?_, ?_, hL, hF, hG, hK⟩
  · intro hc
    exact hdLC hc (by simp)
  · intro a ha hf
    exact hdLC ha (by simp [hf])
  · intro a ha hg
    exact hdLC ha (by simp [hg])
  · intro a ha hk
    exact hdMK (by simp [ha]) hk
  · intro a ha hg
    exact (List.disjoint_left.mp hdFG) ha hg
  · intro a ha hk
    refine hdMK ?_ hk
    simp [ha]
  · intro a ha hk
    refine hdMK ?_ hk
    simp [ha]

theorem perm_surgery (x y : Int) (P Q R : List Int) :
    (y :: ((x :: (P ++ Q)) ++ R)).Perm (x :: (P ++ (y :: (R ++ Q)))) := by
  rw [List.cons_append]
  refine (List.Perm.swap x y _).trans ?_
  refine List.Perm.cons x ?_
  have hmid : (P ++ (y :: (R ++ Q))).Perm (y :: (P ++ (R ++ Q))) := List.perm_middle
  refine List.Perm.trans ?_ hmid.symm
  refine List.Perm.cons y ?_
  rw [List.append_assoc]
  exact List.Perm.append_left P List.perm_append_comm

theorem permCT (iA iC : Int) (L F G : List Int) :
    (iC :: ((iA :: (L ++ G)) ++ F)).Perm (iA :: (L ++ (iC :: (F ++ G)))) :=
  perm_surgery iA iC L G F

theorem permCF (iA iC : Int) (L F G : List Int) :
    (iC :: ((iA :: (L ++ F)) ++ G)).Perm (iA :: (L ++ (iC :: (F ++ G)))) :=
  (perm_surgery iA iC L F G).trans
    (List.Perm.cons iA (List.Perm.append_left L (List.Perm.cons iC List.perm_append_comm)))

theorem balance_spec_rotC {s : DTree} {iA iC : Int} {l f g : TView} {ctx : List Crumb}
    (h0 : 0 ≤ iA)
    (hc1 : (nd s iA).child1 = l.rootIdx)
    (hc2 : (nd s iA).child2 = iC)
    (hRl : Rep s l) (hRr : Rep s (TView.node iC f g))
    (hPl : Par s l) (hPr : Par s (TView.node iC f g))
    (hpl : (nd s l.rootIdx).parentOrNext = iA)
    (hpr : (nd s iC).parentOrNext = iA)
    (hctx : CtxOk s iA ctx)
    (hb : ∀ j ∈ (TView.node iA l (TView.node iC f g)).idxs ++ ctxIdxs ctx,
        0 ≤ j ∧ j.toNat < s.nodes.length)
    (hnd : ((TView.node iA l (TView.node iC f g)).idxs ++ ctxIdxs ctx).Nodup)
    (hgate : ¬ ((nd s iA).IsLeaf ∨ (nd s iA).height < 2))
    (hbal : 1 < (nd s iC).height - (nd s l.rootIdx).height) :
    ∃ l2 r2 : TView,
      0 ≤ (balance s iA).2 ∧
      (nd (balance s iA).1 (balance s iA).2).child1 = l2.rootIdx ∧
      (nd (balance s iA).1 (balance s iA).2).child2 = r2.rootIdx ∧
      Rep (balance s iA).1 l2 ∧ Rep (balance s iA).1 r2 ∧
      Par (balance s iA).1 l2 ∧ Par (balance s iA).1 r2 ∧
      (nd (balance s iA).1 l2.rootIdx).parentOrNext = (balance s iA).2 ∧
      (nd (balance s iA).1 r2.rootIdx).parentOrNext = (balance s iA).2 ∧
      CtxOk (balance s iA).1 (balance s iA).2 ctx ∧
      ((balance s iA).2 :: (l2.idxs ++ r2.idxs)).Perm
        ((TView.node iA l (TView.node iC f g)).idxs) ∧
      (∀ j : Int, j ∉ (TView.node iA l (TView.node iC f g)).idxs →
        j ∉ ctxIdxs ctx → nd (balance s iA).1 j = nd s j) ∧
      (balance s iA).1.freeList = s.freeList ∧
      (balance s iA).1.nodeCount = s.nodeCount ∧
      (balance s iA).1.nodeCapacity = s.nodeCapacity ∧
      (balance s iA).1.nodes.length = s.nodes.length := by
  obtain ⟨hC0, hcC1, hcC2, hhC, haC, hRf, hRg⟩ := hRr
  obtain ⟨hpf, hpg, hPf, hPg⟩ := hPr
  have hB0 : 0 ≤ l.rootIdx := Rep_rootIdx_nonneg hRl
  have hF0 : 0 ≤ f.rootIdx := Rep_rootIdx_nonneg hRf
  have hG0 : 0 ≤ g.rootIdx := Rep_rootIdx_nonneg hRg
  have hmem : ∀ j : Int, (j = iA ∨ j ∈ l.idxs ∨ j = iC ∨ j ∈ f.idxs ∨ j ∈ g.idxs ∨
      j ∈ ctxIdxs ctx) →
      j ∈ (TView.node iA l (TView.node iC f g)).idxs ++ ctxIdxs ctx := by
    intro j hj
    simp only [idxs_node, List.cons_append, List.mem_cons, List.mem_append]
    tauto
  have hAin : inPool s iA := ⟨h0, (hb iA (hmem iA (Or.inl rfl))).2⟩
  have hBin : inPool s l.rootIdx :=
    ⟨hB0, (hb _ (hmem _ (Or.inr (Or.inl (rootIdx_mem l))))).2⟩
  have hCin : inPool s iC := ⟨hC0, (hb iC (hmem iC (Or.inr (Or.inr (Or.inl rfl))))).2⟩
  have hFin : inPool s f.rootIdx :=
    ⟨hF0, (hb _ (hmem _ (Or.inr (Or.inr (Or.inr (Or.inl (rootIdx_mem f))))))).2⟩
  have hGin : inPool s g.rootIdx :=
    ⟨hG0, (hb _ (hmem _ (Or.inr (Or.inr (Or.inr (Or.inr (Or.inl (rootIdx_mem g)))))))).2⟩
  rw [idxs_node, idxs_node] at hnd
  obtain ⟨⟨hAL, hACne, hAF, hAG, hAK⟩, ⟨hCL, hCFm, hCGm, hCK⟩, hLF, hLG, hLK, hFGd, hFK,
    hGK, hLnd, hFnd, hGnd, hKnd⟩ := crackR hnd
  have hAB : iA ≠ l.rootIdx := fun h => hAL (h ▸ rootIdx_mem l)
  have hAC : iA ≠ iC := hACne
  have hAF' : iA ≠ f.rootIdx := fun h => hAF (h ▸ rootIdx_mem f)
  have hAG' : iA ≠ g.rootIdx := fun h => hAG (h ▸ rootIdx_mem g)
  have hCB : iC ≠ l.rootIdx := fun h => hCL (h ▸ rootIdx_mem l)
  have hCF' : iC ≠ f.rootIdx := fun h => hCFm (h ▸ rootIdx_mem f)
  have hCG' : iC ≠ g.rootIdx := fun h => hCGm (h ▸ rootIdx_mem g)
  have hBF : l.rootIdx ≠ f.rootIdx := fun h => hLF _ (rootIdx_mem l) (h ▸ rootIdx_mem f)
  have hBG : l.rootIdx ≠ g.rootIdx := fun h => hLG _ (rootIdx_mem l) (h ▸ rootIdx_mem g)
  have hFG' : f.rootIdx ≠ g.rootIdx := fun h => hFGd _ (rootIdx_mem f) (h ▸ rootIdx_mem g)
  have hneL : ∀ j ∈ l.idxs, j ≠ iA ∧ j ≠ iC ∧ j ≠ f.rootIdx ∧ j ≠ g.rootIdx := by
    intro j hj
    exact ⟨fun h => hAL (h ▸ hj), fun h => hCL (h ▸ hj),
      fun h => hLF j hj (h ▸ rootIdx_mem f), fun h => hLG j hj (h ▸ rootIdx_mem g)⟩
  have hneF : ∀ j ∈ f.idxs, j ≠ iA ∧ j ≠ iC ∧ j ≠ g.rootIdx := by
    intro j hj
    exact ⟨fun h => hAF (h ▸ hj), fun h => hCFm (h ▸ hj),
      fun h => hFGd j hj (h ▸ rootIdx_mem g)⟩
  have hneG : ∀ j ∈ g.idxs, j ≠ iA ∧ j ≠ iC ∧ j ≠ f.rootIdx := by
    intro j hj
    exact ⟨fun h => hAG (h ▸ hj), fun h => hCGm (h ▸ hj),
      fun h => hFGd f.rootIdx (rootIdx_mem f) (h ▸ hj)⟩
  cases ctx with
  | nil =>
    obtain ⟨hrt, hpa⟩ := hctx
    by_cases hGF : (nd s g.rootIdx).height < (nd s f.rootIdx).height
    · obtain ⟨k2, kA, kC, kM, krt, kfl, kcnt, kcap, klen⟩ :=
        rotC_key_nil_T hc1 hc2 hcC1 hcC2 hpa hAin hBin hCin hFin hGin hAB hAC hAF' hAG' hCB hCF' hCG' hBF hBG hFG' hgate hbal hGF
      have hframe : ∀ j : Int, j ≠ iA → j ≠ iC → j ≠ g.rootIdx →
          nd (balance s iA).1 j = nd s j := fun j n1 n2 n3 =>
        rotC_frame_nil_T hc1 hc2 hcC1 hcC2 hpa hAin hBin hCin hFin hGin hAB hAC hAF' hAG' hCB hCF' hCG' hBF hBG hFG' hgate hbal hGF j n1 n2 n3
      have hfB : nd (balance s iA).1 l.rootIdx = nd s l.rootIdx :=
        hframe _ (Ne.symm hAB) (Ne.symm hCB) hBG
      have hfK : nd (balance s iA).1 f.rootIdx = nd s f.rootIdx :=
        hframe _ (Ne.symm hAF') (Ne.symm hCF') hFG'
      have hRl2 : Rep (balance s iA).1 l := Rep_frame (fun j hj => by
        rw [hframe j (hneL j hj).1 (hneL j hj).2.1 (hneL j hj).2.2.2]
        exact ⟨rfl, rfl, rfl, rfl⟩) hRl
      have hRm2 : Rep (balance s iA).1 g := Rep_frame (fun j hj => by
        by_cases hjm : j = g.rootIdx
        · subst hjm
          rw [kM]
          exact ⟨rfl, rfl, rfl, rfl⟩
        · rw [hframe j (hneG j hj).1 (hneG j hj).2.1 hjm]
          exact ⟨rfl, rfl, rfl, rfl⟩) hRg
      have hRk2 : Rep (balance s iA).1 f := Rep_frame (fun j hj => by
        rw [hframe j (hneF j hj).1 (hneF j hj).2.1 (hneF j hj).2.2]
        exact ⟨rfl, rfl, rfl, rfl⟩) hRf
      have hPl2 : Par (balance s iA).1 l := Par_frame2 (fun j hj => by
        rw [hframe j (hneL j hj).1 (hneL j hj).2.1 (hneL j hj).2.2.2]) hPl
      have hPm2 : Par (balance s iA).1 g := Par_frame hGnd (fun j hj hjr => by
        rw [hframe j (hneG j hj).1 (hneG j hj).2.1 hjr]) hPg
      have hPk2 : Par (balance s iA).1 f := Par_frame2 (fun j hj => by
        rw [hframe j (hneF j hj).1 (hneF j hj).2.1 (hneF j hj).2.2]) hPf
      refine ⟨TView.node iA l g, f, ?_, ?_, ?_, ?_, hRk2, ?_, hPk2, ?_, ?_, ?_, ?_, ?_,
        kfl, kcnt, kcap, klen⟩
      · rw [k2]
        exact hC0
      · rw [k2, kC]
        try rfl
      · rw [k2, kC]
        try rfl
      · refine ⟨h0, ?_, ?_, ?_, ?_, hRl2, hRm2⟩
        · rw [kA]
          exact hc1
        · rw [kA]
          try rfl
        · rw [kA, hfB, kM]
          try rfl
        · rw [kA, hfB, kM]
          try rfl
      · refine ⟨?_, ?_, hPl2, hPm2⟩
        · rw [hfB]
          exact hpl
        · rw [kM]
          try rfl
      · rw [show (TView.node iA l g).rootIdx = iA from rfl, k2, kA]
        try rfl
      · rw [k2, hfK]
        exact hpf
      · rw [k2]
        refine ⟨krt, ?_⟩
        rw [kC]
        try rfl
      · rw [k2]
        simp only [idxs_node]
        exact permCT iA iC l.idxs f.idxs g.idxs
      · intro j hj1 hj2
        simp only [idxs_node, List.mem_cons, List.mem_append, not_or] at hj1
        obtain ⟨njA, njL, njC, njF, njG⟩ := hj1
        exact hframe j njA njC (fun h => njG (h ▸ rootIdx_mem g))
    · obtain ⟨k2, kA, kC, kM, krt, kfl, kcnt, kcap, klen⟩ :=
        rotC_key_nil_F hc1 hc2 hcC1 hcC2 hpa hAin hBin hCin hFin hGin hAB hAC hAF' hAG' hCB hCF' hCG' hBF hBG hFG' hgate hbal hGF
      have hframe : ∀ j : Int, j ≠ iA → j ≠ iC → j ≠ f.rootIdx →
          nd (balance s iA).1 j = nd s j := fun j n1 n2 n3 =>
        rotC_frame_nil_F hc1 hc2 hcC1 hcC2 hpa hAin hBin hCin hFin hGin hAB hAC hAF' hAG' hCB hCF' hCG' hBF hBG hFG' hgate hbal hGF j n1 n2 n3
      have hfB : nd (balance s iA).1 l.rootIdx = nd s l.rootIdx :=
        hframe _ (Ne.symm hAB) (Ne.symm hCB) hBF
      have hfK : nd (balance s iA).1 g.rootIdx = nd s g.rootIdx :=
        hframe _ (Ne.symm hAG') (Ne.symm hCG') (Ne.symm hFG')
      have hRl2 : Rep (balance s iA).1 l := Rep_frame (fun j hj => by
        rw [hframe j (hneL j hj).1 (hneL j hj).2.1 (hneL j hj).2.2.1]
        exact ⟨rfl, rfl, rfl, rfl⟩) hRl
      have hRm2 : Rep (balance s iA).1 f := Rep_frame (fun j hj => by
        by_cases hjm : j = f.rootIdx
        · subst hjm
          rw [kM]
          exact ⟨rfl, rfl, rfl, rfl⟩
        · rw [hframe j (hneF j hj).1 (hneF j hj).2.1 hjm]
          exact ⟨rfl, rfl, rfl, rfl⟩) hRf
      have hRk2 : Rep (balance s iA).1 g := Rep_frame (fun j hj => by
        rw [hframe j (hneG j hj).1 (hneG j hj).2.1 (hneG j hj).2.2]
        exact ⟨rfl, rfl, rfl, rfl⟩) hRg
      have hPl2 : Par (balance s iA).1 l := Par_frame2 (fun j hj => by
        rw [hframe j (hneL j hj).1 (hneL j hj).2.1 (hneL j hj).2.2.1]) hPl
      have hPm2 : Par (balance s iA).1 f := Par_frame hFnd (fun j hj hjr => by
        rw [hframe j (hneF j hj).1 (hneF j hj).2.1 hjr]) hPf
      have hPk2 : Par (balance s iA).1 g := Par_frame2 (fun j hj => by
        rw [hframe j (hneG j hj).1 (hneG j hj).2.1 (hneG j hj).2.2]) hPg
      refine ⟨TView.node iA l f, g, ?_, ?_, ?_, ?_, hRk2, ?_, hPk2, ?_, ?_, ?_, ?_, ?_,
        kfl, kcnt, kcap, klen⟩
      · rw [k2]
        exact hC0
      · rw [k2, kC]
        try rfl
      · rw [k2, kC]
        try rfl
      · refine ⟨h0, ?_, ?_, ?_, ?_, hRl2, hRm2⟩
        · rw [kA]
          exact hc1
        · rw [kA]
          try rfl
        · rw [kA, hfB, kM]
          try rfl
        · rw [kA, hfB, kM]
          try rfl
      · refine ⟨?_, ?_, hPl2, hPm2⟩
        · rw [hfB]
          exact hpl
        · rw [kM]
          try rfl
      · rw [show (TView.node iA l f).rootIdx = iA from rfl, k2, kA]
        try rfl
      · rw [k2, hfK]
        exact hpg
      · rw [k2]
        refine ⟨krt, ?_⟩
        rw [kC]
        try rfl
      · rw [k2]
        simp only [idxs_node]
        exact permCF iA iC l.idxs f.idxs g.idxs
      · intro j hj1 hj2
        simp only [idxs_node, List.mem_cons, List.mem_append, not_or] at hj1
        obtain ⟨njA, njL, njC, njF, njG⟩ := hj1
        exact hframe j njA njC (fun h => njF (h ▸ rootIdx_mem f))
  | cons cr ctx2 =>
    obtain ⟨hp0, hpa, hch, hpo, hRo, hPo, hctx2⟩ := hctx
    have hpK : cr.p ∈ ctxIdxs (cr :: ctx2) := by
      rw [ctxIdxs_cons]
      exact List.mem_cons_self _ _
    have homemK : cr.other.rootIdx ∈ ctxIdxs (cr :: ctx2) := by
      rw [ctxIdxs_cons]
      exact List.mem_cons_of_mem _ (List.mem_append_left _ (rootIdx_mem cr.other))
    have hPin : inPool s cr.p := ⟨hp0, (hb _ (hmem _ (Or.inr (Or.inr (Or.inr (Or.inr
      (Or.inr hpK))))))).2⟩
    have hPnn : ¬ cr.p = nullNode := by
      unfold nullNode
      omega
    have hPA : cr.p ≠ iA := fun h => hAK (h ▸ hpK)
    have hPB : cr.p ≠ l.rootIdx := fun h => hLK _ (rootIdx_mem l) (h ▸ hpK)
    have hPC : cr.p ≠ iC := fun h => hCK (h ▸ hpK)
    have hPF : cr.p ≠ f.rootIdx := fun h => hFK _ (rootIdx_mem f) (h ▸ hpK)
    have hPG : cr.p ≠ g.rootIdx := fun h => hGK _ (rootIdx_mem g) (h ▸ hpK)
    rw [ctxIdxs_cons] at hKnd
    rw [List.nodup_cons] at hKnd
    obtain ⟨hPno, hOtnd⟩ := hKnd
    have hneLP : ∀ j ∈ l.idxs, j ≠ cr.p := fun j hj h => hLK j hj (h ▸ hpK)
    have hneFP : ∀ j ∈ f.idxs, j ≠ cr.p := fun j hj h => hFK j hj (h ▸ hpK)
    have hneGP : ∀ j ∈ g.idxs, j ≠ cr.p := fun j hj h => hGK j hj (h ▸ hpK)
    have hmemKof : ∀ j ∈ cr.other.idxs, j ∈ ctxIdxs (cr :: ctx2) := by
      intro j hj
      rw [ctxIdxs_cons]
      exact List.mem_cons_of_mem _ (List.mem_append_left _ hj)
    have hmemKt : ∀ j ∈ ctxIdxs ctx2, j ∈ ctxIdxs (cr :: ctx2) := by
      intro j hj
      rw [ctxIdxs_cons]
      exact List.mem_cons_of_mem _ (List.mem_append_right _ hj)
    have hneO : ∀ j ∈ cr.other.idxs, j ≠ iA ∧ j ≠ iC ∧ j ≠ f.rootIdx ∧ j ≠ g.rootIdx ∧
        j ≠ cr.p := by
      intro j hj
      refine ⟨fun h => hAK (h ▸ hmemKof j hj), fun h => hCK (h ▸ hmemKof j hj),
        fun h => hFK _ (rootIdx_mem f) (h ▸ hmemKof j hj),
        fun h => hGK _ (rootIdx_mem g) (h ▸ hmemKof j hj),
        fun h => hPno (List.mem_append_left _ (h ▸ hj))⟩
    have hneT : ∀ j ∈ ctxIdxs ctx2, j ≠ iA ∧ j ≠ iC ∧ j ≠ f.rootIdx ∧ j ≠ g.rootIdx ∧
        j ≠ cr.p := by
      intro j hj
      refine ⟨fun h => hAK (h ▸ hmemKt j hj), fun h => hCK (h ▸ hmemKt j hj),
        fun h => hFK _ (rootIdx_mem f) (h ▸ hmemKt j hj),
        fun h => hGK _ (rootIdx_mem g) (h ▸ hmemKt j hj),
        fun h => hPno (List.mem_append_right _ (h ▸ hj))⟩
    by_cases hGF : (nd s g.rootIdx).height < (nd s f.rootIdx).height
    · cases hdirb : cr.dir with
      | true =>
        rw [hdirb] at hch
        rw [if_pos rfl] at hch
        obtain ⟨htest, hch2⟩ := hch
        obtain ⟨k2, kA, kC, kM, krt, kP, kfl, kcnt, kcap, klen⟩ :=
          rotC_key_cons_T_T hc1 hc2 hcC1 hcC2 hpa hPnn hPin hPA hPB hPC hPF hPG htest hAin hBin hCin hFin hGin hAB hAC hAF' hAG' hCB hCF' hCG' hBF hBG hFG' hgate hbal hGF
        have hframe : ∀ j : Int, j ≠ iA → j ≠ iC → j ≠ g.rootIdx → j ≠ cr.p →
            nd (balance s iA).1 j = nd s j := fun j n1 n2 n3 nP =>
          rotC_frame_cons_T_T hc1 hc2 hcC1 hcC2 hpa hPnn hPin hPA hPB hPC hPF hPG htest hAin hBin hCin hFin hGin hAB hAC hAF' hAG' hCB hCF' hCG' hBF hBG hFG' hgate hbal hGF j n1 n2 n3 nP
        have hfB : nd (balance s iA).1 l.rootIdx = nd s l.rootIdx :=
          hframe _ (Ne.symm hAB) (Ne.symm hCB) hBG (Ne.symm hPB)
        have hfK : nd (balance s iA).1 f.rootIdx = nd s f.rootIdx :=
          hframe _ (Ne.symm hAF') (Ne.symm hCF') hFG' (Ne.symm hPF)
        have hfO : nd (balance s iA).1 cr.other.rootIdx = nd s cr.other.rootIdx := by
          have h := hneO cr.other.rootIdx (rootIdx_mem cr.other)
          exact hframe _ h.1 h.2.1 h.2.2.2.1 h.2.2.2.2
        have hRl2 : Rep (balance s iA).1 l := Rep_frame (fun j hj => by
          rw [hframe j (hneL j hj).1 (hneL j hj).2.1 (hneL j hj).2.2.2 (hneLP j hj)]
          exact ⟨rfl, rfl, rfl, rfl⟩) hRl
        have hRm2 : Rep (balance s iA).1 g := Rep_frame (fun j hj => by
          by_cases hjm : j = g.rootIdx
          · subst hjm
            rw [kM]
            exact ⟨rfl, rfl, rfl, rfl⟩
          · rw [hframe j (hneG j hj).1 (hneG j hj).2.1 hjm (hneGP j hj)]
            exact ⟨rfl, rfl, rfl, rfl⟩) hRg
        have hRk2 : Rep (balance s iA).1 f := Rep_frame (fun j hj => by
          rw [hframe j (hneF j hj).1 (hneF j hj).2.1 (hneF j hj).2.2 (hneFP j hj)]
          exact ⟨rfl, rfl, rfl, rfl⟩) hRf
        have hPl2 : Par (balance s iA).1 l := Par_frame2 (fun j hj => by
          rw [hframe j (hneL j hj).1 (hneL j hj).2.1 (hneL j hj).2.2.2 (hneLP j hj)]) hPl
        have hPm2 : Par (balance s iA).1 g := Par_frame hGnd (fun j hj hjr => by
          rw [hframe j (hneG j hj).1 (hneG j hj).2.1 hjr (hneGP j hj)]) hPg
        have hPk2 : Par (balance s iA).1 f := Par_frame2 (fun j hj => by
          rw [hframe j (hneF j hj).1 (hneF j hj).2.1 (hneF j hj).2.2 (hneFP j hj)]) hPf
        refine ⟨TView.node iA l g, f, ?_, ?_, ?_, ?_, hRk2, ?_, hPk2, ?_, ?_, ?_, ?_, ?_,
          kfl, kcnt, kcap, klen⟩
        · rw [k2]
          exact hC0
        · rw [k2, kC]
          try rfl
        · rw [k2, kC]
          try rfl
        · refine ⟨h0, ?_, ?_, ?_, ?_, hRl2, hRm2⟩
          · rw [kA]
            exact hc1
          · rw [kA]
            try rfl
          · rw [kA, hfB, kM]
            try rfl
          · rw [kA, hfB, kM]
            try rfl
        · refine ⟨?_, ?_, hPl2, hPm2⟩
          · rw [hfB]
            exact hpl
          · rw [kM]
            try rfl
        · rw [show (TView.node iA l g).rootIdx = iA from rfl, k2, kA]
          try rfl
        · rw [k2, hfK]
          exact hpf
        · rw [k2]
          refine ⟨hp0, ?_, ?_, ?_, ?_, ?_, ?_⟩
          · rw [kC]
            try rfl
          · rw [hdirb]
            rw [if_pos rfl]
            refine ⟨?_, ?_⟩
            · rw [kP]
              try rfl
            · rw [kP]
              exact hch2
          · rw [hfO]
            exact hpo
          · exact Rep_frame (fun j hj => by
              rw [hframe j (hneO j hj).1 (hneO j hj).2.1 (hneO j hj).2.2.2.1 (hneO j hj).2.2.2.2]
              exact ⟨rfl, rfl, rfl, rfl⟩) hRo
          · exact Par_frame2 (fun j hj => by
              rw [hframe j (hneO j hj).1 (hneO j hj).2.1 (hneO j hj).2.2.2.1 (hneO j hj).2.2.2.2]) hPo
          · refine CtxOk_frame krt ?_ (fun j hj => ?_) hctx2
            · rw [kP]
              try rfl
            · exact hframe j (hneT j hj).1 (hneT j hj).2.1 (hneT j hj).2.2.2.1 (hneT j hj).2.2.2.2
        · rw [k2]
          simp only [idxs_node]
          exact permCT iA iC l.idxs f.idxs g.idxs
        · intro j hj1 hj2
          simp only [idxs_node, List.mem_cons, List.mem_append, not_or] at hj1
          obtain ⟨njA, njL, njC, njF, njG⟩ := hj1
          have hjP : j ≠ cr.p := by
            intro h
            rw [ctxIdxs_cons] at hj2
            exact hj2 (h ▸ List.mem_cons_self _ _)
          exact hframe j njA njC (fun h => njG (h ▸ rootIdx_mem g)) hjP
      | false =>
        rw [hdirb] at hch
        rw [if_neg (by simp)] at hch
        obtain ⟨hch1, hch2⟩ := hch
        have htest : ¬ (nd s cr.p).child1 = iA := by
          rw [hch1]
          intro h
          exact hAK (h ▸ homemK)
        obtain ⟨k2, kA, kC, kM, krt, kP, kfl, kcnt, kcap, klen⟩ :=
          rotC_key_cons_T_F hc1 hc2 hcC1 hcC2 hpa hPnn hPin hPA hPB hPC hPF hPG htest hAin hBin hCin hFin hGin hAB hAC hAF' hAG' hCB hCF' hCG' hBF hBG hFG' hgate hbal hGF
        have hframe : ∀ j : Int, j ≠ iA → j ≠ iC → j ≠ g.rootIdx → j ≠ cr.p →
            nd (balance s iA).1 j = nd s j := fun j n1 n2 n3 nP =>
          rotC_frame_cons_T_F hc1 hc2 hcC1 hcC2 hpa hPnn hPin hPA hPB hPC hPF hPG htest hAin hBin hCin hFin hGin hAB hAC hAF' hAG' hCB hCF' hCG' hBF hBG hFG' hgate hbal hGF j n1 n2 n3 nP
        have hfB : nd (balance s iA).1 l.rootIdx = nd s l.rootIdx :=
          hframe _ (Ne.symm hAB) (Ne.symm hCB) hBG (Ne.symm hPB)
        have hfK : nd (balance s iA).1 f.rootIdx = nd s f.rootIdx :=
          hframe _ (Ne.symm hAF') (Ne.symm hCF') hFG' (Ne.symm hPF)
        have hfO : nd (balance s iA).1 cr.other.rootIdx = nd s cr.other.rootIdx := by
          have h := hneO cr.other.rootIdx (rootIdx_mem cr.other)
          exact hframe _ h.1 h.2.1 h.2.2.2.1 h.2.2.2.2
        have hRl2 : Rep (balance s iA).1 l := Rep_frame (fun j hj => by
          rw [hframe j (hneL j hj).1 (hneL j hj).2.1 (hneL j hj).2.2.2 (hneLP j hj)]
          exact ⟨rfl, rfl, rfl, rfl⟩) hRl
        have hRm2 : Rep (balance s iA).1 g := Rep_frame (fun j hj => by
          by_cases hjm : j = g.rootIdx
          · subst hjm
            rw [kM]
            exact ⟨rfl, rfl, rfl, rfl⟩
          · rw [hframe j (hneG j hj).1 (hneG j hj).2.1 hjm (hneGP j hj)]
            exact ⟨rfl, rfl, rfl, rfl⟩) hRg
        have hRk2 : Rep (balance s iA).1 f := Rep_frame (fun j hj => by
          rw [hframe j (hneF j hj).1 (hneF j hj).2.1 (hneF j hj).2.2 (hneFP j hj)]
          exact ⟨rfl, rfl, rfl, rfl⟩) hRf
        have hPl2 : Par (balance s iA).1 l := Par_frame2 (fun j hj => by
          rw [hframe j (hneL j hj).1 (hneL j hj).2.1 (hneL j hj).2.2.2 (hneLP j hj)]) hPl
        have hPm2 : Par (balance s iA).1 g := Par_frame hGnd (fun j hj hjr => by
          rw [hframe j (hneG j hj).1 (hneG j hj).2.1 hjr (hneGP j hj)]) hPg
        have hPk2 : Par (balance s iA).1 f := Par_frame2 (fun j hj => by
          rw [hframe j (hneF j hj).1 (hneF j hj).2.1 (hneF j hj).2.2 (hneFP j hj)]) hPf
        refine ⟨TView.node iA l g, f, ?_, ?_, ?_, ?_, hRk2, ?_, hPk2, ?_, ?_, ?_, ?_, ?_,
          kfl, kcnt, kcap, klen⟩
        · rw [k2]
          exact hC0
        · rw [k2, kC]
          try rfl
        · rw [k2, kC]
          try rfl
        · refine ⟨h0, ?_, ?_, ?_, ?_, hRl2, hRm2⟩
          · rw [kA]
            exact hc1
          · rw [kA]
            try rfl
          · rw [kA, hfB, kM]
            try rfl
          · rw [kA, hfB, kM]
            try rfl
        · refine ⟨?_, ?_, hPl2, hPm2⟩
          · rw [hfB]
            exact hpl
          · rw [kM]
            try rfl
        · rw [show (TView.node iA l g).rootIdx = iA from rfl, k2, kA]
          try rfl
        · rw [k2, hfK]
          exact hpf
        · rw [k2]
          refine ⟨hp0, ?_, ?_, ?_, ?_, ?_, ?_⟩
          · rw [kC]
            try rfl
          · rw [hdirb]
            rw [if_neg (by simp)]
            refine ⟨?_, ?_⟩
            · rw [kP]
              exact hch1
            · rw [kP]
              try rfl
          · rw [hfO]
            exact hpo
          · exact Rep_frame (fun j hj => by
              rw [hframe j (hneO j hj).1 (hneO j hj).2.1 (hneO j hj).2.2.2.1 (hneO j hj).2.2.2.2]
              exact ⟨rfl, rfl, rfl, rfl⟩) hRo
          · exact Par_frame2 (fun j hj => by
              rw [hframe j (hneO j hj).1 (hneO j hj).2.1 (hneO j hj).2.2.2.1 (hneO j hj).2.2.2.2]) hPo
          · refine CtxOk_frame krt ?_ (fun j hj => ?_) hctx2
            · rw [kP]
              try rfl
            · exact hframe j (hneT j hj).1 (hneT j hj).2.1 (hneT j hj).2.2.2.1 (hneT j hj).2.2.2.2
        · rw [k2]
          simp only [idxs_node]
          exact permCT iA iC l.idxs f.idxs g.idxs
        · intro j hj1 hj2
          simp only [idxs_node, List.mem_cons, List.mem_append, not_or] at hj1
          obtain ⟨njA, njL, njC, njF, njG⟩ := hj1
          have hjP : j ≠ cr.p := by
            intro h
            rw [ctxIdxs_cons] at hj2
            exact hj2 (h ▸ List.mem_cons_self _ _)
          exact hframe j njA njC (fun h => njG (h ▸ rootIdx_mem g)) hjP
    · cases hdirb : cr.dir with
      | true =>
        rw [hdirb] at hch
        rw [if_pos rfl] at hch
        obtain ⟨htest, hch2⟩ := hch
        obtain ⟨k2, kA, kC, kM, krt, kP, kfl, kcnt, kcap, klen⟩ :=
          rotC_key_cons_F_T hc1 hc2 hcC1 hcC2 hpa hPnn hPin hPA hPB hPC hPF hPG htest hAin hBin hCin hFin hGin hAB hAC hAF' hAG' hCB hCF' hCG' hBF hBG hFG' hgate hbal hGF
        have hframe : ∀ j : Int, j ≠ iA → j ≠ iC → j ≠ f.rootIdx → j ≠ cr.p →
            nd (balance s iA).1 j = nd s j := fun j n1 n2 n3 nP =>
          rotC_frame_cons_F_T hc1 hc2 hcC1 hcC2 hpa hPnn hPin hPA hPB hPC hPF hPG htest hAin hBin hCin hFin hGin hAB hAC hAF' hAG' hCB hCF' hCG' hBF hBG hFG' hgate hbal hGF j n1 n2 n3 nP
        have hfB : nd (balance s iA).1 l.rootIdx = nd s l.rootIdx :=
          hframe _ (Ne.symm hAB) (Ne.symm hCB) hBF (Ne.symm hPB)
        have hfK : nd (balance s iA).1 g.rootIdx = nd s g.rootIdx :=
          hframe _ (Ne.symm hAG') (Ne.symm hCG') (Ne.symm hFG') (Ne.symm hPG)
        have hfO : nd (balance s iA).1 cr.other.rootIdx = nd s cr.other.rootIdx := by
          have h := hneO cr.other.rootIdx (rootIdx_mem cr.other)
          exact hframe _ h.1 h.2.1 h.2.2.1 h.2.2.2.2
        have hRl2 : Rep (balance s iA).1 l := Rep_frame (fun j hj => by
          rw [hframe j (hneL j hj).1 (hneL j hj).2.1 (hneL j hj).2.2.1 (hneLP j hj)]
          exact ⟨rfl, rfl, rfl, rfl⟩) hRl
        have hRm2 : Rep (balance s iA).1 f := Rep_frame (fun j hj => by
          by_cases hjm : j = f.rootIdx
          · subst hjm
            rw [kM]
            exact ⟨rfl, rfl, rfl, rfl⟩
          · rw [hframe j (hneF j hj).1 (hneF j hj).2.1 hjm (hneFP j hj)]
            exact ⟨rfl, rfl, rfl, rfl⟩) hRf
        have hRk2 : Rep (balance s iA).1 g := Rep_frame (fun j hj => by
          rw [hframe j (hneG j hj).1 (hneG j hj).2.1 (hneG j hj).2.2 (hneGP j hj)]
          exact ⟨rfl, rfl, rfl, rfl⟩) hRg
        have hPl2 : Par (balance s iA).1 l := Par_frame2 (fun j hj => by
          rw [hframe j (hneL j hj).1 (hneL j hj).2.1 (hneL j hj).2.2.1 (hneLP j hj)]) hPl
        have hPm2 : Par (balance s iA).1 f := Par_frame hFnd (fun j hj hjr => by
          rw [hframe j (hneF j hj).1 (hneF j hj).2.1 hjr (hneFP j hj)]) hPf
        have hPk2 : Par (balance s iA).1 g := Par_frame2 (fun j hj => by
          rw [hframe j (hneG j hj).1 (hneG j hj).2.1 (hneG j hj).2.2 (hneGP j hj)]) hPg
        refine ⟨TView.node iA l f, g, ?_, ?_, ?_, ?_, hRk2, ?_, hPk2, ?_, ?_, ?_, ?_, ?_,
          kfl, kcnt, kcap, klen⟩
        · rw [k2]
          exact hC0
        · rw [k2, kC]
          try rfl
        · rw [k2, kC]
          try rfl
        · refine ⟨h0, ?_, ?_, ?_, ?_, hRl2, hRm2⟩
          · rw [kA]
            exact hc1
          · rw [kA]
            try rfl
          · rw [kA, hfB, kM]
            try rfl
          · rw [kA, hfB, kM]
            try rfl
        · refine ⟨?_, ?_, hPl2, hPm2⟩
          · rw [hfB]
            exact hpl
          · rw [kM]
            try rfl
        · rw [show (TView.node iA l f).rootIdx = iA from rfl, k2, kA]
          try rfl
        · rw [k2, hfK]
          exact hpg
        · rw [k2]
          refine ⟨hp0, ?_, ?_, ?_, ?_, ?_, ?_⟩
          · rw [kC]
            try rfl
          · rw [hdirb]
            rw [if_pos rfl]
            refine ⟨?_, ?_⟩
            · rw [kP]
              try rfl
            · rw [kP]
              exact hch2
          · rw [hfO]
            exact hpo
          · exact Rep_frame (fun j hj => by
              rw [hframe j (hneO j hj).1 (hneO j hj).2.1 (hneO j hj).2.2.1 (hneO j hj).2.2.2.2]
              exact ⟨rfl, rfl, rfl, rfl⟩) hRo
          · exact Par_frame2 (fun j hj => by
              rw [hframe j (hneO j hj).1 (hneO j hj).2.1 (hneO j hj).2.2.1 (hneO j hj).2.2.2.2]) hPo
          · refine CtxOk_frame krt ?_ (fun j hj => ?_) hctx2
            · rw [kP]
              try rfl
            · exact hframe j (hneT j hj).1 (hneT j hj).2.1 (hneT j hj).2.2.1 (hneT j hj).2.2.2.2
        · rw [k2]
          simp only [idxs_node]
          exact permCF iA iC l.idxs f.idxs g.idxs
        · intro j hj1 hj2
          simp only [idxs_node, List.mem_cons, List.mem_append, not_or] at hj1
          obtain ⟨njA, njL, njC, njF, njG⟩ := hj1
          have hjP : j ≠ cr.p := by
            intro h
            rw [ctxIdxs_cons] at hj2
            exact hj2 (h ▸ List.mem_cons_self _ _)
          exact hframe j njA njC (fun h => njF (h ▸ rootIdx_mem f)) hjP
      | false =>
        rw [hdirb] at hch
        rw [if_neg (by simp)] at hch
        obtain ⟨hch1, hch2⟩ := hch
        have htest : ¬ (nd s cr.p).child1 = iA := by
          rw [hch1]
          intro h
          exact hAK (h ▸ homemK)
        obtain ⟨k2, kA, kC, kM, krt, kP, kfl, kcnt, kcap, klen⟩ :=
          rotC_key_cons_F_F hc1 hc2 hcC1 hcC2 hpa hPnn hPin hPA hPB hPC hPF hPG htest hAin hBin hCin hFin hGin hAB hAC hAF' hAG' hCB hCF' hCG' hBF hBG hFG' hgate hbal hGF
        have hframe : ∀ j : Int, j ≠ iA → j ≠ iC → j ≠ f.rootIdx → j ≠ cr.p →
            nd (balance s iA).1 j = nd s j := fun j n1 n2 n3 nP =>
          rotC_frame_cons_F_F hc1 hc2 hcC1 hcC2 hpa hPnn hPin hPA hPB hPC hPF hPG htest hAin hBin hCin hFin hGin hAB hAC hAF' hAG' hCB hCF' hCG' hBF hBG hFG' hgate hbal hGF j n1 n2 n3 nP
        have hfB : nd (balance s iA).1 l.rootIdx = nd s l.rootIdx :=
          hframe _ (Ne.symm hAB) (Ne.symm hCB) hBF (Ne.symm hPB)
        have hfK : nd (balance s iA).1 g.rootIdx = nd s g.rootIdx :=
          hframe _ (Ne.symm hAG') (Ne.symm hCG') (Ne.symm hFG') (Ne.symm hPG)
        have hfO : nd (balance s iA).1 cr.other.rootIdx = nd s cr.other.rootIdx := by
          have h := hneO cr.other.rootIdx (rootIdx_mem cr.other)
          exact hframe _ h.1 h.2.1 h.2.2.1 h.2.2.2.2
        have hRl2 : Rep (balance s iA).1 l := Rep_frame (fun j hj => by
          rw [hframe j (hneL j hj).1 (hneL j hj).2.1 (hneL j hj).2.2.1 (hneLP j hj)]
          exact ⟨rfl, rfl, rfl, rfl⟩) hRl
        have hRm2 : Rep (balance s iA).1 f := Rep_frame (fun j hj => by
          by_cases hjm : j = f.rootIdx
          · subst hjm
            rw [kM]
            exact ⟨rfl, rfl, rfl, rfl⟩
          · rw [hframe j (hneF j hj).1 (hneF j hj).2.1 hjm (hneFP j hj)]
            exact ⟨rfl, rfl, rfl, rfl⟩) hRf
        have hRk2 : Rep (balance s iA).1 g := Rep_frame (fun j hj => by
          rw [hframe j (hneG j hj).1 (hneG j hj).2.1 (hneG j hj).2.2 (hneGP j hj)]
          exact ⟨rfl, rfl, rfl, rfl⟩) hRg
        have hPl2 : Par (balance s iA).1 l := Par_frame2 (fun j hj => by
          rw [hframe j (hneL j hj).1 (hneL j hj).2.1 (hneL j hj).2.2.1 (hneLP j hj)]) hPl
        have hPm2 : Par (balance s iA).1 f := Par_frame hFnd (fun j hj hjr => by
          rw [hframe j (hneF j hj).1 (hneF j hj).2.1 hjr (hneFP j hj)]) hPf
        have hPk2 : Par (balance s iA).1 g := Par_frame2 (fun j hj => by
          rw [hframe j (hneG j hj).1 (hneG j hj).2.1 (hneG j hj).2.2 (hneGP j hj)]) hPg
        refine ⟨TView.node iA l f, g, ?_, ?_, ?_, ?_, hRk2, ?_, hPk2, ?_, ?_, ?_, ?_, ?_,
          kfl, kcnt, kcap, klen⟩
        · rw [k2]
          exact hC0
        · rw [k2, kC]
          try rfl
        · rw [k2, kC]
          try rfl
        · refine ⟨h0, ?_, ?_, ?_, ?_, hRl2, hRm2⟩
          · rw [kA]
            exact hc1
          · rw [kA]
            try rfl
          · rw [kA, hfB, kM]
            try rfl
          · rw [kA, hfB, kM]
            try rfl
        · refine ⟨?_, ?_, hPl2, hPm2⟩
          · rw [hfB]
            exact hpl
          · rw [kM]
            try rfl
        · rw [show (TView.node iA l f).rootIdx = iA from rfl, k2, kA]
          try rfl
        · rw [k2, hfK]
          exact hpg
        · rw [k2]
          refine ⟨hp0, ?_, ?_, ?_, ?_, ?_, ?_⟩
          · rw [kC]
            try rfl
          · rw [hdirb]
            rw [if_neg (by simp)]
            refine ⟨?_, ?_⟩
            · rw [kP]
              exact hch1
            · rw [kP]
              try rfl
          · rw [hfO]
            exact hpo
          · exact Rep_frame (fun j hj => by
              rw [hframe j (hneO j hj).1 (hneO j hj).2.1 (hneO j hj).2.2.1 (hneO j hj).2.2.2.2]
              exact ⟨rfl, rfl, rfl, rfl⟩) hRo
          · exact Par_frame2 (fun j hj => by
              rw [hframe j (hneO j hj).1 (hneO j hj).2.1 (hneO j hj).2.2.1 (hneO j hj).2.2.2.2]) hPo
          · refine CtxOk_frame krt ?_ (fun j hj => ?_) hctx2
            · rw [kP]
              try rfl
            · exact hframe j (hneT j hj).1 (hneT j hj).2.1 (hneT j hj).2.2.1 (hneT j hj).2.2.2.2
        · rw [k2]
          simp only [idxs_node]
          exact permCF iA iC l.idxs f.idxs g.idxs
        · intro j hj1 hj2
          simp only [idxs_node, List.mem_cons, List.mem_append, not_or] at hj1
          obtain ⟨njA, njL, njC, njF, njG⟩ := hj1
          have hjP : j ≠ cr.p := by
            intro h
            rw [ctxIdxs_cons] at hj2
            exact hj2 (h ▸ List.mem_cons_self _ _)
          exact hframe j njA njC (fun h => njF (h ▸ rootIdx_mem f)) hjP



theorem crackL {iA iB : Int} {D E R K : List Int}
    (h : ((iA :: ((iB :: (D ++ E)) ++ R)) ++ K).Nodup) :
    (iA ≠ iB ∧ iA ∉ D ∧ iA ∉ E ∧ iA ∉ R ∧ iA ∉ K) ∧
    (iB ∉ D ∧ iB ∉ E ∧ iB ∉ R ∧ iB ∉ K) ∧
    (∀ a ∈ D, a ∉ E) ∧ (∀ a ∈ D, a ∉ R) ∧ (∀ a ∈ D, a ∉ K) ∧
    (∀ a ∈ E, a ∉ R) ∧ (∀ a ∈ E, a ∉ K) ∧ (∀ a ∈ R, a ∉ K) ∧
    D.Nodup ∧ E.Nodup ∧ R.Nodup ∧ K.Nodup := by
  rw [List.cons_append, List.nodup_cons] at h
  obtain ⟨hA, h⟩ := h
  rw [List.nodup_append] at h
  obtain ⟨hM, hK, hdMK⟩ := h
  rw [List.nodup_append] at hM
  obtain ⟨hBde, hR, hdBR⟩ := hM
  rw [List.nodup_cons] at hBde
  obtain ⟨hBm, hDEn⟩ := hBde
  rw [List.nodup_append] at hDEn
  obtain ⟨hD, hE, hdDE⟩ := hDEn
  simp only [List.mem_append, List.mem_cons, not_or] at hA hBm
  obtain ⟨⟨⟨hAB, hAD, hAE⟩, hAR⟩, hAK⟩ := hA
  obtain ⟨hBD, hBE⟩ := hBm
  have hBinM : iB ∈ (iB :: (D ++ E)) ++ R := by
    simp
  refine ⟨⟨hAB, hAD, hAE, hAR, hAK⟩,
    ⟨hBD, hBE, ?_, fun hk => hdMK hBinM hk⟩, ?_, ?_, ?_, ?_, ?_, ?_, hD, hE, hR, hK⟩
  · intro hr
    exact hdBR (by simp) hr
  · intro a ha he
    exact (List.disjoint_left.mp hdDE) ha he
  · intro a ha hr
    exact hdBR (by simp [ha]) hr
  · intro a ha hk
    exact hdMK (by simp [ha]) hk
  · intro a ha hr
    exact hdBR (by simp [ha]) hr
  · intro a ha hk
    exact hdMK (by simp [ha]) hk
  · intro a ha hk
    exact hdMK (by simp [ha]) hk

theorem permBT (iA iB : Int) (D E R : List Int) :
    (iB :: ((iA :: (E ++ R)) ++ D)).Perm (iA :: ((iB :: (D ++ E)) ++ R)) := by
  rw [List.cons_append, List.cons_append]
  refine (List.Perm.swap iA iB _).trans ?_
  refine List.Perm.cons iA ?_
  refine List.Perm.cons iB ?_
  refine List.perm_append_comm.trans ?_
  rw [List.append_assoc]

theorem permBF (iA iB : Int) (D E R : List Int) :
    (iB :: ((iA :: (D ++ R)) ++ E)).Perm (iA :: ((iB :: (D ++ E)) ++ R)) := by
  rw [List.cons_append, List.cons_append]
  refine (List.Perm.swap iA iB _).trans ?_
  refine List.Perm.cons iA ?_
  refine List.Perm.cons iB ?_
  rw [List.append_assoc, List.append_assoc]
  exact List.Perm.append_left D List.perm_append_comm

theorem rotB_key_nil_T {s : DTree} {iA iB : Int} {d e r : TView}
    (hc1 : (nd s iA).child1 = iB)
    (hc2 : (nd s iA).child2 = r.rootIdx)
    (hcB1 : (nd s iB).child1 = d.rootIdx)
    (hcB2 : (nd s iB).child2 = e.rootIdx)
    (hpa : (nd s iA).parentOrNext = nullNode)
    (hAin : inPool s iA) (hBin : inPool s iB) (hDin : inPool s d.rootIdx)
    (hEin : inPool s e.rootIdx) (hRin : inPool s r.rootIdx)
    (hAB : iA ≠ iB) (hAD : iA ≠ d.rootIdx) (hAE : iA ≠ e.rootIdx) (hAR : iA ≠ r.rootIdx)
    (hBD : iB ≠ d.rootIdx) (hBE : iB ≠ e.rootIdx) (hBR : iB ≠ r.rootIdx)
    (hDE : d.rootIdx ≠ e.rootIdx) (hDR : d.rootIdx ≠ r.rootIdx)
    (hER : e.rootIdx ≠ r.rootIdx)
    (hgate : ¬ ((nd s iA).IsLeaf ∨ (nd s iA).height < 2))
    (hbal : (nd s r.rootIdx).height - (nd s iB).height < -1)
    (hde : (nd s e.rootIdx).height < (nd s d.rootIdx).height) :
    (balance s iA).2 = iB ∧
    nd (balance s iA).1 iA = { nd s iA with
      parentOrNext := iB
      child1 := e.rootIdx
      aabb := ((nd s r.rootIdx).aabb).combine ((nd s e.rootIdx).aabb)
      height := 1 + max (nd s r.rootIdx).height (nd s e.rootIdx).height } ∧
    nd (balance s iA).1 iB = { nd s iB with
      parentOrNext := nullNode
      child1 := iA
      child2 := d.rootIdx
      aabb := (((nd s r.rootIdx).aabb).combine ((nd s e.rootIdx).aabb)).combine
        ((nd s d.rootIdx).aabb)
      height := 1 + max (1 + max (nd s r.rootIdx).height (nd s e.rootIdx).height)
        ((nd s d.rootIdx).height) } ∧
    nd (balance s iA).1 e.rootIdx = { nd s e.rootIdx with parentOrNext := iA } ∧
    (balance s iA).1.root = iB ∧
    (balance s iA).1.freeList = s.freeList ∧
    (balance s iA).1.nodeCount = s.nodeCount ∧
    (balance s iA).1.nodeCapacity = s.nodeCapacity ∧
    (balance s iA).1.nodes.length = s.nodes.length := by
  have hbal1 : ¬ 1 < (nd s r.rootIdx).height - (nd s iB).height := by
    omega
  unfold balance
  rw [if_neg hgate]
  dsimp only
  simp only [hc1, hc2, hcB1, hcB2]
  rw [if_neg hbal1, if_pos hbal]
  simp only [nd_setNode_self, nd_setNode_other, inPool_setNode, nd_setRoot, inPool_setRoot,
    setNode_root, setRoot_root, setNode_freeList, setRoot_freeList, setNode_nodeCount,
    setRoot_nodeCount, setNode_nodeCapacity, setRoot_nodeCapacity, setNode_length,
    setRoot_nodes,
    hAin, hBin, hDin, hEin, hRin,
    hc1, hc2, hcB1, hcB2, hpa,
    hAB, hAD, hAE, hAR, hBD, hBE, hBR, hDE, hDR, hER,
    Ne.symm hAB, Ne.symm hAD, Ne.symm hAE, Ne.symm hAR, Ne.symm hBD, Ne.symm hBE,
    Ne.symm hBR, Ne.symm hDE, Ne.symm hDR, Ne.symm hER,
    hde,
    eq_self_iff_true, ne_eq, not_true, not_false_iff, ite_true, ite_false, and_true,
    true_and]

theorem rotB_frame_nil_T {s : DTree} {iA iB : Int} {d e r : TView}
    (hc1 : (nd s iA).child1 = iB)
    (hc2 : (nd s iA).child2 = r.rootIdx)
    (hcB1 : (nd s iB).child1 = d.rootIdx)
    (hcB2 : (nd s iB).child2 = e.rootIdx)
    (hpa : (nd s iA).parentOrNext = nullNode)
    (hAin : inPool s iA) (hBin : inPool s iB) (hDin : inPool s d.rootIdx)
    (hEin : inPool s e.rootIdx) (hRin : inPool s r.rootIdx)
    (hAB : iA ≠ iB) (hAD : iA ≠ d.rootIdx) (hAE : iA ≠ e.rootIdx) (hAR : iA ≠ r.rootIdx)
    (hBD : iB ≠ d.rootIdx) (hBE : iB ≠ e.rootIdx) (hBR : iB ≠ r.rootIdx)
    (hDE : d.rootIdx ≠ e.rootIdx) (hDR : d.rootIdx ≠ r.rootIdx)
    (hER : e.rootIdx ≠ r.rootIdx)
    (hgate : ¬ ((nd s iA).IsLeaf ∨ (nd s iA).height < 2))
    (hbal : (nd s r.rootIdx).height - (nd s iB).height < -1)
    (hde : (nd s e.rootIdx).height < (nd s d.rootIdx).height)
    (j : Int) (n1 : j ≠ iA) (n2 : j ≠ iB) (n3 : j ≠ e.rootIdx) :
    nd (balance s iA).1 j = nd s j := by
  have hbal1 : ¬ 1 < (nd s r.rootIdx).height - (nd s iB).height := by
    omega
  unfold balance
  rw [if_neg hgate]
  dsimp only
  simp only [hc1, hc2, hcB1, hcB2]
  rw [if_neg hbal1, if_pos hbal]
  simp only [nd_setNode_self, nd_setNode_other, inPool_setNode, nd_setRoot, inPool_setRoot,
    setNode_root, setRoot_root, setNode_freeList, setRoot_freeList, setNode_nodeCount,
    setRoot_nodeCount, setNode_nodeCapacity, setRoot_nodeCapacity, setNode_length,
    setRoot_nodes,
    hAin, hBin, hDin, hEin, hRin,
    hc1, hc2, hcB1, hcB2, hpa,
    hAB, hAD, hAE, hAR, hBD, hBE, hBR, hDE, hDR, hER,
    Ne.symm hAB, Ne.symm hAD, Ne.symm hAE, Ne.symm hAR, Ne.symm hBD, Ne.symm hBE,
    Ne.symm hBR, Ne.symm hDE, Ne.symm hDR, Ne.symm hER,
    hde,
    eq_self_iff_true, ne_eq, not_true, not_false_iff, ite_true, ite_false, and_true,
    true_and,
    n1, n2, n3, Ne.symm n1, Ne.symm n2, Ne.symm n3]

theorem rotB_key_nil_F {s : DTree} {iA iB : Int} {d e r : TView}
    (hc1 : (nd s iA).child1 = iB)
    (hc2 : (nd s iA).child2 = r.rootIdx)
    (hcB1 : (nd s iB).child1 = d.rootIdx)
    (hcB2 : (nd s iB).child2 = e.rootIdx)
    (hpa : (nd s iA).parentOrNext = nullNode)
    (hAin : inPool s iA) (hBin : inPool s iB) (hDin : inPool s d.rootIdx)
    (hEin : inPool s e.rootIdx) (hRin : inPool s r.rootIdx)
    (hAB : iA ≠ iB) (hAD : iA ≠ d.rootIdx) (hAE : iA ≠ e.rootIdx) (hAR : iA ≠ r.rootIdx)
    (hBD : iB ≠ d.rootIdx) (hBE : iB ≠ e.rootIdx) (hBR : iB ≠ r.rootIdx)
    (hDE : d.rootIdx ≠ e.rootIdx) (hDR : d.rootIdx ≠ r.rootIdx)
    (hER : e.rootIdx ≠ r.rootIdx)
    (hgate : ¬ ((nd s iA).IsLeaf ∨ (nd s iA).height < 2))
    (hbal : (nd s r.rootIdx).height - (nd s iB).height < -1)
    (hde : ¬ (nd s e.rootIdx).height < (nd s d.rootIdx).height) :
    (balance s iA).2 = iB ∧
    nd (balance s iA).1 iA = { nd s iA with
      parentOrNext := iB
      child1 := d.rootIdx
      aabb := ((nd s r.rootIdx).aabb).combine ((nd s d.rootIdx).aabb)
      height := 1 + max (nd s r.rootIdx).height (nd s d.rootIdx).height } ∧
    nd (balance s iA).1 iB = { nd s iB with
      parentOrNext := nullNode
      child1 := iA
      child2 := e.rootIdx
      aabb := (((nd s r.rootIdx).aabb).combine ((nd s d.rootIdx).aabb)).combine
        ((nd s e.rootIdx).aabb)
      height := 1 + max (1 + max (nd s r.rootIdx).height (nd s d.rootIdx).height)
        ((nd s e.rootIdx).height) } ∧
    nd (balance s iA).1 d.rootIdx = { nd s d.rootIdx with parentOrNext := iA } ∧
    (balance s iA).1.root = iB ∧
    (balance s iA).1.freeList = s.freeList ∧
    (balance s iA).1.nodeCount = s.nodeCount ∧
    (balance s iA).1.nodeCapacity = s.nodeCapacity ∧
    (balance s iA).1.nodes.length = s.nodes.length := by
  have hbal1 : ¬ 1 < (nd s r.rootIdx).height - (nd s iB).height := by
    omega
  unfold balance
  rw [if_neg hgate]
  dsimp only
  simp only [hc1, hc2, hcB1, hcB2]
  rw [if_neg hbal1, if_pos hbal]
  simp only [nd_setNode_self, nd_setNode_other, inPool_setNode, nd_setRoot, inPool_setRoot,
    setNode_root, setRoot_root, setNode_freeList, setRoot_freeList, setNode_nodeCount,
    setRoot_nodeCount, setNode_nodeCapacity, setRoot_nodeCapacity, setNode_length,
    setRoot_nodes,
    hAin, hBin, hDin, hEin, hRin,
    hc1, hc2, hcB1, hcB2, hpa,
    hAB, hAD, hAE, hAR, hBD, hBE, hBR, hDE, hDR, hER,
    Ne.symm hAB, Ne.symm hAD, Ne.symm hAE, Ne.symm hAR, Ne.symm hBD, Ne.symm hBE,
    Ne.symm hBR, Ne.symm hDE, Ne.symm hDR, Ne.symm hER,
    hde,
    eq_self_iff_true, ne_eq, not_true, not_false_iff, ite_true, ite_false, and_true,
    true_and]

theorem rotB_frame_nil_F {s : DTree} {iA iB : Int} {d e r : TView}
    (hc1 : (nd s iA).child1 = iB)
    (hc2 : (nd s iA).child2 = r.rootIdx)
    (hcB1 : (nd s iB).child1 = d.rootIdx)
    (hcB2 : (nd s iB).child2 = e.rootIdx)
    (hpa : (nd s iA).parentOrNext = nullNode)
    (hAin : inPool s iA) (hBin : inPool s iB) (hDin : inPool s d.rootIdx)
    (hEin : inPool s e.rootIdx) (hRin : inPool s r.rootIdx)
    (hAB : iA ≠ iB) (hAD : iA ≠ d.rootIdx) (hAE : iA ≠ e.rootIdx) (hAR : iA ≠ r.rootIdx)
    (hBD : iB ≠ d.rootIdx) (hBE : iB ≠ e.rootIdx) (hBR : iB ≠ r.rootIdx)
    (hDE : d.rootIdx ≠ e.rootIdx) (hDR : d.rootIdx ≠ r.rootIdx)
    (hER : e.rootIdx ≠ r.rootIdx)
    (hgate : ¬ ((nd s iA).IsLeaf ∨ (nd s iA).height < 2))
    (hbal : (nd s r.rootIdx).height - (nd s iB).height < -1)
    (hde : ¬ (nd s e.rootIdx).height < (nd s d.rootIdx).height)
    (j : Int) (n1 : j ≠ iA) (n2 : j ≠ iB) (n3 : j ≠ d.rootIdx) :
    nd (balance s iA).1 j = nd s j := by
  have hbal1 : ¬ 1 < (nd s r.rootIdx).height - (nd s iB).height := by
    omega
  unfold balance
  rw [if_neg hgate]
  dsimp only
  simp only [hc1, hc2, hcB1, hcB2]
  rw [if_neg hbal1, if_pos hbal]
  simp only [nd_setNode_self, nd_setNode_other, inPool_setNode, nd_setRoot, inPool_setRoot,
    setNode_root, setRoot_root, setNode_freeList, setRoot_freeList, setNode_nodeCount,
    setRoot_nodeCount, setNode_nodeCapacity, setRoot_nodeCapacity, setNode_length,
    setRoot_nodes,
    hAin, hBin, hDin, hEin, hRin,
    hc1, hc2, hcB1, hcB2, hpa,
    hAB, hAD, hAE, hAR, hBD, hBE, hBR, hDE, hDR, hER,
    Ne.symm hAB, Ne.symm hAD, Ne.symm hAE, Ne.symm hAR, Ne.symm hBD, Ne.symm hBE,
    Ne.symm hBR, Ne.symm hDE, Ne.symm hDR, Ne.symm hER,
    hde,
    eq_self_iff_true, ne_eq, not_true, not_false_iff, ite_true, ite_false, and_true,
    true_and,
    n1, n2, n3, Ne.symm n1, Ne.symm n2, Ne.symm n3]

theorem rotB_key_cons_T_T {s : DTree} {iA iB P : Int} {d e r : TView}
    (hc1 : (nd s iA).child1 = iB)
    (hc2 : (nd s iA).child2 = r.rootIdx)
    (hcB1 : (nd s iB).child1 = d.rootIdx)
    (hcB2 : (nd s iB).child2 = e.rootIdx)
    (hpa : (nd s iA).parentOrNext = P)
    (hPnn : ¬ P = nullNode)
    (hPin : inPool s P)
    (hPA : P ≠ iA) (hPB : P ≠ iB) (hPD : P ≠ d.rootIdx)
    (hPE : P ≠ e.rootIdx) (hPR : P ≠ r.rootIdx)
    (htest : (nd s P).child1 = iA)
    (hAin : inPool s iA) (hBin : inPool s iB) (hDin : inPool s d.rootIdx)
    (hEin : inPool s e.rootIdx) (hRin : inPool s r.rootIdx)
    (hAB : iA ≠ iB) (hAD : iA ≠ d.rootIdx) (hAE : iA ≠ e.rootIdx) (hAR : iA ≠ r.rootIdx)
    (hBD : iB ≠ d.rootIdx) (hBE : iB ≠ e.rootIdx) (hBR : iB ≠ r.rootIdx)
    (hDE : d.rootIdx ≠ e.rootIdx) (hDR : d.rootIdx ≠ r.rootIdx)
    (hER : e.rootIdx ≠ r.rootIdx)
    (hgate : ¬ ((nd s iA).IsLeaf ∨ (nd s iA).height < 2))
    (hbal : (nd s r.rootIdx).height - (nd s iB).height < -1)
    (hde : (nd s e.rootIdx).height < (nd s d.rootIdx).height) :
    (balance s iA).2 = iB ∧
    nd (balance s iA).1 iA = { nd s iA with
      parentOrNext := iB
      child1 := e.rootIdx
      aabb := ((nd s r.rootIdx).aabb).combine ((nd s e.rootIdx).aabb)
      height := 1 + max (nd s r.rootIdx).height (nd s e.rootIdx).height } ∧
    nd (balance s iA).1 iB = { nd s iB with
      parentOrNext := P
      child1 := iA
      child2 := d.rootIdx
      aabb := (((nd s r.rootIdx).aabb).combine ((nd s e.rootIdx).aabb)).combine
        ((nd s d.rootIdx).aabb)
      height := 1 + max (1 + max (nd s r.rootIdx).height (nd s e.rootIdx).height)
        ((nd s d.rootIdx).height) } ∧
    nd (balance s iA).1 e.rootIdx = { nd s e.rootIdx with parentOrNext := iA } ∧
    (balance s iA).1.root = s.root ∧
    nd (balance s iA).1 P = { nd s P with child1 := iB } ∧
    (balance s iA).1.freeList = s.freeList ∧
    (balance s iA).1.nodeCount = s.nodeCount ∧
    (balance s iA).1.nodeCapacity = s.nodeCapacity ∧
    (balance s iA).1.nodes.length = s.nodes.length := by
  have hbal1 : ¬ 1 < (nd s r.rootIdx).height - (nd s iB).height := by
    omega
  unfold balance
  rw [if_neg hgate]
  dsimp only
  simp only [hc1, hc2, hcB1, hcB2]
  rw [if_neg hbal1, if_pos hbal]
  simp only [nd_setNode_self, nd_setNode_other, inPool_setNode, nd_setRoot, inPool_setRoot,
    setNode_root, setRoot_root, setNode_freeList, setRoot_freeList, setNode_nodeCount,
    setRoot_nodeCount, setNode_nodeCapacity, setRoot_nodeCapacity, setNode_length,
    setRoot_nodes,
    hAin, hBin, hDin, hEin, hRin,
    hc1, hc2, hcB1, hcB2, hpa,
    hPnn, htest, hPA, hPB, hPD, hPE, hPR,
    Ne.symm hPA, Ne.symm hPB, Ne.symm hPD, Ne.symm hPE, Ne.symm hPR, hPin,
    hAB, hAD, hAE, hAR, hBD, hBE, hBR, hDE, hDR, hER,
    Ne.symm hAB, Ne.symm hAD, Ne.symm hAE, Ne.symm hAR, Ne.symm hBD, Ne.symm hBE,
    Ne.symm hBR, Ne.symm hDE, Ne.symm hDR, Ne.symm hER,
    hde,
    eq_self_iff_true, ne_eq, not_true, not_false_iff, ite_true, ite_false, and_true,
    true_and]

theorem rotB_frame_cons_T_T {s : DTree} {iA iB P : Int} {d e r : TView}
    (hc1 : (nd s iA).child1 = iB)
    (hc2 : (nd s iA).child2 = r.rootIdx)
    (hcB1 : (nd s iB).child1 = d.rootIdx)
    (hcB2 : (nd s iB).child2 = e.rootIdx)
    (hpa : (nd s iA).parentOrNext = P)
    (hPnn : ¬ P = nullNode)
    (hPin : inPool s P)
    (hPA : P ≠ iA) (hPB : P ≠ iB) (hPD : P ≠ d.rootIdx)
    (hPE : P ≠ e.rootIdx) (hPR : P ≠ r.rootIdx)
    (htest : (nd s P).child1 = iA)
    (hAin : inPool s iA) (hBin : inPool s iB) (hDin : inPool s d.rootIdx)
    (hEin : inPool s e.rootIdx) (hRin : inPool s r.rootIdx)
    (hAB : iA ≠ iB) (hAD : iA ≠ d.rootIdx) (hAE : iA ≠ e.rootIdx) (hAR : iA ≠ r.rootIdx)
    (hBD : iB ≠ d.rootIdx) (hBE : iB ≠ e.rootIdx) (hBR : iB ≠ r.rootIdx)
    (hDE : d.rootIdx ≠ e.rootIdx) (hDR : d.rootIdx ≠ r.rootIdx)
    (hER : e.rootIdx ≠ r.rootIdx)
    (hgate : ¬ ((nd s iA).IsLeaf ∨ (nd s iA).height < 2))
    (hbal : (nd s r.rootIdx).height - (nd s iB).height < -1)
    (hde : (nd s e.rootIdx).height < (nd s d.rootIdx).height)
    (j : Int) (n1 : j ≠ iA) (n2 : j ≠ iB) (n3 : j ≠ e.rootIdx) (nP : j ≠ P) :
    nd (balance s iA).1 j = nd s j := by
  have hbal1 : ¬ 1 < (nd s r.rootIdx).height - (nd s iB).height := by
    omega
  unfold balance
  rw [if_neg hgate]
  dsimp only
  simp only [hc1, hc2, hcB1, hcB2]
  rw [if_neg hbal1, if_pos hbal]
  simp only [nd_setNode_self, nd_setNode_other, inPool_setNode, nd_setRoot, inPool_setRoot,
    setNode_root, setRoot_root, setNode_freeList, setRoot_freeList, setNode_nodeCount,
    setRoot_nodeCount, setNode_nodeCapacity, setRoot_nodeCapacity, setNode_length,
    setRoot_nodes,
    hAin, hBin, hDin, hEin, hRin,
    hc1, hc2, hcB1, hcB2, hpa,
    hPnn, htest, hPA, hPB, hPD, hPE, hPR,
    Ne.symm hPA, Ne.symm hPB, Ne.symm hPD, Ne.symm hPE, Ne.symm hPR, hPin,
    hAB, hAD, hAE, hAR, hBD, hBE, hBR, hDE, hDR, hER,
    Ne.symm hAB, Ne.symm hAD, Ne.symm hAE, Ne.symm hAR, Ne.symm hBD, Ne.symm hBE,
    Ne.symm hBR, Ne.symm hDE, Ne.symm hDR, Ne.symm hER,
    hde,
    eq_self_iff_true, ne_eq, not_true, not_false_iff, ite_true, ite_false, and_true,
    true_and,
    n1, n2, n3, Ne.symm n1, Ne.symm n2, Ne.symm n3, nP, Ne.symm nP]

theorem rotB_key_cons_T_F {s : DTree} {iA iB P : Int} {d e r : TView}
    (hc1 : (nd s iA).child1 = iB)
    (hc2 : (nd s iA).child2 = r.rootIdx)
    (hcB1 : (nd s iB).child1 = d.rootIdx)
    (hcB2 : (nd s iB).child2 = e.rootIdx)
    (hpa : (nd s iA).parentOrNext = P)
    (hPnn : ¬ P = nullNode)
    (hPin : inPool s P)
    (hPA : P ≠ iA) (hPB : P ≠ iB) (hPD : P ≠ d.rootIdx)
    (hPE : P ≠ e.rootIdx) (hPR : P ≠ r.rootIdx)
    (htest : ¬ (nd s P).child1 = iA)
    (hAin : inPool s iA) (hBin : inPool s iB) (hDin : inPool s d.rootIdx)
    (hEin : inPool s e.rootIdx) (hRin : inPool s r.rootIdx)
    (hAB : iA ≠ iB) (hAD : iA ≠ d.rootIdx) (hAE : iA ≠ e.rootIdx) (hAR : iA ≠ r.rootIdx)
    (hBD : iB ≠ d.rootIdx) (hBE : iB ≠ e.rootIdx) (hBR : iB ≠ r.rootIdx)
    (hDE : d.rootIdx ≠ e.rootIdx) (hDR : d.rootIdx ≠ r.rootIdx)
    (hER : e.rootIdx ≠ r.rootIdx)
    (hgate : ¬ ((nd s iA).IsLeaf ∨ (nd s iA).height < 2))
    (hbal : (nd s r.rootIdx).height - (nd s iB).height < -1)
    (hde : (nd s e.rootIdx).height < (nd s d.rootIdx).height) :
    (balance s iA).2 = iB ∧
    nd (balance s iA).1 iA = { nd s iA with
      parentOrNext := iB
      child1 := e.rootIdx
      aabb := ((nd s r.rootIdx).aabb).combine ((nd s e.rootIdx).aabb)
      height := 1 + max (nd s r.rootIdx).height (nd s e.rootIdx).height } ∧
    nd (balance s iA).1 iB = { nd s iB with
      parentOrNext := P
      child1 := iA
      child2 := d.rootIdx
      aabb := (((nd s r.rootIdx).aabb).combine ((nd s e.rootIdx).aabb)).combine
        ((nd s d.rootIdx).aabb)
      height := 1 + max (1 + max (nd s r.rootIdx).height (nd s e.rootIdx).height)
        ((nd s d.rootIdx).height) } ∧
    nd (balance s iA).1 e.rootIdx = { nd s e.rootIdx with parentOrNext := iA } ∧
    (balance s iA).1.root = s.root ∧
    nd (balance s iA).1 P = { nd s P with child2 := iB } ∧
    (balance s iA).1.freeList = s.freeList ∧
    (balance s iA).1.nodeCount = s.nodeCount ∧
    (balance s iA).1.nodeCapacity = s.nodeCapacity ∧
    (balance s iA).1.nodes.length = s.nodes.length := by
  have hbal1 : ¬ 1 < (nd s r.rootIdx).height - (nd s iB).height := by
    omega
  unfold balance
  rw [if_neg hgate]
  dsimp only
  simp only [hc1, hc2, hcB1, hcB2]
  rw [if_neg hbal1, if_pos hbal]
  simp only [nd_setNode_self, nd_setNode_other, inPool_setNode, nd_setRoot, inPool_setRoot,
    setNode_root, setRoot_root, setNode_freeList, setRoot_freeList, setNode_nodeCount,
    setRoot_nodeCount, setNode_nodeCapacity, setRoot_nodeCapacity, setNode_length,
    setRoot_nodes,
    hAin, hBin, hDin, hEin, hRin,
    hc1, hc2, hcB1, hcB2, hpa,
    hPnn, htest, hPA, hPB, hPD, hPE, hPR,
    Ne.symm hPA, Ne.symm hPB, Ne.symm hPD, Ne.symm hPE, Ne.symm hPR, hPin,
    hAB, hAD, hAE, hAR, hBD, hBE, hBR, hDE, hDR, hER,
    Ne.symm hAB, Ne.symm hAD, Ne.symm hAE, Ne.symm hAR, Ne.symm hBD, Ne.symm hBE,
    Ne.symm hBR, Ne.symm hDE, Ne.symm hDR, Ne.symm hER,
    hde,
    eq_self_iff_true, ne_eq, not_true, not_false_iff, ite_true, ite_false, and_true,
    true_and]

theorem rotB_frame_cons_T_F {s : DTree} {iA iB P : Int} {d e r : TView}
    (hc1 : (nd s iA).child1 = iB)
    (hc2 : (nd s iA).child2 = r.rootIdx)
    (hcB1 : (nd s iB).child1 = d.rootIdx)
    (hcB2 : (nd s iB).child2 = e.rootIdx)
    (hpa : (nd s iA).parentOrNext = P)
    (hPnn : ¬ P = nullNode)
    (hPin : inPool s P)
    (hPA : P ≠ iA) (hPB : P ≠ iB) (hPD : P ≠ d.rootIdx)
    (hPE : P ≠ e.rootIdx) (hPR : P ≠ r.rootIdx)
    (htest : ¬ (nd s P).child1 = iA)
    (hAin : inPool s iA) (hBin : inPool s iB) (hDin : inPool s d.rootIdx)
    (hEin : inPool s e.rootIdx) (hRin : inPool s r.rootIdx)
    (hAB : iA ≠ iB) (hAD : iA ≠ d.rootIdx) (hAE : iA ≠ e.rootIdx) (hAR : iA ≠ r.rootIdx)
    (hBD : iB ≠ d.rootIdx) (hBE : iB ≠ e.rootIdx) (hBR : iB ≠ r.rootIdx)
    (hDE : d.rootIdx ≠ e.rootIdx) (hDR : d.rootIdx ≠ r.rootIdx)
    (hER : e.rootIdx ≠ r.rootIdx)
    (hgate : ¬ ((nd s iA).IsLeaf ∨ (nd s iA).height < 2))
    (hbal : (nd s r.rootIdx).height - (nd s iB).height < -1)
    (hde : (nd s e.rootIdx).height < (nd s d.rootIdx).height)
    (j : Int) (n1 : j ≠ iA) (n2 : j ≠ iB) (n3 : j ≠ e.rootIdx) (nP : j ≠ P) :
    nd (balance s iA).1 j = nd s j := by
  have hbal1 : ¬ 1 < (nd s r.rootIdx).height - (nd s iB).height := by
    omega
  unfold balance
  rw [if_neg hgate]
  dsimp only
  simp only [hc1, hc2, hcB1, hcB2]
  rw [if_neg hbal1, if_pos hbal]
  simp only [nd_setNode_self, nd_setNode_other, inPool_setNode, nd_setRoot, inPool_setRoot,
    setNode_root, setRoot_root, setNode_freeList, setRoot_freeList, setNode_nodeCount,
    setRoot_nodeCount, setNode_nodeCapacity, setRoot_nodeCapacity, setNode_length,
    setRoot_nodes,
    hAin, hBin, hDin, hEin, hRin,
    hc1, hc2, hcB1, hcB2, hpa,
    hPnn, htest, hPA, hPB, hPD, hPE, hPR,
    Ne.symm hPA, Ne.symm hPB, Ne.symm hPD, Ne.symm hPE, Ne.symm hPR, hPin,
    hAB, hAD, hAE, hAR, hBD, hBE, hBR, hDE, hDR, hER,
    Ne.symm hAB, Ne.symm hAD, Ne.symm hAE, Ne.symm hAR, Ne.symm hBD, Ne.symm hBE,
    Ne.symm hBR, Ne.symm hDE, Ne.symm hDR, Ne.symm hER,
    hde,
    eq_self_iff_true, ne_eq, not_true, not_false_iff, ite_true, ite_false, and_true,
    true_and,
    n1, n2, n3, Ne.symm n1, Ne.symm n2, Ne.symm n3, nP, Ne.symm nP]

theorem rotB_key_cons_F_T {s : DTree} {iA iB P : Int} {d e r : TView}
    (hc1 : (nd s iA).child1 = iB)
    (hc2 : (nd s iA).child2 = r.rootIdx)
    (hcB1 : (nd s iB).child1 = d.rootIdx)
    (hcB2 : (nd s iB).child2 = e.rootIdx)
    (hpa : (nd s iA).parentOrNext = P)
    (hPnn : ¬ P = nullNode)
    (hPin : inPool s P)
    (hPA : P ≠ iA) (hPB : P ≠ iB) (hPD : P ≠ d.rootIdx)
    (hPE : P ≠ e.rootIdx) (hPR : P ≠ r.rootIdx)
    (htest : (nd s P).child1 = iA)
    (hAin : inPool s iA) (hBin : inPool s iB) (hDin : inPool s d.rootIdx)
    (hEin : inPool s e.rootIdx) (hRin : inPool s r.rootIdx)
    (hAB : iA ≠ iB) (hAD : iA ≠ d.rootIdx) (hAE : iA ≠ e.rootIdx) (hAR : iA ≠ r.rootIdx)
    (hBD : iB ≠ d.rootIdx) (hBE : iB ≠ e.rootIdx) (hBR : iB ≠ r.rootIdx)
    (hDE : d.rootIdx ≠ e.rootIdx) (hDR : d.rootIdx ≠ r.rootIdx)
    (hER : e.rootIdx ≠ r.rootIdx)
    (hgate : ¬ ((nd s iA).IsLeaf ∨ (nd s iA).height < 2))
    (hbal : (nd s r.rootIdx).height - (nd s iB).height < -1)
    (hde : ¬ (nd s e.rootIdx).height < (nd s d.rootIdx).height) :
    (balance s iA).2 = iB ∧
    nd (balance s iA).1 iA = { nd s iA with
      parentOrNext := iB
      child1 := d.rootIdx
      aabb := ((nd s r.rootIdx).aabb).combine ((nd s d.rootIdx).aabb)
      height := 1 + max (nd s r.rootIdx).height (nd s d.rootIdx).height } ∧
    nd (balance s iA).1 iB = { nd s iB with
      parentOrNext := P
      child1 := iA
      child2 := e.rootIdx
      aabb := (((nd s r.rootIdx).aabb).combine ((nd s d.rootIdx).aabb)).combine
        ((nd s e.rootIdx).aabb)
      height := 1 + max (1 + max (nd s r.rootIdx).height (nd s d.rootIdx).height)
        ((nd s e.rootIdx).height) } ∧
    nd (balance s iA).1 d.rootIdx = { nd s d.rootIdx with parentOrNext := iA } ∧
    (balance s iA).1.root = s.root ∧
    nd (balance s iA).1 P = { nd s P with child1 := iB } ∧
    (balance s iA).1.freeList = s.freeList ∧
    (balance s iA).1.nodeCount = s.nodeCount ∧
    (balance s iA).1.nodeCapacity = s.nodeCapacity ∧
    (balance s iA).1.nodes.length = s.nodes.length := by
  have hbal1 : ¬ 1 < (nd s r.rootIdx).height - (nd s iB).height := by
    omega
  unfold balance
  rw [if_neg hgate]
  dsimp only
  simp only [hc1, hc2, hcB1, hcB2]
  rw [if_neg hbal1, if_pos hbal]
  simp only [nd_setNode_self, nd_setNode_other, inPool_setNode, nd_setRoot, inPool_setRoot,
    setNode_root, setRoot_root, setNode_freeList, setRoot_freeList, setNode_nodeCount,
    setRoot_nodeCount, setNode_nodeCapacity, setRoot_nodeCapacity, setNode_length,
    setRoot_nodes,
    hAin, hBin, hDin, hEin, hRin,
    hc1, hc2, hcB1, hcB2, hpa,
    hPnn, htest, hPA, hPB, hPD, hPE, hPR,
    Ne.symm hPA, Ne.symm hPB, Ne.symm hPD, Ne.symm hPE, Ne.symm hPR, hPin,
    hAB, hAD, hAE, hAR, hBD, hBE, hBR, hDE, hDR, hER,
    Ne.symm hAB, Ne.symm hAD, Ne.symm hAE, Ne.symm hAR, Ne.symm hBD, Ne.symm hBE,
    Ne.symm hBR, Ne.symm hDE, Ne.symm hDR, Ne.symm hER,
    hde,
    eq_self_iff_true, ne_eq, not_true, not_false_iff, ite_true, ite_false, and_true,
    true_and]

theorem rotB_frame_cons_F_T {s : DTree} {iA iB P : Int} {d e r : TView}
    (hc1 : (nd s iA).child1 = iB)
    (hc2 : (nd s iA).child2 = r.rootIdx)
    (hcB1 : (nd s iB).child1 = d.rootIdx)
    (hcB2 : (nd s iB).child2 = e.rootIdx)
    (hpa : (nd s iA).parentOrNext = P)
    (hPnn : ¬ P = nullNode)
    (hPin : inPool s P)
    (hPA : P ≠ iA) (hPB : P ≠ iB) (hPD : P ≠ d.rootIdx)
    (hPE : P ≠ e.rootIdx) (hPR : P ≠ r.rootIdx)
    (htest : (nd s P).child1 = iA)
    (hAin : inPool s iA) (hBin : inPool s iB) (hDin : inPool s d.rootIdx)
    (hEin : inPool s e.rootIdx) (hRin : inPool s r.rootIdx)
    (hAB : iA ≠ iB) (hAD : iA ≠ d.rootIdx) (hAE : iA ≠ e.rootIdx) (hAR : iA ≠ r.rootIdx)
    (hBD : iB ≠ d.rootIdx) (hBE : iB ≠ e.rootIdx) (hBR : iB ≠ r.rootIdx)
    (hDE : d.rootIdx ≠ e.rootIdx) (hDR : d.rootIdx ≠ r.rootIdx)
    (hER : e.rootIdx ≠ r.rootIdx)
    (hgate : ¬ ((nd s iA).IsLeaf ∨ (nd s iA).height < 2))
    (hbal : (nd s r.rootIdx).height - (nd s iB).height < -1)
    (hde : ¬ (nd s e.rootIdx).height < (nd s d.rootIdx).height)
    (j : Int) (n1 : j ≠ iA) (n2 : j ≠ iB) (n3 : j ≠ d.rootIdx) (nP : j ≠ P) :
    nd (balance s iA).1 j = nd s j := by
  have hbal1 : ¬ 1 < (nd s r.rootIdx).height - (nd s iB).height := by
    omega
  unfold balance
  rw [if_neg hgate]
  dsimp only
  simp only [hc1, hc2, hcB1, hcB2]
  rw [if_neg hbal1, if_pos hbal]
  simp only [nd_setNode_self, nd_setNode_other, inPool_setNode, nd_setRoot, inPool_setRoot,
    setNode_root, setRoot_root, setNode_freeList, setRoot_freeList, setNode_nodeCount,
    setRoot_nodeCount, setNode_nodeCapacity, setRoot_nodeCapacity, setNode_length,
    setRoot_nodes,
    hAin, hBin, hDin, hEin, hRin,
    hc1, hc2, hcB1, hcB2, hpa,
    hPnn, htest, hPA, hPB, hPD, hPE, hPR,
    Ne.symm hPA, Ne.symm hPB, Ne.symm hPD, Ne.symm hPE, Ne.symm hPR, hPin,
    hAB, hAD, hAE, hAR, hBD, hBE, hBR, hDE, hDR, hER,
    Ne.symm hAB, Ne.symm hAD, Ne.symm hAE, Ne.symm hAR, Ne.symm hBD, Ne.symm hBE,
    Ne.symm hBR, Ne.symm hDE, Ne.symm hDR, Ne.symm hER,
    hde,
    eq_self_iff_true, ne_eq, not_true, not_false_iff, ite_true, ite_false, and_true,
    true_and,
    n1, n2, n3, Ne.symm n1, Ne.symm n2, Ne.symm n3, nP, Ne.symm nP]

theorem rotB_key_cons_F_F {s : DTree} {iA iB P : Int} {d e r : TView}
    (hc1 : (nd s iA).child1 = iB)
    (hc2 : (nd s iA).child2 = r.rootIdx)
    (hcB1 : (nd s iB).child1 = d.rootIdx)
    (hcB2 : (nd s iB).child2 = e.rootIdx)
    (hpa : (nd s iA).parentOrNext = P)
    (hPnn : ¬ P = nullNode)
    (hPin : inPool s P)
    (hPA : P ≠ iA) (hPB : P ≠ iB) (hPD : P ≠ d.rootIdx)
    (hPE : P ≠ e.rootIdx) (hPR : P ≠ r.rootIdx)
    (htest : ¬ (nd s P).child1 = iA)
    (hAin : inPool s iA) (hBin : inPool s iB) (hDin : inPool s d.rootIdx)
    (hEin : inPool s e.rootIdx) (hRin : inPool s r.rootIdx)
    (hAB : iA ≠ iB) (hAD : iA ≠ d.rootIdx) (hAE : iA ≠ e.rootIdx) (hAR : iA ≠ r.rootIdx)
    (hBD : iB ≠ d.rootIdx) (hBE : iB ≠ e.rootIdx) (hBR : iB ≠ r.rootIdx)
    (hDE : d.rootIdx ≠ e.rootIdx) (hDR : d.rootIdx ≠ r.rootIdx)
    (hER : e.rootIdx ≠ r.rootIdx)
    (hgate : ¬ ((nd s iA).IsLeaf ∨ (nd s iA).height < 2))
    (hbal : (nd s r.rootIdx).height - (nd s iB).height < -1)
    (hde : ¬ (nd s e.rootIdx).height < (nd s d.rootIdx).height) :
    (balance s iA).2 = iB ∧
    nd (balance s iA).1 iA = { nd s iA with
      parentOrNext := iB
      child1 := d.rootIdx
      aabb := ((nd s r.rootIdx).aabb).combine ((nd s d.rootIdx).aabb)
      height := 1 + max (nd s r.rootIdx).height (nd s d.rootIdx).height } ∧
    nd (balance s iA).1 iB = { nd s iB with
      parentOrNext := P
      child1 := iA
      child2 := e.rootIdx
      aabb := (((nd s r.rootIdx).aabb).combine ((nd s d.rootIdx).aabb)).combine
        ((nd s e.rootIdx).aabb)
      height := 1 + max (1 + max (nd s r.rootIdx).height (nd s d.rootIdx).height)
        ((nd s e.rootIdx).height) } ∧
    nd (balance s iA).1 d.rootIdx = { nd s d.rootIdx with parentOrNext := iA } ∧
    (balance s iA).1.root = s.root ∧
    nd (balance s iA).1 P = { nd s P with child2 := iB } ∧
    (balance s iA).1.freeList = s.freeList ∧
    (balance s iA).1.nodeCount = s.nodeCount ∧
    (balance s iA).1.nodeCapacity = s.nodeCapacity ∧
    (balance s iA).1.nodes.length = s.nodes.length := by
  have hbal1 : ¬ 1 < (nd s r.rootIdx).height - (nd s iB).height := by
    omega
  unfold balance
  rw [if_neg hgate]
  dsimp only
  simp only [hc1, hc2, hcB1, hcB2]
  rw [if_neg hbal1, if_pos hbal]
  simp only [nd_setNode_self, nd_setNode_other, inPool_setNode, nd_setRoot, inPool_setRoot,
    setNode_root, setRoot_root, setNode_freeList, setRoot_freeList, setNode_nodeCount,
    setRoot_nodeCount, setNode_nodeCapacity, setRoot_nodeCapacity, setNode_length,
    setRoot_nodes,
    hAin, hBin, hDin, hEin, hRin,
    hc1, hc2, hcB1, hcB2, hpa,
    hPnn, htest, hPA, hPB, hPD, hPE, hPR,
    Ne.symm hPA, Ne.symm hPB, Ne.symm hPD, Ne.symm hPE, Ne.symm hPR, hPin,
    hAB, hAD, hAE, hAR, hBD, hBE, hBR, hDE, hDR, hER,
    Ne.symm hAB, Ne.symm hAD, Ne.symm hAE, Ne.symm hAR, Ne.symm hBD, Ne.symm hBE,
    Ne.symm hBR, Ne.symm hDE, Ne.symm hDR, Ne.symm hER,
    hde,
    eq_self_iff_true, ne_eq, not_true, not_false_iff, ite_true, ite_false, and_true,
    true_and]

theorem rotB_frame_cons_F_F {s : DTree} {iA iB P : Int} {d e r : TView}
    (hc1 : (nd s iA).child1 = iB)
    (hc2 : (nd s iA).child2 = r.rootIdx)
    (hcB1 : (nd s iB).child1 = d.rootIdx)
    (hcB2 : (nd s iB).child2 = e.rootIdx)
    (hpa : (nd s iA).parentOrNext = P)
    (hPnn : ¬ P = nullNode)
    (hPin : inPool s P)
    (hPA : P ≠ iA) (hPB : P ≠ iB) (hPD : P ≠ d.rootIdx)
    (hPE : P ≠ e.rootIdx) (hPR : P ≠ r.rootIdx)
    (htest : ¬ (nd s P).child1 = iA)
    (hAin : inPool s iA) (hBin : inPool s iB) (hDin : inPool s d.rootIdx)
    (hEin : inPool s e.rootIdx) (hRin : inPool s r.rootIdx)
    (hAB : iA ≠ iB) (hAD : iA ≠ d.rootIdx) (hAE : iA ≠ e.rootIdx) (hAR : iA ≠ r.rootIdx)
    (hBD : iB ≠ d.rootIdx) (hBE : iB ≠ e.rootIdx) (hBR : iB ≠ r.rootIdx)
    (hDE : d.rootIdx ≠ e.rootIdx) (hDR : d.rootIdx ≠ r.rootIdx)
    (hER : e.rootIdx ≠ r.rootIdx)
    (hgate : ¬ ((nd s iA).IsLeaf ∨ (nd s iA).height < 2))
    (hbal : (nd s r.rootIdx).height - (nd s iB).height < -1)
    (hde : ¬ (nd s e.rootIdx).height < (nd s d.rootIdx).height)
    (j : Int) (n1 : j ≠ iA) (n2 : j ≠ iB) (n3 : j ≠ d.rootIdx) (nP : j ≠ P) :
    nd (balance s iA).1 j = nd s j := by
  have hbal1 : ¬ 1 < (nd s r.rootIdx).height - (nd s iB).height := by
    omega
  unfold balance
  rw [if_neg hgate]
  dsimp only
  simp only [hc1, hc2, hcB1, hcB2]
  rw [if_neg hbal1, if_pos hbal]
  simp only [nd_setNode_self, nd_setNode_other, inPool_setNode, nd_setRoot, inPool_setRoot,
    setNode_root, setRoot_root, setNode_freeList, setRoot_freeList, setNode_nodeCount,
    setRoot_nodeCount, setNode_nodeCapacity, setRoot_nodeCapacity, setNode_length,
    setRoot_nodes,
    hAin, hBin, hDin, hEin, hRin,
    hc1, hc2, hcB1, hcB2, hpa,
    hPnn, htest, hPA, hPB, hPD, hPE, hPR,
    Ne.symm hPA, Ne.symm hPB, Ne.symm hPD, Ne.symm hPE, Ne.symm hPR, hPin,
    hAB, hAD, hAE, hAR, hBD, hBE, hBR, hDE, hDR, hER,
    Ne.symm hAB, Ne.symm hAD, Ne.symm hAE, Ne.symm hAR, Ne.symm hBD, Ne.symm hBE,
    Ne.symm hBR, Ne.symm hDE, Ne.symm hDR, Ne.symm hER,
    hde,
    eq_self_iff_true, ne_eq, not_true, not_false_iff, ite_true, ite_false, and_true,
    true_and,
    n1, n2, n3, Ne.symm n1, Ne.symm n2, Ne.symm n3, nP, Ne.symm nP]
theorem balance_spec_rotB {s : DTree} {iA iB : Int} {d e r : TView} {ctx : List Crumb}
    (h0 : 0 ≤ iA)
    (hc1 : (nd s iA).child1 = iB)
    (hc2 : (nd s iA).child2 = r.rootIdx)
    (hRl : Rep s (TView.node iB d e)) (hRr : Rep s r)
    (hPl : Par s (TView.node iB d e)) (hPr : Par s r)
    (hpl : (nd s iB).parentOrNext = iA)
    (hpr : (nd s r.rootIdx).parentOrNext = iA)
    (hctx : CtxOk s iA ctx)
    (hb : ∀ j ∈ (TView.node iA (TView.node iB d e) r).idxs ++ ctxIdxs ctx,
        0 ≤ j ∧ j.toNat < s.nodes.length)
    (hnd : ((TView.node iA (TView.node iB d e) r).idxs ++ ctxIdxs ctx).Nodup)
    (hgate : ¬ ((nd s iA).IsLeaf ∨ (nd s iA).height < 2))
    (hbal : (nd s r.rootIdx).height - (nd s iB).height < -1) :
    ∃ l2 r2 : TView,
      0 ≤ (balance s iA).2 ∧
      (nd (balance s iA).1 (balance s iA).2).child1 = l2.rootIdx ∧
      (nd (balance s iA).1 (balance s iA).2).child2 = r2.rootIdx ∧
      Rep (balance s iA).1 l2 ∧ Rep (balance s iA).1 r2 ∧
      Par (balance s iA).1 l2 ∧ Par (balance s iA).1 r2 ∧
      (nd (balance s iA).1 l2.rootIdx).parentOrNext = (balance s iA).2 ∧
      (nd (balance s iA).1 r2.rootIdx).parentOrNext = (balance s iA).2 ∧
      CtxOk (balance s iA).1 (balance s iA).2 ctx ∧
      ((balance s iA).2 :: (l2.idxs ++ r2.idxs)).Perm
        ((TView.node iA (TView.node iB d e) r).idxs) ∧
      (∀ j : Int, j ∉ (TView.node iA (TView.node iB d e) r).idxs →
        j ∉ ctxIdxs ctx → nd (balance s iA).1 j = nd s j) ∧
      (balance s iA).1.freeList = s.freeList ∧
      (balance s iA).1.nodeCount = s.nodeCount ∧
      (balance s iA).1.nodeCapacity = s.nodeCapacity ∧
      (balance s iA).1.nodes.length = s.nodes.length := by
  obtain ⟨hB0, hcB1, hcB2, hhB, haB, hRd, hRe⟩ := hRl
  obtain ⟨hpd, hpe, hPd, hPe⟩ := hPl
  have hD0 : 0 ≤ d.rootIdx := Rep_rootIdx_nonneg hRd
  have hE0 : 0 ≤ e.rootIdx := Rep_rootIdx_nonneg hRe
  have hR0 : 0 ≤ r.rootIdx := Rep_rootIdx_nonneg hRr
  have hmem : ∀ j : Int, (j = iA ∨ j = iB ∨ j ∈ d.idxs ∨ j ∈ e.idxs ∨ j ∈ r.idxs ∨
      j ∈ ctxIdxs ctx) →
      j ∈ (TView.node iA (TView.node iB d e) r).idxs ++ ctxIdxs ctx := by
    intro j hj
    simp only [idxs_node, List.cons_append, List.mem_cons, List.mem_append]
    tauto
  have hAin : inPool s iA := ⟨h0, (hb iA (hmem iA (Or.inl rfl))).2⟩
  have hBin : inPool s iB := ⟨hB0, (hb iB (hmem iB (Or.inr (Or.inl rfl)))).2⟩
  have hDin : inPool s d.rootIdx :=
    ⟨hD0, (hb _ (hmem _ (Or.inr (Or.inr (Or.inl (rootIdx_mem d)))))).2⟩
  have hEin : inPool s e.rootIdx :=
    ⟨hE0, (hb _ (hmem _ (Or.inr (Or.inr (Or.inr (Or.inl (rootIdx_mem e))))))).2⟩
  have hRin : inPool s r.rootIdx :=
    ⟨hR0, (hb _ (hmem _ (Or.inr (Or.inr (Or.inr (Or.inr (Or.inl (rootIdx_mem r)))))))).2⟩
  rw [idxs_node, idxs_node] at hnd
  obtain ⟨⟨hABne, hAD, hAE, hAR, hAK⟩, ⟨hBD, hBE, hBR, hBK⟩, hDEd, hDRd, hDK, hERd, hEK,
    hRK, hDnd, hEnd, hRnd, hKnd⟩ := crackL hnd
  have hAB : iA ≠ iB := hABne
  have hAD' : iA ≠ d.rootIdx := fun h => hAD (h ▸ rootIdx_mem d)
  have hAE' : iA ≠ e.rootIdx := fun h => hAE (h ▸ rootIdx_mem e)
  have hAR' : iA ≠ r.rootIdx := fun h => hAR (h ▸ rootIdx_mem r)
  have hBD' : iB ≠ d.rootIdx := fun h => hBD (h ▸ rootIdx_mem d)
  have hBE' : iB ≠ e.rootIdx := fun h => hBE (h ▸ rootIdx_mem e)
  have hBR' : iB ≠ r.rootIdx := fun h => hBR (h ▸ rootIdx_mem r)
  have hDE' : d.rootIdx ≠ e.rootIdx := fun h => hDEd _ (rootIdx_mem d) (h ▸ rootIdx_mem e)
  have hDR' : d.rootIdx ≠ r.rootIdx := fun h => hDRd _ (rootIdx_mem d) (h ▸ rootIdx_mem r)
  have hER' : e.rootIdx ≠ r.rootIdx := fun h => hERd _ (rootIdx_mem e) (h ▸ rootIdx_mem r)
  have hneD : ∀ j ∈ d.idxs, j ≠ iA ∧ j ≠ iB ∧ j ≠ e.rootIdx ∧ j ≠ r.rootIdx := by
    intro j hj
    exact ⟨fun h => hAD (h ▸ hj), fun h => hBD (h ▸ hj),
      fun h => hDEd j hj (h ▸ rootIdx_mem e), fun h => hDRd j hj (h ▸ rootIdx_mem r)⟩
  have hneE : ∀ j ∈ e.idxs, j ≠ iA ∧ j ≠ iB ∧ j ≠ d.rootIdx ∧ j ≠ r.rootIdx := by
    intro j hj
    exact ⟨fun h => hAE (h ▸ hj), fun h => hBE (h ▸ hj),
      fun h => hDEd d.rootIdx (rootIdx_mem d) (h ▸ hj),
      fun h => hERd j hj (h ▸ rootIdx_mem r)⟩
  have hneR : ∀ j ∈ r.idxs, j ≠ iA ∧ j ≠ iB ∧ j ≠ d.rootIdx ∧ j ≠ e.rootIdx := by
    intro j hj
    exact ⟨fun h => hAR (h ▸ hj), fun h => hBR (h ▸ hj),
      fun h => hDRd d.rootIdx (rootIdx_mem d) (h ▸ hj),
      fun h => hERd e.rootIdx (rootIdx_mem e) (h ▸ hj)⟩
  cases ctx with
  | nil =>
    obtain ⟨hrt, hpa⟩ := hctx
    by_cases hde : (nd s e.rootIdx).height < (nd s d.rootIdx).height
    · obtain ⟨k2, kA, kB, kM, krt, kfl, kcnt, kcap, klen⟩ :=
        rotB_key_nil_T hc1 hc2 hcB1 hcB2 hpa hAin hBin hDin hEin hRin hAB hAD' hAE' hAR' hBD' hBE' hBR' hDE' hDR' hER' hgate hbal hde
      have hframe : ∀ j : Int, j ≠ iA → j ≠ iB → j ≠ e.rootIdx →
          nd (balance s iA).1 j = nd s j := fun j n1 n2 n3 =>
        rotB_frame_nil_T hc1 hc2 hcB1 hcB2 hpa hAin hBin hDin hEin hRin hAB hAD' hAE' hAR' hBD' hBE' hBR' hDE' hDR' hER' hgate hbal hde j n1 n2 n3
      have hfR : nd (balance s iA).1 r.rootIdx = nd s r.rootIdx :=
        hframe _ (Ne.symm hAR') (Ne.symm hBR') (Ne.symm hER')
      have hfK : nd (balance s iA).1 d.rootIdx = nd s d.rootIdx :=
        hframe _ (Ne.symm hAD') (Ne.symm hBD') hDE'
      have hRr2 : Rep (balance s iA).1 r := Rep_frame (fun j hj => by
        rw [hframe j (hneR j hj).1 (hneR j hj).2.1 (hneR j hj).2.2.2]
        exact ⟨rfl, rfl, rfl, rfl⟩) hRr
      have hRm2 : Rep (balance s iA).1 e := Rep_frame (fun j hj => by
        by_cases hjm : j = e.rootIdx
        · subst hjm
          rw [kM]
          exact ⟨rfl, rfl, rfl, rfl⟩
        · rw [hframe j (hneE j hj).1 (hneE j hj).2.1 hjm]
          exact ⟨rfl, rfl, rfl, rfl⟩) hRe
      have hRk2 : Rep (balance s iA).1 d := Rep_frame (fun j hj => by
        rw [hframe j (hneD j hj).1 (hneD j hj).2.1 (hneD j hj).2.2.1]
        exact ⟨rfl, rfl, rfl, rfl⟩) hRd
      have hPr2 : Par (balance s iA).1 r := Par_frame2 (fun j hj => by
        rw [hframe j (hneR j hj).1 (hneR j hj).2.1 (hneR j hj).2.2.2]) hPr
      have hPm2 : Par (balance s iA).1 e := Par_frame hEnd (fun j hj hjr => by
        rw [hframe j (hneE j hj).1 (hneE j hj).2.1 hjr]) hPe
      have hPk2 : Par (balance s iA).1 d := Par_frame2 (fun j hj => by
        rw [hframe j (hneD j hj).1 (hneD j hj).2.1 (hneD j hj).2.2.1]) hPd
      refine ⟨TView.node iA e r, d, ?_, ?_, ?_, ?_, hRk2, ?_, hPk2, ?_, ?_, ?_,
        ?_, ?_, kfl, kcnt, kcap, klen⟩
      · rw [k2]
        exact hB0
      · rw [k2, kB]
        try rfl
      · rw [k2, kB]
        try rfl
      · refine ⟨h0, ?_, ?_, ?_, ?_, hRm2, hRr2⟩
        · rw [kA]
          try rfl
        · rw [kA]
          exact hc2
        · rw [kA, hfR, kM]
          dsimp only
          omega
        · rw [kA, hfR, kM]
          dsimp only
          exact Rect.combine_comm _ _
      · refine ⟨?_, ?_, hPm2, hPr2⟩
        · rw [kM]
          try rfl
        · rw [hfR]
          exact hpr
      · rw [show (TView.node iA e r).rootIdx = iA from rfl, k2, kA]
        try rfl
      · rw [k2, hfK]
        exact hpd
      · rw [k2]
        refine ⟨krt, ?_⟩
        rw [kB]
        try rfl
      · rw [k2]
        simp only [idxs_node]
        exact permBT iA iB d.idxs e.idxs r.idxs
      · intro j hj1 hj2
        simp only [idxs_node, List.mem_cons, List.mem_append, not_or] at hj1
        obtain ⟨njA, ⟨njB, njD, njE⟩, njR⟩ := hj1
        exact hframe j njA njB (fun h => njE (h ▸ rootIdx_mem e))
    · obtain ⟨k2, kA, kB, kM, krt, kfl, kcnt, kcap, klen⟩ :=
        rotB_key_nil_F hc1 hc2 hcB1 hcB2 hpa hAin hBin hDin hEin hRin hAB hAD' hAE' hAR' hBD' hBE' hBR' hDE' hDR' hER' hgate hbal hde
      have hframe : ∀ j : Int, j ≠ iA → j ≠ iB → j ≠ d.rootIdx →
          nd (balance s iA).1 j = nd s j := fun j n1 n2 n3 =>
        rotB_frame_nil_F hc1 hc2 hcB1 hcB2 hpa hAin hBin hDin hEin hRin hAB hAD' hAE' hAR' hBD' hBE' hBR' hDE' hDR' hER' hgate hbal hde j n1 n2 n3
      have hfR : nd (balance s iA).1 r.rootIdx = nd s r.rootIdx :=
        hframe _ (Ne.symm hAR') (Ne.symm hBR') (Ne.symm hDR')
      have hfK : nd (balance s iA).1 e.rootIdx = nd s e.rootIdx :=
        hframe _ (Ne.symm hAE') (Ne.symm hBE') (Ne.symm hDE')
      have hRr2 : Rep (balance s iA).1 r := Rep_frame (fun j hj => by
        rw [hframe j (hneR j hj).1 (hneR j hj).2.1 (hneR j hj).2.2.1]
        exact ⟨rfl, rfl, rfl, rfl⟩) hRr
      have hRm2 : Rep (balance s iA).1 d := Rep_frame (fun j hj => by
        by_cases hjm : j = d.rootIdx
        · subst hjm
          rw [kM]
          exact ⟨rfl, rfl, rfl, rfl⟩
        · rw [hframe j (hneD j hj).1 (hneD j hj).2.1 hjm]
          exact ⟨rfl, rfl, rfl, rfl⟩) hRd
      have hRk2 : Rep (balance s iA).1 e := Rep_frame (fun j hj => by
        rw [hframe j (hneE j hj).1 (hneE j hj).2.1 (hneE j hj).2.2.1]
        exact ⟨rfl, rfl, rfl, rfl⟩) hRe
      have hPr2 : Par (balance s iA).1 r := Par_frame2 (fun j hj => by
        rw [hframe j (hneR j hj).1 (hneR j hj).2.1 (hneR j hj).2.2.1]) hPr
      have hPm2 : Par (balance s iA).1 d := Par_frame hDnd (fun j hj hjr => by
        rw [hframe j (hneD j hj).1 (hneD j hj).2.1 hjr]) hPd
      have hPk2 : Par (balance s iA).1 e := Par_frame2 (fun j hj => by
        rw [hframe j (hneE j hj).1 (hneE j hj).2.1 (hneE j hj).2.2.1]) hPe
      refine ⟨TView.node iA d r, e, ?_, ?_, ?_, ?_, hRk2, ?_, hPk2, ?_, ?_, ?_,
        ?_, ?_, kfl, kcnt, kcap, klen⟩
      · rw [k2]
        exact hB0
      · rw [k2, kB]
        try rfl
      · rw [k2, kB]
        try rfl
      · refine ⟨h0, ?_, ?_, ?_, ?_, hRm2, hRr2⟩
        · rw [kA]
          try rfl
        · rw [kA]
          exact hc2
        · rw [kA, hfR, kM]
          dsimp only
          omega
        · rw [kA, hfR, kM]
          dsimp only
          exact Rect.combine_comm _ _
      · refine ⟨?_, ?_, hPm2, hPr2⟩
        · rw [kM]
          try rfl
        · rw [hfR]
          exact hpr
      · rw [show (TView.node iA d r).rootIdx = iA from rfl, k2, kA]
        try rfl
      · rw [k2, hfK]
        exact hpe
      · rw [k2]
        refine ⟨krt, ?_⟩
        rw [kB]
        try rfl
      · rw [k2]
        simp only [idxs_node]
        exact permBF iA iB d.idxs e.idxs r.idxs
      · intro j hj1 hj2
        simp only [idxs_node, List.mem_cons, List.mem_append, not_or] at hj1
        obtain ⟨njA, ⟨njB, njD, njE⟩, njR⟩ := hj1
        exact hframe j njA njB (fun h => njD (h ▸ rootIdx_mem d))
  | cons cr ctx2 =>
    obtain ⟨hp0, hpa, hch, hpo, hRo, hPo, hctx2⟩ := hctx
    have hpK : cr.p ∈ ctxIdxs (cr :: ctx2) := by
      rw [ctxIdxs_cons]
      exact List.mem_cons_self _ _
    have homemK : cr.other.rootIdx ∈ ctxIdxs (cr :: ctx2) := by
      rw [ctxIdxs_cons]
      exact List.mem_cons_of_mem _ (List.mem_append_left _ (rootIdx_mem cr.other))
    have hPin : inPool s cr.p := ⟨hp0, (hb _ (hmem _ (Or.inr (Or.inr (Or.inr (Or.inr
      (Or.inr hpK))))))).2⟩
    have hPnn : ¬ cr.p = nullNode := by
      unfold nullNode
      omega
    have hPA : cr.p ≠ iA := fun h => hAK (h ▸ hpK)
    have hPB : cr.p ≠ iB := fun h => hBK (h ▸ hpK)
    have hPD : cr.p ≠ d.rootIdx := fun h => hDK _ (rootIdx_mem d) (h ▸ hpK)
    have hPE : cr.p ≠ e.rootIdx := fun h => hEK _ (rootIdx_mem e) (h ▸ hpK)
    have hPR : cr.p ≠ r.rootIdx := fun h => hRK _ (rootIdx_mem r) (h ▸ hpK)
    rw [ctxIdxs_cons] at hKnd
    rw [List.nodup_cons] at hKnd
    obtain ⟨hPno, hOtnd⟩ := hKnd
    have hneDP : ∀ j ∈ d.idxs, j ≠ cr.p := fun j hj h => hDK j hj (h ▸ hpK)
    have hneEP : ∀ j ∈ e.idxs, j ≠ cr.p := fun j hj h => hEK j hj (h ▸ hpK)
    have hneRP : ∀ j ∈ r.idxs, j ≠ cr.p := fun j hj h => hRK j hj (h ▸ hpK)
    have hmemKof : ∀ j ∈ cr.other.idxs, j ∈ ctxIdxs (cr :: ctx2) := by
      intro j hj
      rw [ctxIdxs_cons]
      exact List.mem_cons_of_mem _ (List.mem_append_left _ hj)
    have hmemKt : ∀ j ∈ ctxIdxs ctx2, j ∈ ctxIdxs (cr :: ctx2) := by
      intro j hj
      rw [ctxIdxs_cons]
      exact List.mem_cons_of_mem _ (List.mem_append_right _ hj)
    have hneO : ∀ j ∈ cr.other.idxs, j ≠ iA ∧ j ≠ iB ∧ j ≠ d.rootIdx ∧ j ≠ e.rootIdx ∧
        j ≠ cr.p := by
      intro j hj
      refine ⟨fun h => hAK (h ▸ hmemKof j hj), fun h => hBK (h ▸ hmemKof j hj),
        fun h => hDK _ (rootIdx_mem d) (h ▸ hmemKof j hj),
        fun h => hEK _ (rootIdx_mem e) (h ▸ hmemKof j hj),
        fun h => hPno (List.mem_append_left _ (h ▸ hj))⟩
    have hneT : ∀ j ∈ ctxIdxs ctx2, j ≠ iA ∧ j ≠ iB ∧ j ≠ d.rootIdx ∧ j ≠ e.rootIdx ∧
        j ≠ cr.p := by
      intro j hj
      refine ⟨fun h => hAK (h ▸ hmemKt j hj), fun h => hBK (h ▸ hmemKt j hj),
        fun h => hDK _ (rootIdx_mem d) (h ▸ hmemKt j hj),
        fun h => hEK _ (rootIdx_mem e) (h ▸ hmemKt j hj),
        fun h => hPno (List.mem_append_right _ (h ▸ hj))⟩
    by_cases hde : (nd s e.rootIdx).height < (nd s d.rootIdx).height
    · cases hdirb : cr.dir with
      | true =>
        rw [hdirb] at hch
        rw [if_pos rfl] at hch
        obtain ⟨htest, hch2⟩ := hch
        obtain ⟨k2, kA, kB, kM, krt, kP, kfl, kcnt, kcap, klen⟩ :=
          rotB_key_cons_T_T hc1 hc2 hcB1 hcB2 hpa hPnn hPin hPA hPB hPD hPE hPR htest hAin hBin hDin hEin hRin hAB hAD' hAE' hAR' hBD' hBE' hBR' hDE' hDR' hER' hgate hbal hde
        have hframe : ∀ j : Int, j ≠ iA → j ≠ iB → j ≠ e.rootIdx → j ≠ cr.p →
            nd (balance s iA).1 j = nd s j := fun j n1 n2 n3 nP =>
          rotB_frame_cons_T_T hc1 hc2 hcB1 hcB2 hpa hPnn hPin hPA hPB hPD hPE hPR htest hAin hBin hDin hEin hRin hAB hAD' hAE' hAR' hBD' hBE' hBR' hDE' hDR' hER' hgate hbal hde j n1 n2 n3 nP
        have hfR : nd (balance s iA).1 r.rootIdx = nd s r.rootIdx :=
          hframe _ (Ne.symm hAR') (Ne.symm hBR') (Ne.symm hER') (Ne.symm hPR)
        have hfK : nd (balance s iA).1 d.rootIdx = nd s d.rootIdx :=
          hframe _ (Ne.symm hAD') (Ne.symm hBD') hDE' (Ne.symm hPD)
        have hfO : nd (balance s iA).1 cr.other.rootIdx = nd s cr.other.rootIdx := by
          have h := hneO cr.other.rootIdx (rootIdx_mem cr.other)
          exact hframe _ h.1 h.2.1 h.2.2.2.1 h.2.2.2.2
        have hRr2 : Rep (balance s iA).1 r := Rep_frame (fun j hj => by
          rw [hframe j (hneR j hj).1 (hneR j hj).2.1 (hneR j hj).2.2.2 (hneRP j hj)]
          exact ⟨rfl, rfl, rfl, rfl⟩) hRr
        have hRm2 : Rep (balance s iA).1 e := Rep_frame (fun j hj => by
          by_cases hjm : j = e.rootIdx
          · subst hjm
            rw [kM]
            exact ⟨rfl, rfl, rfl, rfl⟩
          · rw [hframe j (hneE j hj).1 (hneE j hj).2.1 hjm (hneEP j hj)]
            exact ⟨rfl, rfl, rfl, rfl⟩) hRe
        have hRk2 : Rep (balance s iA).1 d := Rep_frame (fun j hj => by
          rw [hframe j (hneD j hj).1 (hneD j hj).2.1 (hneD j hj).2.2.1 (hneDP j hj)]
          exact ⟨rfl, rfl, rfl, rfl⟩) hRd
        have hPr2 : Par (balance s iA).1 r := Par_frame2 (fun j hj => by
          rw [hframe j (hneR j hj).1 (hneR j hj).2.1 (hneR j hj).2.2.2 (hneRP j hj)]) hPr
        have hPm2 : Par (balance s iA).1 e := Par_frame hEnd (fun j hj hjr => by
          rw [hframe j (hneE j hj).1 (hneE j hj).2.1 hjr (hneEP j hj)]) hPe
        have hPk2 : Par (balance s iA).1 d := Par_frame2 (fun j hj => by
          rw [hframe j (hneD j hj).1 (hneD j hj).2.1 (hneD j hj).2.2.1 (hneDP j hj)]) hPd
        refine ⟨TView.node iA e r, d, ?_, ?_, ?_, ?_, hRk2, ?_, hPk2, ?_, ?_, ?_,
          ?_, ?_, kfl, kcnt, kcap, klen⟩
        · rw [k2]
          exact hB0
        · rw [k2, kB]
          try rfl
        · rw [k2, kB]
          try rfl
        · refine ⟨h0, ?_, ?_, ?_, ?_, hRm2, hRr2⟩
          · rw [kA]
            try rfl
          · rw [kA]
            exact hc2
          · rw [kA, hfR, kM]
            dsimp only
            omega
          · rw [kA, hfR, kM]
            dsimp only
            exact Rect.combine_comm _ _
        · refine ⟨?_, ?_, hPm2, hPr2⟩
          · rw [kM]
            try rfl
          · rw [hfR]
            exact hpr
        · rw [show (TView.node iA e r).rootIdx = iA from rfl, k2, kA]
          try rfl
        · rw [k2, hfK]
          exact hpd
        · rw [k2]
          refine ⟨hp0, ?_, ?_, ?_, ?_, ?_, ?_⟩
          · rw [kB]
            try rfl
          · rw [hdirb]
            rw [if_pos rfl]
            refine ⟨?_, ?_⟩
            · rw [kP]
              try rfl
            · rw [kP]
              exact hch2
          · rw [hfO]
            exact hpo
          · exact Rep_frame (fun j hj => by
              rw [hframe j (hneO j hj).1 (hneO j hj).2.1 (hneO j hj).2.2.2.1 (hneO j hj).2.2.2.2]
              exact ⟨rfl, rfl, rfl, rfl⟩) hRo
          · exact Par_frame2 (fun j hj => by
              rw [hframe j (hneO j hj).1 (hneO j hj).2.1 (hneO j hj).2.2.2.1 (hneO j hj).2.2.2.2]) hPo
          · refine CtxOk_frame krt ?_ (fun j hj => ?_) hctx2
            · rw [kP]
              try rfl
            · exact hframe j (hneT j hj).1 (hneT j hj).2.1 (hneT j hj).2.2.2.1 (hneT j hj).2.2.2.2
        · rw [k2]
          simp only [idxs_node]
          exact permBT iA iB d.idxs e.idxs r.idxs
        · intro j hj1 hj2
          simp only [idxs_node, List.mem_cons, List.mem_append, not_or] at hj1
          obtain ⟨njA, ⟨njB, njD, njE⟩, njR⟩ := hj1
          have hjP : j ≠ cr.p := by
            intro h
            rw [ctxIdxs_cons] at hj2
            exact hj2 (h ▸ List.mem_cons_self _ _)
          exact hframe j njA njB (fun h => njE (h ▸ rootIdx_mem e)) hjP
      | false =>
        rw [hdirb] at hch
        rw [if_neg (by simp)] at hch
        obtain ⟨hch1, hch2⟩ := hch
        have htest : ¬ (nd s cr.p).child1 = iA := by
          rw [hch1]
          intro h
          exact hAK (h ▸ homemK)
        obtain ⟨k2, kA, kB, kM, krt, kP, kfl, kcnt, kcap, klen⟩ :=
          rotB_key_cons_T_F hc1 hc2 hcB1 hcB2 hpa hPnn hPin hPA hPB hPD hPE hPR htest hAin hBin hDin hEin hRin hAB hAD' hAE' hAR' hBD' hBE' hBR' hDE' hDR' hER' hgate hbal hde
        have hframe : ∀ j : Int, j ≠ iA → j ≠ iB → j ≠ e.rootIdx → j ≠ cr.p →
            nd (balance s iA).1 j = nd s j := fun j n1 n2 n3 nP =>
          rotB_frame_cons_T_F hc1 hc2 hcB1 hcB2 hpa hPnn hPin hPA hPB hPD hPE hPR htest hAin hBin hDin hEin hRin hAB hAD' hAE' hAR' hBD' hBE' hBR' hDE' hDR' hER' hgate hbal hde j n1 n2 n3 nP
        have hfR : nd (balance s iA).1 r.rootIdx = nd s r.rootIdx :=
          hframe _ (Ne.symm hAR') (Ne.symm hBR') (Ne.symm hER') (Ne.symm hPR)
        have hfK : nd (balance s iA).1 d.rootIdx = nd s d.rootIdx :=
          hframe _ (Ne.symm hAD') (Ne.symm hBD') hDE' (Ne.symm hPD)
        have hfO : nd (balance s iA).1 cr.other.rootIdx = nd s cr.other.rootIdx := by
          have h := hneO cr.other.rootIdx (rootIdx_mem cr.other)
          exact hframe _ h.1 h.2.1 h.2.2.2.1 h.2.2.2.2
        have hRr2 : Rep (balance s iA).1 r := Rep_frame (fun j hj => by
          rw [hframe j (hneR j hj).1 (hneR j hj).2.1 (hneR j hj).2.2.2 (hneRP j hj)]
          exact ⟨rfl, rfl, rfl, rfl⟩) hRr
        have hRm2 : Rep (balance s iA).1 e := Rep_frame (fun j hj => by
          by_cases hjm : j = e.rootIdx
          · subst hjm
            rw [kM]
            exact ⟨rfl, rfl, rfl, rfl⟩
          · rw [hframe j (hneE j hj).1 (hneE j hj).2.1 hjm (hneEP j hj)]
            exact ⟨rfl, rfl, rfl, rfl⟩) hRe
        have hRk2 : Rep (balance s iA).1 d := Rep_frame (fun j hj => by
          rw [hframe j (hneD j hj).1 (hneD j hj).2.1 (hneD j hj).2.2.1 (hneDP j hj)]
          exact ⟨rfl, rfl, rfl, rfl⟩) hRd
        have hPr2 : Par (balance s iA).1 r := Par_frame2 (fun j hj => by
          rw [hframe j (hneR j hj).1 (hneR j hj).2.1 (hneR j hj).2.2.2 (hneRP j hj)]) hPr
        have hPm2 : Par (balance s iA).1 e := Par_frame hEnd (fun j hj hjr => by
          rw [hframe j (hneE j hj).1 (hneE j hj).2.1 hjr (hneEP j hj)]) hPe
        have hPk2 : Par (balance s iA).1 d := Par_frame2 (fun j hj => by
          rw [hframe j (hneD j hj).1 (hneD j hj).2.1 (hneD j hj).2.2.1 (hneDP j hj)]) hPd
        refine ⟨TView.node iA e r, d, ?_, ?_, ?_, ?_, hRk2, ?_, hPk2, ?_, ?_, ?_,
          ?_, ?_, kfl, kcnt, kcap, klen⟩
        · rw [k2]
          exact hB0
        · rw [k2, kB]
          try rfl
        · rw [k2, kB]
          try rfl
        · refine ⟨h0, ?_, ?_, ?_, ?_, hRm2, hRr2⟩
          · rw [kA]
            try rfl
          · rw [kA]
            exact hc2
          · rw [kA, hfR, kM]
            dsimp only
            omega
          · rw [kA, hfR, kM]
            dsimp only
            exact Rect.combine_comm _ _
        · refine ⟨?_, ?_, hPm2, hPr2⟩
          · rw [kM]
            try rfl
          · rw [hfR]
            exact hpr
        · rw [show (TView.node iA e r).rootIdx = iA from rfl, k2, kA]
          try rfl
        · rw [k2, hfK]
          exact hpd
        · rw [k2]
          refine ⟨hp0, ?_, ?_, ?_, ?_, ?_, ?_⟩
          · rw [kB]
            try rfl
          · rw [hdirb]
            rw [if_neg (by simp)]
            refine ⟨?_, ?_⟩
            · rw [kP]
              exact hch1
            · rw [kP]
              try rfl
          · rw [hfO]
            exact hpo
          · exact Rep_frame (fun j hj => by
              rw [hframe j (hneO j hj).1 (hneO j hj).2.1 (hneO j hj).2.2.2.1 (hneO j hj).2.2.2.2]
              exact ⟨rfl, rfl, rfl, rfl⟩) hRo
          · exact Par_frame2 (fun j hj => by
              rw [hframe j (hneO j hj).1 (hneO j hj).2.1 (hneO j hj).2.2.2.1 (hneO j hj).2.2.2.2]) hPo
          · refine CtxOk_frame krt ?_ (fun j hj => ?_) hctx2
            · rw [kP]
              try rfl
            · exact hframe j (hneT j hj).1 (hneT j hj).2.1 (hneT j hj).2.2.2.1 (hneT j hj).2.2.2.2
        · rw [k2]
          simp only [idxs_node]
          exact permBT iA iB d.idxs e.idxs r.idxs
        · intro j hj1 hj2
          simp only [idxs_node, List.mem_cons, List.mem_append, not_or] at hj1
          obtain ⟨njA, ⟨njB, njD, njE⟩, njR⟩ := hj1
          have hjP : j ≠ cr.p := by
            intro h
            rw [ctxIdxs_cons] at hj2
            exact hj2 (h ▸ List.mem_cons_self _ _)
          exact hframe j njA njB (fun h => njE (h ▸ rootIdx_mem e)) hjP
    · cases hdirb : cr.dir with
      | true =>
        rw [hdirb] at hch
        rw [if_pos rfl] at hch
        obtain ⟨htest, hch2⟩ := hch
        obtain ⟨k2, kA, kB, kM, krt, kP, kfl, kcnt, kcap, klen⟩ :=
          rotB_key_cons_F_T hc1 hc2 hcB1 hcB2 hpa hPnn hPin hPA hPB hPD hPE hPR htest hAin hBin hDin hEin hRin hAB hAD' hAE' hAR' hBD' hBE' hBR' hDE' hDR' hER' hgate hbal hde
        have hframe : ∀ j : Int, j ≠ iA → j ≠ iB → j ≠ d.rootIdx → j ≠ cr.p →
            nd (balance s iA).1 j = nd s j := fun j n1 n2 n3 nP =>
          rotB_frame_cons_F_T hc1 hc2 hcB1 hcB2 hpa hPnn hPin hPA hPB hPD hPE hPR htest hAin hBin hDin hEin hRin hAB hAD' hAE' hAR' hBD' hBE' hBR' hDE' hDR' hER' hgate hbal hde j n1 n2 n3 nP
        have hfR : nd (balance s iA).1 r.rootIdx = nd s r.rootIdx :=
          hframe _ (Ne.symm hAR') (Ne.symm hBR') (Ne.symm hDR') (Ne.symm hPR)
        have hfK : nd (balance s iA).1 e.rootIdx = nd s e.rootIdx :=
          hframe _ (Ne.symm hAE') (Ne.symm hBE') (Ne.symm hDE') (Ne.symm hPE)
        have hfO : nd (balance s iA).1 cr.other.rootIdx = nd s cr.other.rootIdx := by
          have h := hneO cr.other.rootIdx (rootIdx_mem cr.other)
          exact hframe _ h.1 h.2.1 h.2.2.1 h.2.2.2.2
        have hRr2 : Rep (balance s iA).1 r := Rep_frame (fun j hj => by
          rw [hframe j (hneR j hj).1 (hneR j hj).2.1 (hneR j hj).2.2.1 (hneRP j hj)]
          exact ⟨rfl, rfl, rfl, rfl⟩) hRr
        have hRm2 : Rep (balance s iA).1 d := Rep_frame (fun j hj => by
          by_cases hjm : j = d.rootIdx
          · subst hjm
            rw [kM]
            exact ⟨rfl, rfl, rfl, rfl⟩
          · rw [hframe j (hneD j hj).1 (hneD j hj).2.1 hjm (hneDP j hj)]
            exact ⟨rfl, rfl, rfl, rfl⟩) hRd
        have hRk2 : Rep (balance s iA).1 e := Rep_frame (fun j hj => by
          rw [hframe j (hneE j hj).1 (hneE j hj).2.1 (hneE j hj).2.2.1 (hneEP j hj)]
          exact ⟨rfl, rfl, rfl, rfl⟩) hRe
        have hPr2 : Par (balance s iA).1 r := Par_frame2 (fun j hj => by
          rw [hframe j (hneR j hj).1 (hneR j hj).2.1 (hneR j hj).2.2.1 (hneRP j hj)]) hPr
        have hPm2 : Par (balance s iA).1 d := Par_frame hDnd (fun j hj hjr => by
          rw [hframe j (hneD j hj).1 (hneD j hj).2.1 hjr (hneDP j hj)]) hPd
        have hPk2 : Par (balance s iA).1 e := Par_frame2 (fun j hj => by
          rw [hframe j (hneE j hj).1 (hneE j hj).2.1 (hneE j hj).2.2.1 (hneEP j hj)]) hPe
        refine ⟨TView.node iA d r, e, ?_, ?_, ?_, ?_, hRk2, ?_, hPk2, ?_, ?_, ?_,
          ?_, ?_, kfl, kcnt, kcap, klen⟩
        · rw [k2]
          exact hB0
        · rw [k2, kB]
          try rfl
        · rw [k2, kB]
          try rfl
        · refine ⟨h0, ?_, ?_, ?_, ?_, hRm2, hRr2⟩
          · rw [kA]
            try rfl
          · rw [kA]
            exact hc2
          · rw [kA, hfR, kM]
            dsimp only
            omega
          · rw [kA, hfR, kM]
            dsimp only
            exact Rect.combine_comm _ _
        · refine ⟨?_, ?_, hPm2, hPr2⟩
          · rw [kM]
            try rfl
          · rw [hfR]
            exact hpr
        · rw [show (TView.node iA d r).rootIdx = iA from rfl, k2, kA]
          try rfl
        · rw [k2, hfK]
          exact hpe
        · rw [k2]
          refine ⟨hp0, ?_, ?_, ?_, ?_, ?_, ?_⟩
          · rw [kB]
            try rfl
          · rw [hdirb]
            rw [if_pos rfl]
            refine ⟨?_, ?_⟩
            · rw [kP]
              try rfl
            · rw [kP]
              exact hch2
          · rw [hfO]
            exact hpo
          · exact Rep_frame (fun j hj => by
              rw [hframe j (hneO j hj).1 (hneO j hj).2.1 (hneO j hj).2.2.1 (hneO j hj).2.2.2.2]
              exact ⟨rfl, rfl, rfl, rfl⟩) hRo
          · exact Par_frame2 (fun j hj => by
              rw [hframe j (hneO j hj).1 (hneO j hj).2.1 (hneO j hj).2.2.1 (hneO j hj).2.2.2.2]) hPo
          · refine CtxOk_frame krt ?_ (fun j hj => ?_) hctx2
            · rw [kP]
              try rfl
            · exact hframe j (hneT j hj).1 (hneT j hj).2.1 (hneT j hj).2.2.1 (hneT j hj).2.2.2.2
        · rw [k2]
          simp only [idxs_node]
          exact permBF iA iB d.idxs e.idxs r.idxs
        · intro j hj1 hj2
          simp only [idxs_node, List.mem_cons, List.mem_append, not_or] at hj1
          obtain ⟨njA, ⟨njB, njD, njE⟩, njR⟩ := hj1
          have hjP : j ≠ cr.p := by
            intro h
            rw [ctxIdxs_cons] at hj2
            exact hj2 (h ▸ List.mem_cons_self _ _)
          exact hframe j njA njB (fun h => njD (h ▸ rootIdx_mem d)) hjP
      | false =>
        rw [hdirb] at hch
        rw [if_neg (by simp)] at hch
        obtain ⟨hch1, hch2⟩ := hch
        have htest : ¬ (nd s cr.p).child1 = iA := by
          rw [hch1]
          intro h
          exact hAK (h ▸ homemK)
        obtain ⟨k2, kA, kB, kM, krt, kP, kfl, kcnt, kcap, klen⟩ :=
          rotB_key_cons_F_F hc1 hc2 hcB1 hcB2 hpa hPnn hPin hPA hPB hPD hPE hPR htest hAin hBin hDin hEin hRin hAB hAD' hAE' hAR' hBD' hBE' hBR' hDE' hDR' hER' hgate hbal hde
        have hframe : ∀ j : Int, j ≠ iA → j ≠ iB → j ≠ d.rootIdx → j ≠ cr.p →
            nd (balance s iA).1 j = nd s j := fun j n1 n2 n3 nP =>
          rotB_frame_cons_F_F hc1 hc2 hcB1 hcB2 hpa hPnn hPin hPA hPB hPD hPE hPR htest hAin hBin hDin hEin hRin hAB hAD' hAE' hAR' hBD' hBE' hBR' hDE' hDR' hER' hgate hbal hde j n1 n2 n3 nP
        have hfR : nd (balance s iA).1 r.rootIdx = nd s r.rootIdx :=
          hframe _ (Ne.symm hAR') (Ne.symm hBR') (Ne.symm hDR') (Ne.symm hPR)
        have hfK : nd (balance s iA).1 e.rootIdx = nd s e.rootIdx :=
          hframe _ (Ne.symm hAE') (Ne.symm hBE') (Ne.symm hDE') (Ne.symm hPE)
        have hfO : nd (balance s iA).1 cr.other.rootIdx = nd s cr.other.rootIdx := by
          have h := hneO cr.other.rootIdx (rootIdx_mem cr.other)
          exact hframe _ h.1 h.2.1 h.2.2.1 h.2.2.2.2
        have hRr2 : Rep (balance s iA).1 r := Rep_frame (fun j hj => by
          rw [hframe j (hneR j hj).1 (hneR j hj).2.1 (hneR j hj).2.2.1 (hneRP j hj)]
          exact ⟨rfl, rfl, rfl, rfl⟩) hRr
        have hRm2 : Rep (balance s iA).1 d := Rep_frame (fun j hj => by
          by_cases hjm : j = d.rootIdx
          · subst hjm
            rw [kM]
            exact ⟨rfl, rfl, rfl, rfl⟩
          · rw [hframe j (hneD j hj).1 (hneD j hj).2.1 hjm (hneDP j hj)]
            exact ⟨rfl, rfl, rfl, rfl⟩) hRd
        have hRk2 : Rep (balance s iA).1 e := Rep_frame (fun j hj => by
          rw [hframe j (hneE j hj).1 (hneE j hj).2.1 (hneE j hj).2.2.1 (hneEP j hj)]
          exact ⟨rfl, rfl, rfl, rfl⟩) hRe
        have hPr2 : Par (balance s iA).1 r := Par_frame2 (fun j hj => by
          rw [hframe j (hneR j hj).1 (hneR j hj).2.1 (hneR j hj).2.2.1 (hneRP j hj)]) hPr
        have hPm2 : Par (balance s iA).1 d := Par_frame hDnd (fun j hj hjr => by
          rw [hframe j (hneD j hj).1 (hneD j hj).2.1 hjr (hneDP j hj)]) hPd
        have hPk2 : Par (balance s iA).1 e := Par_frame2 (fun j hj => by
          rw [hframe j (hneE j hj).1 (hneE j hj).2.1 (hneE j hj).2.2.1 (hneEP j hj)]) hPe
        refine ⟨TView.node iA d r, e, ?_, ?_, ?_, ?_, hRk2, ?_, hPk2, ?_, ?_, ?_,
          ?_, ?_, kfl, kcnt, kcap, klen⟩
        · rw [k2]
          exact hB0
        · rw [k2, kB]
          try rfl
        · rw [k2, kB]
          try rfl
        · refine ⟨h0, ?_, ?_, ?_, ?_, hRm2, hRr2⟩
          · rw [kA]
            try rfl
          · rw [kA]
            exact hc2
          · rw [kA, hfR, kM]
            dsimp only
            omega
          · rw [kA, hfR, kM]
            dsimp only
            exact Rect.combine_comm _ _
        · refine ⟨?_, ?_, hPm2, hPr2⟩
          · rw [kM]
            try rfl
          · rw [hfR]
            exact hpr
        · rw [show (TView.node iA d r).rootIdx = iA from rfl, k2, kA]
          try rfl
        · rw [k2, hfK]
          exact hpe
        · rw [k2]
          refine ⟨hp0, ?_, ?_, ?_, ?_, ?_, ?_⟩
          · rw [kB]
            try rfl
          · rw [hdirb]
            rw [if_neg (by simp)]
            refine ⟨?_, ?_⟩
            · rw [kP]
              exact hch1
            · rw [kP]
              try rfl
          · rw [hfO]
            exact hpo
          · exact Rep_frame (fun j hj => by
              rw [hframe j (hneO j hj).1 (hneO j hj).2.1 (hneO j hj).2.2.1 (hneO j hj).2.2.2.2]
              exact ⟨rfl, rfl, rfl, rfl⟩) hRo
          · exact Par_frame2 (fun j hj => by
              rw [hframe j (hneO j hj).1 (hneO j hj).2.1 (hneO j hj).2.2.1 (hneO j hj).2.2.2.2]) hPo
          · refine CtxOk_frame krt ?_ (fun j hj => ?_) hctx2
            · rw [kP]
              try rfl
            · exact hframe j (hneT j hj).1 (hneT j hj).2.1 (hneT j hj).2.2.1 (hneT j hj).2.2.2.2
        · rw [k2]
          simp only [idxs_node]
          exact permBF iA iB d.idxs e.idxs r.idxs
        · intro j hj1 hj2
          simp only [idxs_node, List.mem_cons, List.mem_append, not_or] at hj1
          obtain ⟨njA, ⟨njB, njD, njE⟩, njR⟩ := hj1
          have hjP : j ≠ cr.p := by
            intro h
            rw [ctxIdxs_cons] at hj2
            exact hj2 (h ▸ List.mem_cons_self _ _)
          exact hframe j njA njB (fun h => njD (h ▸ rootIdx_mem d)) hjP



theorem balance_spec {s : DTree} {iA : Int} {l r : TView} {ctx : List Crumb}
    (h0 : 0 ≤ iA)
    (hc1 : (nd s iA).child1 = l.rootIdx)
    (hc2 : (nd s iA).child2 = r.rootIdx)
    (hRl : Rep s l) (hRr : Rep s r)
    (hPl : Par s l) (hPr : Par s r)
    (hpl : (nd s l.rootIdx).parentOrNext = iA)
    (hpr : (nd s r.rootIdx).parentOrNext = iA)
    (hctx : CtxOk s iA ctx)
    (hb : ∀ j ∈ (TView.node iA l r).idxs ++ ctxIdxs ctx, 0 ≤ j ∧ j.toNat < s.nodes.length)
    (hnd : ((TView.node iA l r).idxs ++ ctxIdxs ctx).Nodup) :
    ∃ l2 r2 : TView,
      0 ≤ (balance s iA).2 ∧
      (nd (balance s iA).1 (balance s iA).2).child1 = l2.rootIdx ∧
      (nd (balance s iA).1 (balance s iA).2).child2 = r2.rootIdx ∧
      Rep (balance s iA).1 l2 ∧ Rep (balance s iA).1 r2 ∧
      Par (balance s iA).1 l2 ∧ Par (balance s iA).1 r2 ∧
      (nd (balance s iA).1 l2.rootIdx).parentOrNext = (balance s iA).2 ∧
      (nd (balance s iA).1 r2.rootIdx).parentOrNext = (balance s iA).2 ∧
      CtxOk (balance s iA).1 (balance s iA).2 ctx ∧
      ((balance s iA).2 :: (l2.idxs ++ r2.idxs)).Perm ((TView.node iA l r).idxs) ∧
      (∀ j : Int, j ∉ (TView.node iA l r).idxs → j ∉ ctxIdxs ctx →
        nd (balance s iA).1 j = nd s j) ∧
      (balance s iA).1.freeList = s.freeList ∧
      (balance s iA).1.nodeCount = s.nodeCount ∧
      (balance s iA).1.nodeCapacity = s.nodeCapacity ∧
      (balance s iA).1.nodes.length = s.nodes.length := by
  by_cases hgate : (nd s iA).IsLeaf ∨ (nd s iA).height < 2
  · have heq : balance s iA = (s, iA) := by
      unfold balance
      rw [if_pos hgate]
    rw [heq]
    refine ⟨l, r, h0, hc1, hc2, hRl, hRr, hPl, hPr, hpl, hpr, hctx, ?_,
      fun j _ _ => rfl, rfl, rfl, rfl, rfl⟩
    simp only [idxs_node]
    exact List.Perm.refl _
  · by_cases hbalC : 1 < (nd s r.rootIdx).height - (nd s l.rootIdx).height
    · cases r with
      | leaf j =>
        exfalso
        have h1 : (nd s (TView.leaf j).rootIdx).height = 0 := hRr.2.2.2
        have h2 : 0 ≤ (nd s l.rootIdx).height := Rep_height_nonneg hRl
        omega
      | node iC f g =>
        exact balance_spec_rotC h0 hc1 hc2 hRl hRr hPl hPr hpl hpr hctx hb hnd hgate hbalC
    · by_cases hbalB : (nd s r.rootIdx).height - (nd s l.rootIdx).height < -1
      · cases l with
        | leaf j =>
          exfalso
          have h1 : (nd s (TView.leaf j).rootIdx).height = 0 := hRl.2.2.2
          have h2 : 0 ≤ (nd s r.rootIdx).height := Rep_height_nonneg hRr
          omega
        | node iB d e =>
          exact balance_spec_rotB h0 hc1 hc2 hRl hRr hPl hPr hpl hpr hctx hb hnd hgate hbalB
      · have heq : balance s iA = (s, iA) := by
          unfold balance
          rw [if_neg hgate]
          dsimp only
          simp only [hc1, hc2]
          rw [if_neg hbalC, if_neg hbalB]
        rw [heq]
        refine ⟨l, r, h0, hc1, hc2, hRl, hRr, hPl, hPr, hpl, hpr, hctx, ?_,
          fun j _ _ => rfl, rfl, rfl, rfl, rfl⟩
        simp only [idxs_node]
        exact List.Perm.refl _

theorem fixUpward_null (s : DTree) : ∀ fuel : Nat, fixUpward s fuel nullNode = s := by
  intro fuel
  cases fuel with
  | zero => rfl
  | succ f =>
    show (if nullNode = nullNode then s else _) = s
    rw [if_pos rfl]

theorem ctxIdxs_len (ctx : List Crumb) : ctx.length ≤ (ctxIdxs ctx).length := by
  induction ctx with
  | nil => simp [ctxIdxs]
  | cons cr ctx ih =>
    rw [ctxIdxs_cons]
    simp only [List.length_cons, List.length_append]
    omega



theorem fixUpward_succ (s : DTree) (fuel : Nat) (index : Int) (h : ¬ index = nullNode) :
    fixUpward s (fuel + 1) index =
      (let p := balance s index
       let s := p.1
       let index := p.2
       let child1 := (nd s index).child1
       let child2 := (nd s index).child2
       let s := setNode s index
         { nd s index with
           height := 1 + max (nd s child1).height (nd s child2).height
           aabb := ((nd s child1).aabb).combine ((nd s child2).aabb) }
       fixUpward s fuel ((nd s index).parentOrNext)) := by
  show (if index = nullNode then s else _) = _
  rw [if_neg h]

theorem fixUpward_succ2 (s : DTree) (fuel : Nat) (index c1 c2 : Int)
    (h : ¬ index = nullNode)
    (h1 : (nd (balance s index).1 (balance s index).2).child1 = c1)
    (h2 : (nd (balance s index).1 (balance s index).2).child2 = c2) :
    fixUpward s (fuel + 1) index =
      fixUpward (setNode (balance s index).1 (balance s index).2
        { nd (balance s index).1 (balance s index).2 with
          height := 1 + max (nd (balance s index).1 c1).height
            (nd (balance s index).1 c2).height
          aabb := ((nd (balance s index).1 c1).aabb).combine
            ((nd (balance s index).1 c2).aabb) }) fuel
        ((nd (setNode (balance s index).1 (balance s index).2
          { nd (balance s index).1 (balance s index).2 with
            height := 1 + max (nd (balance s index).1 c1).height
              (nd (balance s index).1 c2).height
            aabb := ((nd (balance s index).1 c1).aabb).combine
              ((nd (balance s index).1 c2).aabb) }) (balance s index).2).parentOrNext) := by
  rw [fixUpward_succ s fuel index h]
  dsimp only
  rw [h1, h2]

theorem fixUpward_spec :
    ∀ (ctx : List Crumb) (s : DTree) (iA : Int) (l r : TView) (extra : Nat),
      0 ≤ iA →
      (nd s iA).child1 = l.rootIdx → (nd s iA).child2 = r.rootIdx →
      Rep s l → Rep s r → Par s l → Par s r →
      (nd s l.rootIdx).parentOrNext = iA → (nd s r.rootIdx).parentOrNext = iA →
      CtxOk s iA ctx →
      (∀ j ∈ (TView.node iA l r).idxs ++ ctxIdxs ctx, 0 ≤ j ∧ j.toNat < s.nodes.length) →
      ((TView.node iA l r).idxs ++ ctxIdxs ctx).Nodup →
      ∃ t2 : TView,
        Rep (fixUpward s (extra + (ctx.length + 1)) iA) t2 ∧
        Par (fixUpward s (extra + (ctx.length + 1)) iA) t2 ∧
        (fixUpward s (extra + (ctx.length + 1)) iA).root = t2.rootIdx ∧
        (nd (fixUpward s (extra + (ctx.length + 1)) iA) t2.rootIdx).parentOrNext =
          nullNode ∧
        t2.idxs.Perm ((TView.node iA l r).idxs ++ ctxIdxs ctx) ∧
        (∀ j : Int, j ∉ (TView.node iA l r).idxs ++ ctxIdxs ctx →
          nd (fixUpward s (extra + (ctx.length + 1)) iA) j = nd s j) ∧
        (fixUpward s (extra + (ctx.length + 1)) iA).freeList = s.freeList ∧
        (fixUpward s (extra + (ctx.length + 1)) iA).nodeCount = s.nodeCount ∧
        (fixUpward s (extra + (ctx.length + 1)) iA).nodeCapacity = s.nodeCapacity ∧
        (fixUpward s (extra + (ctx.length + 1)) iA).nodes.length = s.nodes.length := by
  intro ctx
  induction ctx with
  | nil =>
    intro s iA l r extra h0 hc1 hc2 hRl hRr hPl hPr hpl hpr hctx hb hnd
    have hnn : ¬ iA = nullNode := by
      unfold nullNode
      omega
    obtain ⟨l2, r2, k0, kc1, kc2, kRl, kRr, kPl, kPr, kpl, kpr, kctx, kperm, kframe,
      kfl, kcnt, kcap, klen⟩ :=
      balance_spec h0 hc1 hc2 hRl hRr hPl hPr hpl hpr hctx hb hnd
    have hi2mem : (balance s iA).2 ∈ (TView.node iA l r).idxs :=
      kperm.mem_iff.mp (List.mem_cons_self _ _)
    have hi2in : inPool (balance s iA).1 (balance s iA).2 := by
      refine ⟨k0, ?_⟩
      rw [klen]
      exact (hb _ (List.mem_append_left _ hi2mem)).2
    have htnd : (TView.node iA l r).idxs.Nodup := (List.nodup_append.mp hnd).1
    have hndnew : ((balance s iA).2 :: (l2.idxs ++ r2.idxs)).Nodup :=
      htnd.perm kperm.symm
    rw [List.nodup_cons] at hndnew
    obtain ⟨hi2no, hlr2⟩ := hndnew
    have hl20 : 0 ≤ l2.rootIdx := Rep_rootIdx_nonneg kRl
    have hr20 : 0 ≤ r2.rootIdx := Rep_rootIdx_nonneg kRr
    have hl2ne : l2.rootIdx ≠ (balance s iA).2 :=
      fun h => hi2no (List.mem_append_left _ (h ▸ rootIdx_mem l2))
    have hr2ne : r2.rootIdx ≠ (balance s iA).2 :=
      fun h => hi2no (List.mem_append_right _ (h ▸ rootIdx_mem r2))
    simp only [List.length_nil, Nat.zero_add]
    rw [fixUpward_succ2 s extra iA l2.rootIdx r2.rootIdx hnn kc1 kc2]
    have frame2 : ∀ j : Int, j ≠ (balance s iA).2 →
        nd (setNode (balance s iA).1 (balance s iA).2
          { nd (balance s iA).1 (balance s iA).2 with
            height := 1 + max (nd (balance s iA).1 l2.rootIdx).height
              (nd (balance s iA).1 r2.rootIdx).height
            aabb := ((nd (balance s iA).1 l2.rootIdx).aabb).combine
              ((nd (balance s iA).1 r2.rootIdx).aabb) }) j = nd (balance s iA).1 j :=
      fun j hj => nd_setNode_other _ _ _ _ hj
    have self2 : nd (setNode (balance s iA).1 (balance s iA).2
          { nd (balance s iA).1 (balance s iA).2 with
            height := 1 + max (nd (balance s iA).1 l2.rootIdx).height
              (nd (balance s iA).1 r2.rootIdx).height
            aabb := ((nd (balance s iA).1 l2.rootIdx).aabb).combine
              ((nd (balance s iA).1 r2.rootIdx).aabb) }) (balance s iA).2 =
          { nd (balance s iA).1 (balance s iA).2 with
            height := 1 + max (nd (balance s iA).1 l2.rootIdx).height
              (nd (balance s iA).1 r2.rootIdx).height
            aabb := ((nd (balance s iA).1 l2.rootIdx).aabb).combine
              ((nd (balance s iA).1 r2.rootIdx).aabb) } :=
      nd_setNode_self _ _ _ hi2in
    have hpar : (nd (setNode (balance s iA).1 (balance s iA).2
          { nd (balance s iA).1 (balance s iA).2 with
            height := 1 + max (nd (balance s iA).1 l2.rootIdx).height
              (nd (balance s iA).1 r2.rootIdx).height
            aabb := ((nd (balance s iA).1 l2.rootIdx).aabb).combine
              ((nd (balance s iA).1 r2.rootIdx).aabb) }) (balance s iA).2).parentOrNext =
        nullNode := by
      rw [self2]
      exact kctx.2
    rw [hpar, fixUpward_null]
    refine ⟨TView.node (balance s iA).2 l2 r2, ?_, ?_, ?_, ?_, ?_, ?_, ?_, ?_, ?_, ?_⟩
    · refine ⟨k0, ?_, ?_, ?_, ?_, ?_, ?_⟩
      · rw [self2]
        exact kc1
      · rw [self2]
        exact kc2
      · rw [self2, frame2 _ hl2ne, frame2 _ hr2ne]
      · rw [self2, frame2 _ hl2ne, frame2 _ hr2ne]
      · refine Rep_frame (fun j hj => ?_) kRl
        rw [frame2 j (fun h => hi2no (List.mem_append_left _ (h ▸ hj)))]
        exact ⟨rfl, rfl, rfl, rfl⟩
      · refine Rep_frame (fun j hj => ?_) kRr
        rw [frame2 j (fun h => hi2no (List.mem_append_right _ (h ▸ hj)))]
        exact ⟨rfl, rfl, rfl, rfl⟩
    · refine ⟨?_, ?_, ?_, ?_⟩
      · rw [frame2 _ hl2ne]
        exact kpl
      · rw [frame2 _ hr2ne]
        exact kpr
      · refine Par_frame2 (fun j hj => ?_) kPl
        rw [frame2 j (fun h => hi2no (List.mem_append_left _ (h ▸ hj)))]
      · refine Par_frame2 (fun j hj => ?_) kPr
        rw [frame2 j (fun h => hi2no (List.mem_append_right _ (h ▸ hj)))]
    · rw [setNode_root]
      exact kctx.1
    · exact hpar
    · rw [show ctxIdxs ([] : List Crumb) = [] from rfl, List.append_nil]
      exact kperm
    · intro j hj
      simp only [List.mem_append, not_or] at hj
      obtain ⟨hj1, hj2⟩ := hj
      have hji2 : j ≠ (balance s iA).2 := fun h => hj1 (h ▸ hi2mem)
      rw [frame2 j hji2]
      exact kframe j hj1 hj2
    · rw [setNode_freeList]
      exact kfl
    · rw [setNode_nodeCount]
      exact kcnt
    · rw [setNode_nodeCapacity]
      exact kcap
    · rw [setNode_length]
      exact klen
  | cons cr ctx ih =>
    intro s iA l r extra h0 hc1 hc2 hRl hRr hPl hPr hpl hpr hctx hb hnd
    have hnn : ¬ iA = nullNode := by
      unfold nullNode
      omega
    obtain ⟨l2, r2, k0, kc1, kc2, kRl, kRr, kPl, kPr, kpl, kpr, kctx, kperm, kframe,
      kfl, kcnt, kcap, klen⟩ :=
      balance_spec h0 hc1 hc2 hRl hRr hPl hPr hpl hpr hctx hb hnd
    have hi2mem : (balance s iA).2 ∈ (TView.node iA l r).idxs :=
      kperm.mem_iff.mp (List.mem_cons_self _ _)
    have hi2in : inPool (balance s iA).1 (balance s iA).2 := by
      refine ⟨k0, ?_⟩
      rw [klen]
      exact (hb _ (List.mem_append_left _ hi2mem)).2
    have htnd : (TView.node iA l r).idxs.Nodup := (List.nodup_append.mp hnd).1
    have hdisj : ∀ a ∈ (TView.node iA l r).idxs, a ∉ ctxIdxs (cr :: ctx) :=
      fun a ha => List.disjoint_left.mp (List.nodup_append.mp hnd).2.2 ha
    have hndnew : ((balance s iA).2 :: (l2.idxs ++ r2.idxs)).Nodup :=
      htnd.perm kperm.symm
    rw [List.nodup_cons] at hndnew
    obtain ⟨hi2no, hlr2⟩ := hndnew
    have hl2ne : l2.rootIdx ≠ (balance s iA).2 :=
      fun h => hi2no (List.mem_append_left _ (h ▸ rootIdx_mem l2))
    have hr2ne : r2.rootIdx ≠ (balance s iA).2 :=
      fun h => hi2no (List.mem_append_right _ (h ▸ rootIdx_mem r2))
    obtain ⟨q0, qpa, qch, qpo, qRo, qPo, qctx⟩ := kctx
    have hi2P : (balance s iA).2 ≠ cr.p := by
      intro h
      refine hdisj _ hi2mem ?_
      rw [ctxIdxs_cons]
      exact h ▸ List.mem_cons_self _ _
    have hi2O : ∀ j ∈ cr.other.idxs, j ≠ (balance s iA).2 := by
      intro j hj h
      refine hdisj _ hi2mem ?_
      rw [ctxIdxs_cons]
      exact List.mem_cons_of_mem _ (List.mem_append_left _ (h ▸ hj))
    have hi2T : ∀ j ∈ ctxIdxs ctx, j ≠ (balance s iA).2 := by
      intro j hj h
      refine hdisj _ hi2mem ?_
      rw [ctxIdxs_cons]
      exact List.mem_cons_of_mem _ (List.mem_append_right _ (h ▸ hj))
    have hfuel : extra + ((cr :: ctx).length + 1) = (extra + (ctx.length + 1)) + 1 := by
      simp only [List.length_cons]
      omega
    rw [hfuel, fixUpward_succ2 s (extra + (ctx.length + 1)) iA l2.rootIdx r2.rootIdx
      hnn kc1 kc2]
    have frame2 : ∀ j : Int, j ≠ (balance s iA).2 →
        nd (setNode (balance s iA).1 (balance s iA).2
          { nd (balance s iA).1 (balance s iA).2 with
            height := 1 + max (nd (balance s iA).1 l2.rootIdx).height
              (nd (balance s iA).1 r2.rootIdx).height
            aabb := ((nd (balance s iA).1 l2.rootIdx).aabb).combine
              ((nd (balance s iA).1 r2.rootIdx).aabb) }) j = nd (balance s iA).1 j :=
      fun j hj => nd_setNode_other _ _ _ _ hj
    have self2 : nd (setNode (balance s iA).1 (balance s iA).2
          { nd (balance s iA).1 (balance s iA).2 with
            height := 1 + max (nd (balance s iA).1 l2.rootIdx).height
              (nd (balance s iA).1 r2.rootIdx).height
            aabb := ((nd (balance s iA).1 l2.rootIdx).aabb).combine
              ((nd (balance s iA).1 r2.rootIdx).aabb) }) (balance s iA).2 =
          { nd (balance s iA).1 (balance s iA).2 with
            height := 1 + max (nd (balance s iA).1 l2.rootIdx).height
              (nd (balance s iA).1 r2.rootIdx).height
            aabb := ((nd (balance s iA).1 l2.rootIdx).aabb).combine
              ((nd (balance s iA).1 r2.rootIdx).aabb) } :=
      nd_setNode_self _ _ _ hi2in
    have hpar : (nd (setNode (balance s iA).1 (balance s iA).2
          { nd (balance s iA).1 (balance s iA).2 with
            height := 1 + max (nd (balance s iA).1 l2.rootIdx).height
              (nd (balance s iA).1 r2.rootIdx).height
            aabb := ((nd (balance s iA).1 l2.rootIdx).aabb).combine
              ((nd (balance s iA).1 r2.rootIdx).aabb) }) (balance s iA).2).parentOrNext =
        cr.p := by
      rw [self2]
      exact qpa
    rw [hpar]
    -- facts about the recompute state, named S2 via generalize
    generalize hS2 : setNode (balance s iA).1 (balance s iA).2
          { nd (balance s iA).1 (balance s iA).2 with
            height := 1 + max (nd (balance s iA).1 l2.rootIdx).height
              (nd (balance s iA).1 r2.rootIdx).height
            aabb := ((nd (balance s iA).1 l2.rootIdx).aabb).combine
              ((nd (balance s iA).1 r2.rootIdx).aabb) } = S2
    rw [hS2] at frame2 self2 hpar
    have hRt2 : Rep S2 (TView.node (balance s iA).2 l2 r2) := by
      refine ⟨k0, ?_, ?_, ?_, ?_, ?_, ?_⟩
      · rw [self2]
        exact kc1
      · rw [self2]
        exact kc2
      · rw [self2, frame2 _ hl2ne, frame2 _ hr2ne]
      · rw [self2, frame2 _ hl2ne, frame2 _ hr2ne]
      · refine Rep_frame (fun j hj => ?_) kRl
        rw [frame2 j (fun h => hi2no (List.mem_append_left _ (h ▸ hj)))]
        exact ⟨rfl, rfl, rfl, rfl⟩
      · refine Rep_frame (fun j hj => ?_) kRr
        rw [frame2 j (fun h => hi2no (List.mem_append_right _ (h ▸ hj)))]
        exact ⟨rfl, rfl, rfl, rfl⟩
    have hPt2 : Par S2 (TView.node (balance s iA).2 l2 r2) := by
      refine ⟨?_, ?_, ?_, ?_⟩
      · rw [frame2 _ hl2ne]
        exact kpl
      · rw [frame2 _ hr2ne]
        exact kpr
      · refine Par_frame2 (fun j hj => ?_) kPl
        rw [frame2 j (fun h => hi2no (List.mem_append_left _ (h ▸ hj)))]
      · refine Par_frame2 (fun j hj => ?_) kPr
        rw [frame2 j (fun h => hi2no (List.mem_append_right _ (h ▸ hj)))]
    have hfp : nd S2 cr.p = nd (balance s iA).1 cr.p := frame2 _ (Ne.symm hi2P)
    have hRoS2 : Rep S2 cr.other := by
      refine Rep_frame (fun j hj => ?_) qRo
      rw [frame2 j (hi2O j hj)]
      exact ⟨rfl, rfl, rfl, rfl⟩
    have hPoS2 : Par S2 cr.other := by
      refine Par_frame2 (fun j hj => ?_) qPo
      rw [frame2 j (hi2O j hj)]
    have hpoS2 : (nd S2 cr.other.rootIdx).parentOrNext = cr.p := by
      rw [frame2 _ (hi2O _ (rootIdx_mem cr.other))]
      exact qpo
    have hctxS2 : CtxOk S2 cr.p ctx := by
      refine CtxOk_frame ?_ ?_ (fun j hj => ?_) qctx
      · rw [← hS2, setNode_root]
      · rw [hfp]
      · rw [frame2 j (hi2T j hj)]
    have hS2len : S2.nodes.length = s.nodes.length := by
      rw [← hS2, setNode_length, klen]
    have hS2fl : S2.freeList = s.freeList := by
      rw [← hS2, setNode_freeList, kfl]
    have hS2cnt : S2.nodeCount = s.nodeCount := by
      rw [← hS2, setNode_nodeCount, kcnt]
    have hS2cap : S2.nodeCapacity = s.nodeCapacity := by
      rw [← hS2, setNode_nodeCapacity, kcap]
    have hfS2 : ∀ j : Int, j ∉ (TView.node iA l r).idxs → j ∉ ctxIdxs (cr :: ctx) →
        nd S2 j = nd s j := by
      intro j hj1 hj2
      rw [frame2 j (fun h => hj1 (h ▸ hi2mem))]
      exact kframe j hj1 hj2
    cases hdirb : cr.dir with
    | true =>
      rw [hdirb] at qch
      rw [if_pos rfl] at qch
      obtain ⟨qc1, qc2⟩ := qch
      have hBigPerm : ((TView.node cr.p (TView.node (balance s iA).2 l2 r2)
          cr.other).idxs ++ ctxIdxs ctx).Perm
          ((TView.node iA l r).idxs ++ ctxIdxs (cr :: ctx)) := by
        rw [idxs_node, ctxIdxs_cons, List.cons_append]
        refine List.Perm.trans ?_ List.perm_middle.symm
        refine List.Perm.cons cr.p ?_
        have h1 : (TView.node (balance s iA).2 l2 r2).idxs.Perm
            (TView.node iA l r).idxs := by
          rw [idxs_node]
          exact kperm
        refine List.Perm.trans
          (List.Perm.append_right _ (List.Perm.append_right _ h1)) ?_
        rw [List.append_assoc]
      obtain ⟨t2, w1, w2, w3, w4, w5, w6, w7, w8, w9, w10⟩ :=
        ih S2 cr.p (TView.node (balance s iA).2 l2 r2) cr.other extra q0
          (by rw [hfp]; exact qc1) (by rw [hfp]; exact qc2)
          hRt2 hRoS2 hPt2 hPoS2
          (by rw [show (TView.node (balance s iA).2 l2 r2).rootIdx = (balance s iA).2
              from rfl, hpar])
          hpoS2 hctxS2
          (by
            intro j hj
            have := hb j (hBigPerm.mem_iff.mp hj)
            rw [hS2len]
            exact this)
          (hnd.perm hBigPerm.symm)
      refine ⟨t2, w1, w2, w3, w4, ?_, ?_, ?_, ?_, ?_, ?_⟩
      · exact w5.trans hBigPerm
      · intro j hj
        have hjnew : j ∉ (TView.node cr.p (TView.node (balance s iA).2 l2 r2)
            cr.other).idxs ++ ctxIdxs ctx := fun h => hj (hBigPerm.mem_iff.mp h)
        rw [w6 j hjnew]
        simp only [List.mem_append, not_or] at hj
        exact hfS2 j hj.1 hj.2
      · rw [w7, hS2fl]
      · rw [w8, hS2cnt]
      · rw [w9, hS2cap]
      · rw [w10, hS2len]
    | false =>
      rw [hdirb] at qch
      rw [if_neg (by simp)] at qch
      obtain ⟨qc1, qc2⟩ := qch
      have hBigPerm : ((TView.node cr.p cr.other (TView.node (balance s iA).2
          l2 r2)).idxs ++ ctxIdxs ctx).Perm
          ((TView.node iA l r).idxs ++ ctxIdxs (cr :: ctx)) := by
        rw [idxs_node, ctxIdxs_cons, List.cons_append]
        refine List.Perm.trans ?_ List.perm_middle.symm
        refine List.Perm.cons cr.p ?_
        have h1 : (cr.other.idxs ++ (TView.node (balance s iA).2 l2 r2).idxs).Perm
            ((TView.node iA l r).idxs ++ cr.other.idxs) := by
          refine List.perm_append_comm.trans (List.Perm.append_right _ ?_)
          rw [idxs_node]
          exact kperm
        refine List.Perm.trans (List.Perm.append_right _ h1) ?_
        rw [List.append_assoc]
      obtain ⟨t2, w1, w2, w3, w4, w5, w6, w7, w8, w9, w10⟩ :=
        ih S2 cr.p cr.other (TView.node (balance s iA).2 l2 r2) extra q0
          (by rw [hfp]; exact qc1) (by rw [hfp]; exact qc2)
          hRoS2 hRt2 hPoS2 hPt2
          hpoS2
          (by rw [show (TView.node (balance s iA).2 l2 r2).rootIdx = (balance s iA).2
              from rfl, hpar])
          hctxS2
          (by
            intro j hj
            have := hb j (hBigPerm.mem_iff.mp hj)
            rw [hS2len]
            exact this)
          (hnd.perm hBigPerm.symm)
      refine ⟨t2, w1, w2, w3, w4, ?_, ?_, ?_, ?_, ?_, ?_⟩
      · exact w5.trans hBigPerm
      · intro j hj
        have hjnew : j ∉ (TView.node cr.p cr.other (TView.node (balance s iA).2
            l2 r2)).idxs ++ ctxIdxs ctx := fun h => hj (hBigPerm.mem_iff.mp h)
        rw [w6 j hjnew]
        simp only [List.mem_append, not_or] at hj
        exact hfS2 j hj.1 hj.2
      · rw [w7, hS2fl]
      · rw [w8, hS2cnt]
      · rw [w9, hS2cap]
      · rw [w10, hS2len]


end DynTree
